import Mathlib

/-!
# SPH plugin: incremental embedding job and cross-view selection mapping

A shallow embedding of the parts of the SPH plugin that drive the chunked
gradient descent (`EmbedWorker::compute`, `ComputeEmbeddingWrapper.cpp`), map
selections between pixels and superpixels (`Utils.cpp`), propagate selections
between views (`SphPlugin.cpp`, `RefinedSelectionMapping.cpp`), switch levels
(`SPHPlugin::updateEmbedding`) and refine a selection (`RefineAction.cpp`).

Machine integers are natural numbers or integers with explicit wrap-around.
-/

set_option linter.unusedVariables false
set_option linter.unusedSectionVars false

/-! ## 32-bit conversions -/

/-- Conversion of an integer value to `uint32_t` (reduction modulo 2^32). -/
def castU32 (x : Int) : Nat := (x % 4294967296).toNat

/-- Conversion of an integer value to `int32_t` (two's complement wrap-around). -/
def castI32 (x : Int) : Int := (x + 2147483648) % 4294967296 - 2147483648

namespace EmbedWorker

/-- The constant `_updateSteps`: number of iterations per chunk. -/
def updateSteps : Nat := 10

/-- Signals emitted by the worker and calls made into the embedding engine, in the
order in which they happen. `initGradientDescent n` and `continueGradientDescent n`
are the two kinds of engine step; `engineResetStop` and `engineStop` are the
`resetStop()` and `stop()` calls forwarded to the engine. -/
inductive Event where
  | started
  | engineResetStop
  | engineStop
  | initGradientDescent (n : Nat)
  | continueGradientDescent (n : Nat)
  | embeddingUpdate
  | publishExtends
  | finished
  | stopped
  deriving DecidableEq, Repr

/-- The data members of `EmbedWorker` that `compute` reads or writes. -/
structure Worker where
  currentIteration : Nat
  publishExtendsIter : Nat
  shouldStop : Bool
  deriving DecidableEq, Repr

/-- A run of a member function: the worker, everything emitted so far, the number
of reads of the volatile `_shouldStop` flag made so far, and whether the run was
ended by a failed `assert`. -/
structure Run where
  w : Worker
  trace : List Event
  checks : Nat
  assertFailed : Bool
  deriving DecidableEq, Repr

/-- Append one event to the trace of a run. -/
def Run.emit (r : Run) (e : Event) : Run :=
  { r with trace := r.trace ++ [e] }

/-- The function `EmbedWorker::resetStop`. -/
def resetStop (r : Run) : Run :=
  ({ r with w := { r.w with shouldStop := false } }).emit Event.engineResetStop

/-- The function `EmbedWorker::stop`: sets the flag, forwards the stop request to the
engine and emits `stopped`. -/
def stop (r : Run) : Run :=
  (({ r with w := { r.w with shouldStop := true } }).emit Event.engineStop).emit Event.stopped

/-- The function `EmbedWorker::initGradientDescent`: one initialization step of
the engine followed by an `embeddingUpdate` signal (both normalization schemes do
exactly this). -/
def initGradientDescent (r : Run) (iterations : Nat) : Run :=
  (r.emit (Event.initGradientDescent iterations)).emit Event.embeddingUpdate

/-- The function `EmbedWorker::continueGradientDescent`: one continuation step of
the engine followed by an `embeddingUpdate` signal. -/
def continueGradientDescent (r : Run) (iterations : Nat) : Run :=
  (r.emit (Event.continueGradientDescent iterations)).emit Event.embeddingUpdate

/-- The lambda `checkPublishExtends` of `compute`. The sum
`_publishExtendsIter + _updateSteps` is a `uint32_t` sum. -/
def checkPublishExtends (r : Run) : Run :=
  if r.w.currentIteration ≥ (r.w.publishExtendsIter + updateSteps) % 4294967296 then r
  else if r.w.currentIteration ≥ r.w.publishExtendsIter then r.emit Event.publishExtends
  else r

/-- The statement `_currentIteration += n` on the `uint32_t` counter. -/
def advance (r : Run) (n : Nat) : Run :=
  { r with w := { r.w with currentIteration := (r.w.currentIteration + n) % 4294967296 } }

/-- One read of the volatile flag `_shouldStop`. The flag is cleared by the worker
itself (`resetStop`) and set, from another thread, by `stop()`; `stopSeen j` tells
whether a `stop()` call has become visible to the read number `j` of the run
(counted from 0) and to no earlier read. The read finds the flag set when it was
set before or such a call has arrived. -/
def readStop (stopSeen : Nat → Bool) (r : Run) : Bool × Run :=
  (r.w.shouldStop || stopSeen r.checks,
    { r with
      w := { r.w with shouldStop := r.w.shouldStop || stopSeen r.checks }
      checks := r.checks + 1 })

/-- The body of the `while` loop of `compute` after its stop check: one continuation
step of `_updateSteps` iterations, the counter update and the publish check. -/
def chunk (stopSeen : Nat → Bool) (r : Run) : Run :=
  checkPublishExtends (advance (continueGradientDescent (readStop stopSeen r).2 updateSteps)
    updateSteps)

/-- The `while` loop of `compute`. `remainingIter` is the `int32_t` local; the
comparison with `_updateSteps` and the subtraction are done in `uint32_t`.
Returns the value of `remainingIter` on exit, the run, and whether the loop was
left through `return` because the stop flag was seen. -/
def descentLoop (stopSeen : Nat → Bool) (remainingIter : Int) (r : Run) : Int × Run × Bool :=
  if h : remainingIter > 0 ∧ castU32 remainingIter ≥ updateSteps then
    if (readStop stopSeen r).1 then
      (remainingIter, (readStop stopSeen r).2, true)
    else
      descentLoop stopSeen (castI32 ((castU32 remainingIter : Int) - (updateSteps : Int)))
        (chunk stopSeen r)
  else
    (remainingIter, r, false)
termination_by remainingIter.toNat
decreasing_by
  simp only [castU32, castI32, updateSteps] at *
  omega

/-- The part of `compute` after the `while` loop: the remainder step and the
`finished` signal. -/
def finishCompute (stopSeen : Nat → Bool) (iterations : Nat) (remainingIter : Int) (r : Run) :
    Run :=
  if remainingIter ≠ 0 then
    if remainingIter < 0 ∧ ¬ (iterations < updateSteps) then
      -- assert(iterations < _updateSteps) fails
      { r with assertFailed := true }
    else
      let rem : Int := if remainingIter < 0 then castI32 iterations else remainingIter
      if (readStop stopSeen r).1 then
        (readStop stopSeen r).2
      else
        (checkPublishExtends (advance
          (continueGradientDescent (readStop stopSeen r).2 (castU32 rem)) (castU32 rem))).emit
          Event.finished
  else
    r.emit Event.finished

/-- The function `EmbedWorker::compute(iterations, init)`. `stopSeen j` tells
whether a `stop()` call made during the run becomes visible at the `j`-th read of
`_shouldStop` (counted from 0); as the flag is cleared on entry, the first read
that finds the flag set is the first `j` with `stopSeen j`. -/
def compute (w : Worker) (iterations : Nat) (init : Bool) (stopSeen : Nat → Bool) : Run :=
  if iterations = 0 then
    { w := w, trace := [], checks := 0, assertFailed := false }
  else
    let r0 : Run := resetStop
      (({ w := w, trace := [], checks := 0, assertFailed := false } : Run).emit Event.started)
    let firstUpdate : Nat := if iterations ≤ updateSteps then iterations else updateSteps
    let remInit : Int :=
      if iterations ≤ updateSteps then 0 else castI32 ((castU32 iterations : Int) - updateSteps)
    let r1 : Run :=
      if init then checkPublishExtends (advance (initGradientDescent r0 firstUpdate) firstUpdate)
      else r0
    let remainingIter : Int := if init then remInit else castI32 iterations
    let out := descentLoop stopSeen remainingIter r1
    if out.2.2 then out.2.1
    else finishCompute stopSeen iterations out.1 out.2.1

/-- The run after the initialization step of `compute` for more than ten iterations. -/
def afterInit (w : Worker) : Run :=
  checkPublishExtends (advance (initGradientDescent (resetStop
    (({ w := w, trace := [], checks := 0, assertFailed := false } : Run).emit Event.started))
    10) 10)

/-- The run with which `compute` reaches its `while` loop. -/
def beforeLoop (w : Worker) (iterations : Nat) (init : Bool) : Run :=
  if init then
    checkPublishExtends (advance (initGradientDescent (resetStop
      (({ w := w, trace := [], checks := 0, assertFailed := false } : Run).emit Event.started))
      (min iterations 10)) (min iterations 10))
  else
    resetStop (({ w := w, trace := [], checks := 0, assertFailed := false } : Run).emit
      Event.started)

/-- The value of `remainingIter` with which `compute` reaches its `while` loop, for
requests below 2^31. -/
def loopStart (iterations : Nat) (init : Bool) : Nat :=
  if init then iterations - 10 else iterations

/-- A run that has met no failed assertion and has emitted neither `finished` nor
`stopped`. -/
def Quiet (r : Run) : Prop :=
  r.assertFailed = false ∧ r.trace.count Event.finished = 0 ∧ r.trace.count Event.stopped = 0

instance (r : Run) : Decidable (Quiet r) := by
  unfold Quiet; infer_instance

/-- The function `EmbedWorker::continueComputation`. -/
def continueComputation (w : Worker) (iterations : Nat) (stopSeen : Nat → Bool) : Run :=
  compute w iterations false stopSeen

/-- The engine steps of a trace, in order. -/
def engineSteps (t : List Event) : List Event :=
  t.filter (fun e => match e with
    | Event.initGradientDescent _ => true
    | Event.continueGradientDescent _ => true
    | _ => false)

/-- The environment in which nobody calls `stop()`. -/
def neverStopped : Nat → Bool := fun _ => false

end EmbedWorker

/-! ## Selection mapping (`Utils.cpp`) -/

/-- The value `std::numeric_limits<uint64_t>::max()`, which marks an unmapped pixel
in a fine-to-coarse map. -/
def UINT64_MAX : Nat := 18446744073709551615

/-- Ways in which a selection function can fail to return: a failed `assert`, a
read past the end of a vector, or, for the selection hubs, a chain of nested
selection-changed notifications deeper than the depth granted to the call. -/
inductive Failure where
  | assertionFailed
  | outOfBounds
  | depthExceeded
  deriving DecidableEq, Repr

/-- The part of a `Points` dataset that the selection functions use: its number
of points (`getNumPoints()`, a `uint32_t`) and the indices of its selection. -/
structure Points where
  numPoints : Nat
  selectionIndices : List Nat
  deriving DecidableEq, Repr

/-- The algorithm `std::unique` followed by `erase`: of every run of equal
neighbours only one element is kept. -/
def uniqueAdjacent : List Nat → List Nat
  | [] => []
  | [a] => [a]
  | a :: b :: rest =>
    if a = b then uniqueAdjacent (b :: rest) else a :: uniqueAdjacent (b :: rest)

/-- Modelled from the spec: `sph::utils::sortAndUnique` belongs to the external sph
library and is not part of the sources; the selection functions use it "to ensure
only unique elements, sort and call std::unique", and the specification describes
the mapped selections as deduplicated and sorted. -/
def sortAndUnique (l : List Nat) : List Nat :=
  uniqueAdjacent (l.insertionSort (fun a b => a ≤ b))

/-- The `for` loop of `mapPixelToSuperPixel`. The local `currentIndex` is a
`uint32_t`, so the 64-bit map entry is truncated when it is stored there; the
comparison with the 64-bit sentinel is made on the truncated value. -/
def pixelLoop (selectionMapDataToLevel : List Nat) : List Nat → Except Failure (List Nat)
  | [] => .ok []
  | selectionIndex :: rest =>
    match selectionMapDataToLevel[selectionIndex]? with
    | none => .error Failure.outOfBounds
    | some entry =>
      let currentIndex : Nat := entry % 4294967296
      match pixelLoop selectionMapDataToLevel rest with
      | .error e => .error e
      | .ok pushedLater =>
        if currentIndex = UINT64_MAX then .ok pushedLater
        else .ok (currentIndex % 4294967296 :: pushedLater)

/-- The function `mapPixelToSuperPixel`. -/
def mapPixelToSuperPixel (selectionDataPixel : Points) (selectionMapDataToLevel : List Nat) :
    Except Failure (List Nat) :=
  match pixelLoop selectionMapDataToLevel selectionDataPixel.selectionIndices with
  | .error e => .error e
  | .ok selectionIndices => .ok (sortAndUnique selectionIndices)

/-- The `for` loop shared by `mapSuperPixelToPixel` and the second half of
`expandPixelToSuperpixelSelection`: the fine indices of every selected coarse node
are appended, each converted to `uint32_t`. -/
def superPixelLoop (selectionMapLevelToData : List (List Nat)) :
    List Nat → Except Failure (List Nat)
  | [] => .ok []
  | selectionIndex :: rest =>
    match selectionMapLevelToData[selectionIndex]? with
    | none => .error Failure.outOfBounds
    | some selectionMapIndex =>
      match superPixelLoop selectionMapLevelToData rest with
      | .error e => .error e
      | .ok pushedLater =>
        if selectionMapIndex.isEmpty then .ok pushedLater
        else .ok (selectionMapIndex.map (fun val => val % 4294967296) ++ pushedLater)

/-- The function `mapSuperPixelToPixel`. -/
def mapSuperPixelToPixel (selectionDataSuperpixel : Points)
    (selectionMapLevelToData : List (List Nat)) : Except Failure (List Nat) :=
  match superPixelLoop selectionMapLevelToData selectionDataSuperpixel.selectionIndices with
  | .error e => .error e
  | .ok selectionIndices => .ok (sortAndUnique selectionIndices)

/-- The function `expandPixelToSuperpixelSelection`. -/
def expandPixelToSuperpixelSelection (selectionInputData : Points)
    (selectionMapDataToLevel : List Nat) (selectionMaLevelToData : List (List Nat)) :
    Except Failure (List Nat) :=
  if selectionMapDataToLevel.length = 0 ∨ selectionMaLevelToData.length = 0 then .ok []
  else if selectionMapDataToLevel.length ≠ selectionInputData.numPoints then
    .error Failure.assertionFailed
  else
    match mapPixelToSuperPixel selectionInputData selectionMapDataToLevel with
    | .error e => .error e
    | .ok selectionIndicesSuperPixel =>
      match superPixelLoop selectionMaLevelToData selectionIndicesSuperPixel with
      | .error e => .error e
      | .ok selectionIndices => .ok (sortAndUnique selectionIndices)

/-- The overload of `selectionMapping` for a fine-to-coarse map, up to the event:
`none` when the map is empty (nothing is assigned, nobody is notified), otherwise
the indices that become the selection of the output dataset, whose
selection-changed event is then raised. -/
def selectionMapping (selectionInputData : Points) (selectionMap : List Nat) :
    Except Failure (Option (List Nat)) :=
  if selectionMap.length = 0 then .ok none
  else if selectionMap.length ≠ selectionInputData.numPoints then .error Failure.assertionFailed
  else
    match mapPixelToSuperPixel selectionInputData selectionMap with
    | .error e => .error e
    | .ok selectionIndices => .ok (some selectionIndices)

/-- The overload of `selectionMapping` for a coarse-to-fine map, up to the event. -/
def selectionMappingLevelToData (selectionInputData : Points)
    (selectionMap : List (List Nat)) : Except Failure (Option (List Nat)) :=
  if selectionMap.length = 0 then .ok none
  else if selectionMap.length ≠ selectionInputData.numPoints then .error Failure.assertionFailed
  else
    match mapSuperPixelToPixel selectionInputData selectionMap with
    | .error e => .error e
    | .ok selectionIndices => .ok (some selectionIndices)

/-! ## Selection hubs (`SphPlugin.cpp`, `RefinedSelectionMapping.cpp`) -/

/-- The members of a selection hub that its handlers use. `D` is the hub's
enumeration `SelectionDatasets`; `selectionCounters` is the `uint64_t` array
indexed by it, `datasets` gives the `Points` dataset of each view (the entry of
`GLOBAL`, which is not a view, is not used). `assigned` records, in order, the
views whose selection has been assigned. -/
structure Hub (D : Type) where
  selectionCounters : D → Nat
  datasets : D → Points
  mappingDataToLevel : List Nat
  mappingLevelToData : List (List Nat)
  assigned : List D

namespace Hub

variable {D : Type} [DecidableEq D]

/-- The function `markAsHandled`: the counter is incremented (a `uint64_t`). -/
def markAsHandled (s : Hub D) (dataLock : D) : Hub D :=
  { s with selectionCounters := fun d =>
      if d = dataLock then (s.selectionCounters dataLock + 1) % 18446744073709551616
      else s.selectionCounters d }

/-- The function `isNotYetHandled`; `global` is the enumerator `GLOBAL`. -/
def isNotYetHandled (global : D) (s : Hub D) (dataLock : D) : Bool :=
  decide (s.selectionCounters dataLock < s.selectionCounters global)

/-- The function `areLocksInSync`; `counters` lists the entries of the array,
the entry at index 0 is that of `GLOBAL`. -/
def areLocksInSync (counters : List D) (global : D) (s : Hub D) : Bool :=
  counters.all (fun d => decide (s.selectionCounters d = s.selectionCounters global))

/-- Assignment of new selection indices to the dataset of a view. -/
def setSelection (s : Hub D) (output : D) (indices : List Nat) : Hub D :=
  { s with
    datasets := fun d =>
      if d = output then { s.datasets output with selectionIndices := indices }
      else s.datasets d
    assigned := s.assigned ++ [output] }

/-- The function `copySelection`: the selection of the input is assigned to the
output, whose selection-changed event is raised; `notify` delivers the event
to the handler connected to the output. -/
def copySelection (notify : D → Hub D → Except Failure (Hub D)) (selectionInput : D)
    (selectionOutput : D) (s : Hub D) : Except Failure (Hub D) :=
  notify selectionOutput
    (setSelection s selectionOutput (s.datasets selectionInput).selectionIndices)

/-- A call of `selectionMapping` with the hub's fine-to-coarse map. -/
def mapDataToLevel (notify : D → Hub D → Except Failure (Hub D)) (selectionInputData : D)
    (selectionOutputData : D) (s : Hub D) : Except Failure (Hub D) :=
  match selectionMapping (s.datasets selectionInputData) s.mappingDataToLevel with
  | .error e => .error e
  | .ok none => .ok s
  | .ok (some selectionIndices) =>
    notify selectionOutputData (setSelection s selectionOutputData selectionIndices)

/-- A call of `selectionMapping` with the hub's coarse-to-fine map. -/
def mapLevelToData (notify : D → Hub D → Except Failure (Hub D)) (selectionInputData : D)
    (selectionOutputData : D) (s : Hub D) : Except Failure (Hub D) :=
  match selectionMappingLevelToData (s.datasets selectionInputData) s.mappingLevelToData with
  | .error e => .error e
  | .ok none => .ok s
  | .ok (some selectionIndices) =>
    notify selectionOutputData (setSelection s selectionOutputData selectionIndices)

/-- A statement `if (isNotYetHandled(W)) action;` of a handler. -/
def ifNotYetHandled (global : D) (dataLock : D) (action : Hub D → Except Failure (Hub D))
    (s : Hub D) : Except Failure (Hub D) :=
  if isNotYetHandled global s dataLock then action s else .ok s

/-- The common opening of every handler for view `self`: the echo test and the
two `markAsHandled` calls. Returns `none` when the handler returns at once. -/
def enterHandler (counters : List D) (global : D) (self : D) (s : Hub D) : Option (Hub D) :=
  let allIsSync := areLocksInSync counters global s
  let toBeHandled := isNotYetHandled global s self
  let doNothing := !allIsSync && !toBeHandled
  if doNothing then none
  else
    let s1 := if allIsSync then markAsHandled s global else s
    some (markAsHandled s1 self)

end Hub

namespace SPHPlugin

/-- The enumeration `SPHPlugin::SelectionDatasets`. -/
inductive SelectionDatasets where
  | GLOBAL
  | INPUT
  | EMBEDDING
  | RECOLOR_IMAGE
  | SUPERPIXELS
  | AVERAGES
  deriving DecidableEq, Repr

open SelectionDatasets Hub

/-- The entries of `_selectionCounters`, an array of six counters. -/
def counters : List SelectionDatasets :=
  [GLOBAL, INPUT, EMBEDDING, RECOLOR_IMAGE, SUPERPIXELS, AVERAGES]

/-- The handler `SPHPlugin::onSelectionInInputData`. -/
def onSelectionInInputData (isInit : Bool)
    (notify : SelectionDatasets → Hub SelectionDatasets → Except Failure (Hub SelectionDatasets))
    (s : Hub SelectionDatasets) : Except Failure (Hub SelectionDatasets) :=
  if !isInit then .ok s
  else
    match enterHandler counters GLOBAL INPUT s with
    | none => .ok s
    | some s0 => do
      let s1 ← ifNotYetHandled GLOBAL EMBEDDING (mapDataToLevel notify INPUT EMBEDDING) s0
      let s2 ← ifNotYetHandled GLOBAL RECOLOR_IMAGE (copySelection notify INPUT RECOLOR_IMAGE) s1
      let s3 ← ifNotYetHandled GLOBAL SUPERPIXELS (copySelection notify INPUT SUPERPIXELS) s2
      ifNotYetHandled GLOBAL AVERAGES (copySelection notify INPUT AVERAGES) s3

/-- The handler `SPHPlugin::onSelectionInEmbedding`. Its last statement,
`updateRandomWalkPointSimDataset()`, changes the data of a helper dataset and no
selection or counter. -/
def onSelectionInEmbedding (isInit : Bool)
    (notify : SelectionDatasets → Hub SelectionDatasets → Except Failure (Hub SelectionDatasets))
    (s : Hub SelectionDatasets) : Except Failure (Hub SelectionDatasets) :=
  if !isInit then .ok s
  else
    match enterHandler counters GLOBAL EMBEDDING s with
    | none => .ok s
    | some s0 => do
      let s1 ← ifNotYetHandled GLOBAL INPUT (mapLevelToData notify EMBEDDING INPUT) s0
      let s2 ← ifNotYetHandled GLOBAL RECOLOR_IMAGE (copySelection notify INPUT RECOLOR_IMAGE) s1
      let s3 ← ifNotYetHandled GLOBAL SUPERPIXELS (copySelection notify INPUT SUPERPIXELS) s2
      ifNotYetHandled GLOBAL AVERAGES (copySelection notify INPUT AVERAGES) s3

/-- The handler `SPHPlugin::onSelectionInImgColoredByEmb`. -/
def onSelectionInImgColoredByEmb (isInit : Bool)
    (notify : SelectionDatasets → Hub SelectionDatasets → Except Failure (Hub SelectionDatasets))
    (s : Hub SelectionDatasets) : Except Failure (Hub SelectionDatasets) :=
  if !isInit then .ok s
  else
    match enterHandler counters GLOBAL RECOLOR_IMAGE s with
    | none => .ok s
    | some s0 => do
      let s1 ← ifNotYetHandled GLOBAL EMBEDDING (mapDataToLevel notify RECOLOR_IMAGE EMBEDDING) s0
      let s2 ← ifNotYetHandled GLOBAL INPUT (mapLevelToData notify EMBEDDING INPUT) s1
      let s3 ← ifNotYetHandled GLOBAL SUPERPIXELS (copySelection notify INPUT SUPERPIXELS) s2
      ifNotYetHandled GLOBAL AVERAGES (copySelection notify INPUT AVERAGES) s3

/-- The handler `SPHPlugin::onSelectionInSuperPixelComponents`. -/
def onSelectionInSuperPixelComponents (isInit : Bool)
    (notify : SelectionDatasets → Hub SelectionDatasets → Except Failure (Hub SelectionDatasets))
    (s : Hub SelectionDatasets) : Except Failure (Hub SelectionDatasets) :=
  if !isInit then .ok s
  else
    match enterHandler counters GLOBAL SUPERPIXELS s with
    | none => .ok s
    | some s0 => do
      let s1 ← ifNotYetHandled GLOBAL EMBEDDING (mapDataToLevel notify SUPERPIXELS EMBEDDING) s0
      let s2 ← ifNotYetHandled GLOBAL INPUT (mapLevelToData notify EMBEDDING INPUT) s1
      let s3 ← ifNotYetHandled GLOBAL RECOLOR_IMAGE (copySelection notify INPUT RECOLOR_IMAGE) s2
      ifNotYetHandled GLOBAL AVERAGES (copySelection notify INPUT AVERAGES) s3

/-- The handler `SPHPlugin::onSelectionInPixelAverages`. -/
def onSelectionInPixelAverages (isInit : Bool)
    (notify : SelectionDatasets → Hub SelectionDatasets → Except Failure (Hub SelectionDatasets))
    (s : Hub SelectionDatasets) : Except Failure (Hub SelectionDatasets) :=
  if !isInit then .ok s
  else
    match enterHandler counters GLOBAL AVERAGES s with
    | none => .ok s
    | some s0 => do
      let s1 ← ifNotYetHandled GLOBAL EMBEDDING (mapDataToLevel notify AVERAGES EMBEDDING) s0
      let s2 ← ifNotYetHandled GLOBAL INPUT (mapLevelToData notify EMBEDDING INPUT) s1
      let s3 ← ifNotYetHandled GLOBAL RECOLOR_IMAGE (copySelection notify INPUT RECOLOR_IMAGE) s2
      ifNotYetHandled GLOBAL SUPERPIXELS (copySelection notify INPUT SUPERPIXELS) s3

/-- Delivery of the selection-changed event of a view: the handler connected to
the view in `SPHPlugin::init` is run, synchronously; every selection assignment
made by the handler raises the event of the assigned view in turn. `depth` bounds
the nesting of these deliveries. -/
def dataSelectionChanged (isInit : Bool) :
    Nat → SelectionDatasets → Hub SelectionDatasets → Except Failure (Hub SelectionDatasets)
  | 0, _, _ => .error Failure.depthExceeded
  | _ + 1, GLOBAL, s => .ok s
  | depth + 1, INPUT, s => onSelectionInInputData isInit (dataSelectionChanged isInit depth) s
  | depth + 1, EMBEDDING, s => onSelectionInEmbedding isInit (dataSelectionChanged isInit depth) s
  | depth + 1, RECOLOR_IMAGE, s =>
    onSelectionInImgColoredByEmb isInit (dataSelectionChanged isInit depth) s
  | depth + 1, SUPERPIXELS, s =>
    onSelectionInSuperPixelComponents isInit (dataSelectionChanged isInit depth) s
  | depth + 1, AVERAGES, s =>
    onSelectionInPixelAverages isInit (dataSelectionChanged isInit depth) s

/-- The maps of the plugin are non-empty and valid: the fine-to-coarse map has one
entry per point of every pixel-indexed view, the coarse-to-fine map one entry per
point of the embedding, and every entry of the fine-to-coarse map is a position
of the coarse-to-fine map. -/
def ValidMaps (s : Hub SelectionDatasets) : Prop :=
  s.mappingDataToLevel ≠ [] ∧ s.mappingLevelToData ≠ []
  ∧ (s.datasets INPUT).numPoints = s.mappingDataToLevel.length
  ∧ (s.datasets RECOLOR_IMAGE).numPoints = s.mappingDataToLevel.length
  ∧ (s.datasets SUPERPIXELS).numPoints = s.mappingDataToLevel.length
  ∧ (s.datasets AVERAGES).numPoints = s.mappingDataToLevel.length
  ∧ (s.datasets EMBEDDING).numPoints = s.mappingLevelToData.length
  ∧ (∀ v ∈ s.mappingDataToLevel, v < s.mappingLevelToData.length)

instance (s : Hub SelectionDatasets) : Decidable (ValidMaps s) := by
  unfold ValidMaps; infer_instance

/-- A small plugin state: four pixels, two superpixels, all counters equal to
`n`, pixel 3 selected in the given view. -/
def example4 (n : Nat) (selected : SelectionDatasets) : Hub SelectionDatasets :=
  { selectionCounters := fun _ => n
    datasets := fun d =>
      match d with
      | GLOBAL => ⟨0, []⟩
      | EMBEDDING => ⟨2, if selected = EMBEDDING then [1] else []⟩
      | _ => ⟨4, if selected = d then [3] else []⟩
    mappingDataToLevel := [0, 1, 0, 1]
    mappingLevelToData := [[0, 2], [1, 3]]
    assigned := [] }

end SPHPlugin

namespace RefinedSelectionMapping

/-- The enumeration `RefinedSelectionMapping::SelectionDatasets`. -/
inductive SelectionDatasets where
  | GLOBAL
  | INPUT
  | EMBEDDING
  | RECOLOR_IMAGE
  | AVERAGES
  deriving DecidableEq, Repr

open SelectionDatasets Hub

/-- The entries of `_selectionCounters`, an array of five counters. -/
def counters : List SelectionDatasets := [GLOBAL, INPUT, EMBEDDING, RECOLOR_IMAGE, AVERAGES]

/-- The handler `RefinedSelectionMapping::onSelectionInInputData`. -/
def onSelectionInInputData
    (notify : SelectionDatasets → Hub SelectionDatasets → Except Failure (Hub SelectionDatasets))
    (s : Hub SelectionDatasets) : Except Failure (Hub SelectionDatasets) :=
  match enterHandler counters GLOBAL INPUT s with
  | none => .ok s
  | some s0 => do
    let s1 ← ifNotYetHandled GLOBAL EMBEDDING (mapDataToLevel notify INPUT EMBEDDING) s0
    let s2 ← ifNotYetHandled GLOBAL RECOLOR_IMAGE (copySelection notify INPUT RECOLOR_IMAGE) s1
    ifNotYetHandled GLOBAL AVERAGES (copySelection notify INPUT AVERAGES) s2

/-- The handler `RefinedSelectionMapping::onSelectionInLevelEmbedding`. -/
def onSelectionInLevelEmbedding
    (notify : SelectionDatasets → Hub SelectionDatasets → Except Failure (Hub SelectionDatasets))
    (s : Hub SelectionDatasets) : Except Failure (Hub SelectionDatasets) :=
  match enterHandler counters GLOBAL EMBEDDING s with
  | none => .ok s
  | some s0 => do
    let s1 ← ifNotYetHandled GLOBAL INPUT (mapLevelToData notify EMBEDDING INPUT) s0
    let s2 ← ifNotYetHandled GLOBAL RECOLOR_IMAGE (copySelection notify INPUT RECOLOR_IMAGE) s1
    ifNotYetHandled GLOBAL AVERAGES (copySelection notify INPUT AVERAGES) s2

/-- The handler `RefinedSelectionMapping::onSelectionInColoredByEmb`. -/
def onSelectionInColoredByEmb
    (notify : SelectionDatasets → Hub SelectionDatasets → Except Failure (Hub SelectionDatasets))
    (s : Hub SelectionDatasets) : Except Failure (Hub SelectionDatasets) :=
  match enterHandler counters GLOBAL RECOLOR_IMAGE s with
  | none => .ok s
  | some s0 => do
    let s1 ← ifNotYetHandled GLOBAL EMBEDDING (mapDataToLevel notify RECOLOR_IMAGE EMBEDDING) s0
    let s2 ← ifNotYetHandled GLOBAL INPUT (mapLevelToData notify EMBEDDING INPUT) s1
    ifNotYetHandled GLOBAL AVERAGES (copySelection notify INPUT AVERAGES) s2

/-- The handler `RefinedSelectionMapping::onSelectionInPixelAverages`. -/
def onSelectionInPixelAverages
    (notify : SelectionDatasets → Hub SelectionDatasets → Except Failure (Hub SelectionDatasets))
    (s : Hub SelectionDatasets) : Except Failure (Hub SelectionDatasets) :=
  match enterHandler counters GLOBAL AVERAGES s with
  | none => .ok s
  | some s0 => do
    let s1 ← ifNotYetHandled GLOBAL EMBEDDING (mapDataToLevel notify AVERAGES EMBEDDING) s0
    let s2 ← ifNotYetHandled GLOBAL INPUT (mapLevelToData notify EMBEDDING INPUT) s1
    ifNotYetHandled GLOBAL RECOLOR_IMAGE (copySelection notify INPUT RECOLOR_IMAGE) s2

/-- Delivery of the selection-changed event of a view to the handler connected to
it by the setters of `RefinedSelectionMapping`; `depth` bounds the nesting. -/
def dataSelectionChanged :
    Nat → SelectionDatasets → Hub SelectionDatasets → Except Failure (Hub SelectionDatasets)
  | 0, _, _ => .error Failure.depthExceeded
  | _ + 1, GLOBAL, s => .ok s
  | depth + 1, INPUT, s => onSelectionInInputData (dataSelectionChanged depth) s
  | depth + 1, EMBEDDING, s => onSelectionInLevelEmbedding (dataSelectionChanged depth) s
  | depth + 1, RECOLOR_IMAGE, s => onSelectionInColoredByEmb (dataSelectionChanged depth) s
  | depth + 1, AVERAGES, s => onSelectionInPixelAverages (dataSelectionChanged depth) s

/-- The maps of the hub are non-empty and valid: the fine-to-coarse map has one
entry per point of every pixel-indexed view, the coarse-to-fine map one entry per
point of the embedding, and every entry of the fine-to-coarse map is a position
of the coarse-to-fine map. -/
def ValidMaps (s : Hub SelectionDatasets) : Prop :=
  s.mappingDataToLevel ≠ [] ∧ s.mappingLevelToData ≠ []
  ∧ (s.datasets INPUT).numPoints = s.mappingDataToLevel.length
  ∧ (s.datasets RECOLOR_IMAGE).numPoints = s.mappingDataToLevel.length
  ∧ (s.datasets AVERAGES).numPoints = s.mappingDataToLevel.length
  ∧ (s.datasets EMBEDDING).numPoints = s.mappingLevelToData.length
  ∧ (∀ v ∈ s.mappingDataToLevel, v < s.mappingLevelToData.length)

instance (s : Hub SelectionDatasets) : Decidable (ValidMaps s) := by
  unfold ValidMaps; infer_instance

/-- A freshly constructed `RefinedSelectionMapping` whose four datasets have been
set: all counters are 0 and both maps are still empty. -/
def fresh (input embedding recolor averages : Points) : Hub SelectionDatasets :=
  { selectionCounters := fun _ => 0
    datasets := fun d =>
      match d with
      | GLOBAL => ⟨0, []⟩
      | INPUT => input
      | EMBEDDING => embedding
      | RECOLOR_IMAGE => recolor
      | AVERAGES => averages
    mappingDataToLevel := []
    mappingLevelToData := []
    assigned := [] }

/-- A small hub state: four pixels, two refined embedding points, all counters
equal to `n`, pixel 3 selected in the given view. -/
def example4 (n : Nat) (selected : SelectionDatasets) : Hub SelectionDatasets :=
  { selectionCounters := fun _ => n
    datasets := fun d =>
      match d with
      | GLOBAL => ⟨0, []⟩
      | EMBEDDING => ⟨2, if selected = EMBEDDING then [1] else []⟩
      | _ => ⟨4, if selected = d then [3] else []⟩
    mappingDataToLevel := [0, 1, 0, 1]
    mappingLevelToData := [[0, 2], [1, 3]]
    assigned := [] }

end RefinedSelectionMapping

/-- A fine-to-coarse map has no entry equal to the sentinel. -/
def NoSentinel (fineToCoarse : List Nat) : Prop :=
  ∀ v ∈ fineToCoarse, v ≠ UINT64_MAX

/-- Both maps are in range: every coarse index stored in the fine-to-coarse map
is a position of the coarse-to-fine map, and every fine index stored in the
coarse-to-fine map is a position of the fine-to-coarse map. -/
def InRange (fineToCoarse : List Nat) (coarseToFine : List (List Nat)) : Prop :=
  (∀ v ∈ fineToCoarse, v < coarseToFine.length)
    ∧ (∀ fs ∈ coarseToFine, ∀ f ∈ fs, f < fineToCoarse.length)

/-- Every fine index listed under coarse node `c` maps back to `c`. -/
def ListedMapsBack (fineToCoarse : List Nat) (coarseToFine : List (List Nat)) : Prop :=
  ∀ c, c < coarseToFine.length → ∀ f ∈ coarseToFine.getD c [], fineToCoarse[f]? = some c

/-- Every fine index is listed under the coarse node it maps to. -/
def MappedIsListed (fineToCoarse : List Nat) (coarseToFine : List (List Nat)) : Prop :=
  ∀ p, p < fineToCoarse.length → p ∈ coarseToFine.getD (fineToCoarse.getD p 0) []

/-- Every index of a selection is a position of a vector of the given length. -/
def SelectionInRange (selection : List Nat) (length : Nat) : Prop :=
  ∀ i ∈ selection, i < length

instance (fineToCoarse : List Nat) : Decidable (NoSentinel fineToCoarse) := by
  unfold NoSentinel; infer_instance

instance (fineToCoarse : List Nat) (coarseToFine : List (List Nat)) :
    Decidable (InRange fineToCoarse coarseToFine) := by
  unfold InRange; infer_instance

instance (fineToCoarse : List Nat) (coarseToFine : List (List Nat)) :
    Decidable (ListedMapsBack fineToCoarse coarseToFine) := by
  unfold ListedMapsBack; infer_instance

instance (fineToCoarse : List Nat) (coarseToFine : List (List Nat)) :
    Decidable (MappedIsListed fineToCoarse coarseToFine) := by
  unfold MappedIsListed; infer_instance

instance (selection : List Nat) (length : Nat) : Decidable (SelectionInRange selection length) := by
  unfold SelectionInRange; infer_instance

/-! ## The coordinator (`ComputeEmbeddingWrapper`) -/

namespace ComputeEmbeddingWrapper

/-- A call of `EmbedWorker::compute` handed to the worker thread by one of the
signals `startWorker(iterations, init = true)` and `continueWorker(iterations)`. -/
structure Job where
  iterations : Nat
  init : Bool
  deriving DecidableEq, Repr

/-- The function `ComputeEmbeddingWrapper::setNumIterations`, which forwards to
`EmbedWorker::setNumIterations`. -/
def setNumIterations (w : EmbedWorker.Worker) (num : Nat) : EmbedWorker.Worker :=
  { w with currentIteration := num }

/-- The private function `ComputeEmbeddingWrapper::compute(params)` as far as the
worker is concerned: it emits `startWorker(params.numIterations)` (for UMAP
`params.numEpochs`), whose second argument has the default value `true`. The
parameters and the initial embedding handed to the engine are not modelled. -/
def compute (w : EmbedWorker.Worker) (numIterations : Nat) : EmbedWorker.Worker × Job :=
  (w, { iterations := numIterations, init := true })

/-- The function `ComputeEmbeddingWrapper::continueComputation`: it emits
`continueWorker(iterations)`, which is connected to
`EmbedWorker::continueComputation`, that is `compute(iterations, false)`. -/
def continueComputation (w : EmbedWorker.Worker) (iterations : Nat) : EmbedWorker.Worker × Job :=
  (w, { iterations := iterations, init := false })

/-- The function `ComputeEmbeddingWrapper::restartComputation`: the iteration count
is set to zero, then `compute(params)` dispatches the job. -/
def restartComputation (w : EmbedWorker.Worker) (numIterations : Nat) :
    EmbedWorker.Worker × Job :=
  compute (setNumIterations w 0) numIterations

/-- The worker thread runs a dispatched job. -/
def runJob (d : EmbedWorker.Worker × Job) (stopSeen : Nat → Bool) : EmbedWorker.Run :=
  EmbedWorker.compute d.1 d.2.iterations d.2.init stopSeen

end ComputeEmbeddingWrapper

/-! ## Refinement (`RefineAction.cpp`) -/

/-- Conversion of an integer value to `uint64_t`. -/
def castU64 (x : Int) : Nat := (x % 18446744073709551616).toNat

namespace RefineAction

/-- The maps of the hierarchy that `refine` reads through
`SPHPlugin::getMappingDataToLevel` and `SPHPlugin::getMappingLevelToData`: for
every level the fine-to-coarse map and the coarse-to-fine map. -/
structure Hierarchy where
  mapFromPixelToLevel : List (List Nat)
  mapFromLevelToPixel : List (List (List Nat))
  deriving DecidableEq, Repr

/-- The `for` loop of `refine` that looks up the refined-level node of every pixel
of the expanded selection; the values are kept as 64-bit values. -/
def lookupLoop (mappingDataToRefinedLevel : List Nat) : List Nat → Except Failure (List Nat)
  | [] => .ok []
  | selectionIdData :: rest =>
    match mappingDataToRefinedLevel[selectionIdData]? with
    | none => .error Failure.outOfBounds
    | some node =>
      match lookupLoop mappingDataToRefinedLevel rest with
      | .error e => .error e
      | .ok pushedLater => .ok (node :: pushedLater)

/-- The first part of `RefineAction::refine`, up to the list
`selectionSuperpixelsInRefinedLevel` that is handed to `extractSubGraph`. The
result is `none` when `refine` returns early after a warning (`_sphPlugin` not
set, current level 0, empty selection). -/
def selectionSuperpixelsInRefinedLevel (sphPluginSet : Bool) (currentLevel : Int)
    (inputDataset : Points) (hierarchy : Hierarchy) : Except Failure (Option (List Nat)) :=
  if !sphPluginSet then .ok none
  else if currentLevel = 0 then .ok none
  else if inputDataset.selectionIndices.length = 0 then .ok none
  else
    let refinedLevel : Int := currentLevel - 1
    match hierarchy.mapFromPixelToLevel[castU64 refinedLevel]?,
      hierarchy.mapFromLevelToPixel[castU64 refinedLevel]? with
    | some mappingDataToRefinedLevel, some mappingRefinedLevelToData =>
      match expandPixelToSuperpixelSelection inputDataset mappingDataToRefinedLevel
        mappingRefinedLevelToData with
      | .error e => .error e
      | .ok expandedSelectionInData =>
        match lookupLoop mappingDataToRefinedLevel expandedSelectionInData with
        | .error e => .error e
        | .ok nodes => .ok (some (sortAndUnique nodes))
    | _, _ => .error Failure.outOfBounds

/-- Modelled from the spec: `sph::utils::extractSubGraph` belongs to the external sph
library and is missing from the sources. Given a transition matrix (row `i` lists
the neighbours of node `i` with their weights) and a list of selected node ids it
produces the transition matrix restricted to the new id list, renumbered by
position in that list, and the id list itself: the selected ids, followed, when a
threshold is given, by the nodes adjacent to a selected node whose edge weight
exceeds the threshold and that are not selected themselves. Weights are rational
numbers here. -/
def extractSubGraph (probDist : List (List (Nat × ℚ))) (selection : List Nat)
    (threshold : Option ℚ) : List (List (Nat × ℚ)) × List Nat :=
  let extra : List Nat :=
    match threshold with
    | none => []
    | some t =>
      ((selection.flatMap (fun i =>
          ((probDist.getD i []).filter (fun e => decide (t < e.2))).map Prod.fst)).filter
        (fun j => decide (j ∉ selection))).dedup
  let ids : List Nat := selection ++ extra
  let restricted : List (List (Nat × ℚ)) :=
    ids.map (fun i =>
      ((probDist.getD i []).filter (fun e => decide (e.1 ∈ ids))).map
        (fun e => (ids.indexOf e.1, e.2)))
  (restricted, ids)

/-- Modelled from the spec: `sph::utils::isBasicallyEqual` belongs to the external sph
library; "ratio = 1 means exact", and the values are taken as equal when they
differ by less than the tolerance. -/
def isBasicallyEqual (a b tolerance : ℚ) : Bool :=
  decide (|a - b| < tolerance)

/-- The part of `RefineAction::refine` that extracts the subgraph: with an inclusion
ratio of (basically) 1 the overload without threshold is called, otherwise the
overload with the ratio as threshold. Returns the refined transition matrix and
the ids `newEmbIdsInRefinedLevelEmb`. -/
def extract (probDistOnRefinedLevel : List (List (Nat × ℚ)))
    (selectionSuperpixelsInRefinedLevel : List Nat) (exactRefinementValue : ℚ) :
    List (List (Nat × ℚ)) × List Nat :=
  let exactRefinement := isBasicallyEqual exactRefinementValue 1 (1 / 1000)
  if exactRefinement then
    extractSubGraph probDistOnRefinedLevel selectionSuperpixelsInRefinedLevel none
  else
    extractSubGraph probDistOnRefinedLevel selectionSuperpixelsInRefinedLevel
      (some exactRefinementValue)

/-- A three-level hierarchy over four pixels: level 0 has one node per pixel, level 1
has the two superpixels `{0, 1}` and `{2, 3}`, level 2 has a single superpixel
made of all four pixels. -/
def threeLevels : Hierarchy :=
  { mapFromPixelToLevel := [[0, 1, 2, 3], [0, 0, 1, 1], [0, 0, 0, 0]]
    mapFromLevelToPixel := [[[0], [1], [2], [3]], [[0, 1], [2, 3]], [[0, 1, 2, 3]]] }

end RefineAction

/-! ## Level switches (`SphPlugin.cpp`) -/

namespace SPHPlugin

/-- The members of `SPHPlugin` and of its collaborators that a level switch reads or
writes: the busy flag, the current level of the plugin and of the refine action,
the number of levels of the hierarchy, the level whose maps `_mappingLevelToData`
and `_mappingDataToLevel` refer to, the level whose matrix
`_currentTransitionMatrix` refers to, the selection of the input dataset, the
iteration count and the publish threshold of the embedding settings (the values of
`getNumDefaultUpdateIterationsAction()` and `getIterationsPublishExtendAction()`),
whether the worker thread was started (which is when the wrapper connects its
signals), the worker, the jobs dispatched to the worker thread and not yet taken by
it, and the job that the worker is running. -/
structure Plugin where
  isBusy : Bool
  currentLevel : Int
  refineLevel : Int
  numLevels : Nat
  mappingLevel : Option Nat
  transitionLevel : Option Nat
  inputSelection : List Nat
  numIterations : Nat
  iterationsPublishExtend : Nat
  workerThreadRunning : Bool
  worker : EmbedWorker.Worker
  dispatched : List ComputeEmbeddingWrapper.Job
  running : Option ComputeEmbeddingWrapper.Job
  deriving DecidableEq, Repr

/-- The function `SPHPlugin::deselectAll`: the selection of the input dataset is
cleared. The selection wave that the notification starts is not part of this
state. -/
def deselectAll (s : Plugin) : Plugin :=
  { s with inputSelection := [] }

/-- The function `SPHPlugin::updateMappingsAndTransitionsReferences`: the map and
matrix references are taken at index `_currentLevel` of the hierarchy. -/
def updateMappingsAndTransitionsReferences (s : Plugin) : Except Failure Plugin :=
  if castU64 s.currentLevel < s.numLevels then
    .ok { s with mappingLevel := some (castU64 s.currentLevel)
                 transitionLevel := some (castU64 s.currentLevel) }
  else .error Failure.outOfBounds

/-- The function `ComputeEmbeddingWrapper::stopComputation`: `stopWorker` is connected
directly to `EmbedWorker::stop` once the worker thread was started. -/
def stopComputation (s : Plugin) : Plugin :=
  if s.workerThreadRunning then
    { s with worker := (EmbedWorker.stop
        ({ w := s.worker, trace := [], checks := 0, assertFailed := false } : EmbedWorker.Run)).w }
  else s

/-- The function `ComputeEmbeddingWrapper::setPublishExtendsIter`, which forwards to
`EmbedWorker::setPublishExtendsIter`; the argument is a `uint32_t`. -/
def setPublishExtendsIter (s : Plugin) (num : Nat) : Plugin :=
  { s with worker := { s.worker with publishExtendsIter := num % 4294967296 } }

/-- The function `SPHPlugin::computeEmbedding` as far as the worker is concerned: the
running computation is asked to stop, the publish threshold of the settings is
handed to the worker, then `startComputation` dispatches a job with the iteration
count of the settings, starting the worker thread on first use. The call of
`setNormScheme` selects the engine, whose two kinds perform the same steps here;
the initial embedding and the meta datasets are not modelled. -/
def computeEmbedding (s : Plugin) : Plugin :=
  let s1 := setPublishExtendsIter (stopComputation s) s.iterationsPublishExtend
  let d := ComputeEmbeddingWrapper.compute s1.worker s1.numIterations
  { s1 with worker := d.1, workerThreadRunning := true, dispatched := s1.dispatched ++ [d.2] }

/-- The function `SPHPlugin::updateEmbedding(level)`. The average datasets that
`updateAverageDatasets` recomputes are not modelled. -/
def updateEmbedding (s : Plugin) (level : Int) : Except Failure Plugin :=
  if s.isBusy then .ok s
  else
    let s1 : Plugin := { s with isBusy := true, currentLevel := level, refineLevel := level }
    match updateMappingsAndTransitionsReferences (deselectAll s1) with
    | .error e => .error e
    | .ok s2 => .ok (computeEmbedding s2)

/-- The handler of `ComputeEmbeddingWrapper::workerStarted` connected in
`SPHPlugin::init`. -/
def workerStarted (s : Plugin) : Plugin :=
  { s with isBusy := false }

/-- The worker thread takes the oldest dispatched job and enters
`EmbedWorker::compute`: a job of zero iterations returns at once without a signal;
any other job emits `started`, which the plugin handles by `workerStarted`, resets
the stop flag, and is running from then on. -/
def workerEntersCompute (s : Plugin) : Plugin :=
  match s.dispatched with
  | [] => s
  | job :: rest =>
    if job.iterations = 0 then { s with dispatched := rest }
    else
      workerStarted { s with
        dispatched := rest
        running := some job
        worker := (EmbedWorker.resetStop
          ({ w := s.worker, trace := [], checks := 0, assertFailed := false } :
            EmbedWorker.Run)).w }

/-- A plugin on a hierarchy of three levels before the first level switch, with 1000
iterations and the publish threshold 250 configured. -/
def idle : Plugin :=
  { isBusy := false, currentLevel := 0, refineLevel := 0, numLevels := 3
    mappingLevel := none, transitionLevel := none, inputSelection := [5, 6]
    numIterations := 1000, iterationsPublishExtend := 250, workerThreadRunning := false
    worker := { currentIteration := 0, publishExtendsIter := 250, shouldStop := false }
    dispatched := [], running := none }

/-- The state of `idle` right after an accepted switch to level 2: the job of 1000
iterations is dispatched and the busy flag is set. -/
def busyLevel2 : Plugin :=
  { isBusy := true, currentLevel := 2, refineLevel := 2, numLevels := 3
    mappingLevel := some 2, transitionLevel := some 2, inputSelection := []
    numIterations := 1000, iterationsPublishExtend := 250, workerThreadRunning := true
    worker := { currentIteration := 0, publishExtendsIter := 250, shouldStop := false }
    dispatched := [{ iterations := 1000, init := true }], running := none }

/-- The state of `idle` after a switch to level 2 whose job the worker has entered:
the `started` notification was delivered and the job of 1000 iterations is
running. -/
def runningLevel2 : Plugin :=
  { isBusy := false, currentLevel := 2, refineLevel := 2, numLevels := 3
    mappingLevel := some 2, transitionLevel := some 2, inputSelection := []
    numIterations := 1000, iterationsPublishExtend := 250, workerThreadRunning := true
    worker := { currentIteration := 0, publishExtendsIter := 250, shouldStop := false }
    dispatched := [], running := some { iterations := 1000, init := true } }

end SPHPlugin

namespace EmbedWorker

/-- The size of an engine step; every other event counts as zero. -/
def stepSize : Event → Nat
  | Event.initGradientDescent n => n
  | Event.continueGradientDescent n => n
  | _ => 0

/-- The sum of the sizes of the engine steps of a trace. -/
def stepSum (t : List Event) : Nat := (t.map stepSize).sum

/-- Whether an event is an engine step. -/
def isStep : Event → Bool
  | Event.initGradientDescent _ => true
  | Event.continueGradientDescent _ => true
  | _ => false

/-- Scan of a trace for `updatesFollowSteps`; `pending` tells that the previous
event was an engine step whose `embeddingUpdate` is still due. -/
def updatesFollowStepsFrom : Bool → List Event → Bool
  | pending, [] => !pending
  | true, e :: rest => decide (e = Event.embeddingUpdate) && updatesFollowStepsFrom false rest
  | false, e :: rest =>
    if isStep e then updatesFollowStepsFrom true rest
    else if e = Event.embeddingUpdate then false
    else updatesFollowStepsFrom false rest

/-- Every engine step of the trace is followed at once by an `embeddingUpdate`
emission, and the trace has no other `embeddingUpdate`. -/
def updatesFollowSteps (t : List Event) : Bool := updatesFollowStepsFrom false t

/-- The iteration counter of a run started at `c` accounts for the engine steps of
its trace, and every step of the trace has its `embeddingUpdate`. -/
def Accounted (c : Nat) (r : Run) : Prop :=
  r.w.currentIteration = (c + stepSum r.trace) % 4294967296
    ∧ updatesFollowSteps r.trace = true

instance (c : Nat) (r : Run) : Decidable (Accounted c r) := by
  unfold Accounted; infer_instance

end EmbedWorker

namespace Hub

variable {D : Type} [DecidableEq D]

/-- Every counter of the hub is a `uint64_t` value that equals the counter of
`GLOBAL` or is one below it, in `uint64_t` arithmetic. -/
def CountersInv (global : D) (s : Hub D) : Prop :=
  ∀ d, s.selectionCounters d < 18446744073709551616
    ∧ (s.selectionCounters d = s.selectionCounters global
      ∨ (s.selectionCounters d + 1) % 18446744073709551616 = s.selectionCounters global)

/-- The hub after a sequence of handler calls, one for each listed view in order, as
far as the counters are concerned: a handler writes the counters in its opening
only, whatever else happens to them during the call is the work of the handler
calls that its assignments trigger, which are calls of the sequence like any
other. A call that is ignored changes nothing, and `GLOBAL` is not a view and has
no handler. -/
def afterHandlerCalls (counters : List D) (global : D) : Hub D → List D → Hub D
  | s, [] => s
  | s, V :: rest =>
    if V = global then afterHandlerCalls counters global s rest
    else afterHandlerCalls counters global ((enterHandler counters global V s).getD s) rest

end Hub

namespace SPHPlugin

end SPHPlugin

namespace RefineAction

/-- The loop that fills the hash map `currentToRefinedIDs`: the id at position
`idRefinedEmb` of `newEmbIdsInRefinedLevelEmb` is given the value `idRefinedEmb`,
and a later write to the same key replaces an earlier one. Keys and values are
converted to `int64_t` and back, which loses nothing on 64-bit values. -/
def fillCurrentToRefinedIDs : List Nat → Nat → (Nat → Option Nat) → (Nat → Option Nat)
  | [], _, hash => hash
  | id :: rest, idRefinedEmb, hash =>
    fillCurrentToRefinedIDs rest (idRefinedEmb + 1)
      (fun key => if key = id then some idRefinedEmb else hash key)

/-- A read `currentToRefinedIDs[key]` after the map was filled: a key that was never
written is inserted with the value 0. -/
def currentToRefinedIDs (newEmbIdsInRefinedLevelEmb : List Nat) (key : Nat) : Nat :=
  ((fillCurrentToRefinedIDs newEmbIdsInRefinedLevelEmb 0 (fun _ => none)) key).getD 0

/-- The loop `mapLevelToData[idRefinedEmb] =
(*mappingRefinedLevelToData)[newEmbIdsInRefinedLevelEmb[idRefinedEmb]]`. -/
def fillMapLevelToData (mappingRefinedLevelToData : List (List Nat)) :
    List Nat → Except Failure (List (List Nat))
  | [] => .ok []
  | id :: rest =>
    match mappingRefinedLevelToData[id]? with
    | none => .error Failure.outOfBounds
    | some pixels =>
      match fillMapLevelToData mappingRefinedLevelToData rest with
      | .error e => .error e
      | .ok later => .ok (pixels :: later)

/-- The statement `mapDataToLevel[selectionIdData] =
currentToRefinedIDs[(*mappingDataToRefinedLevel)[selectionIdData]]`, for every pixel
of the list in turn. -/
def writePixels (mappingDataToRefinedLevel : List Nat) (newEmbIdsInRefinedLevelEmb : List Nat) :
    List Nat → List Nat → Except Failure (List Nat)
  | [], mapDataToLevel => .ok mapDataToLevel
  | selectionIdData :: rest, mapDataToLevel =>
    match mappingDataToRefinedLevel[selectionIdData]? with
    | none => .error Failure.outOfBounds
    | some node =>
      if selectionIdData < mapDataToLevel.length then
        writePixels mappingDataToRefinedLevel newEmbIdsInRefinedLevelEmb rest
          (mapDataToLevel.set selectionIdData
            (currentToRefinedIDs newEmbIdsInRefinedLevelEmb node))
      else .error Failure.outOfBounds

/-- The loop of the branch for a refinement that is not exact: the pixels of every
extracted node are written. -/
def writeNodes (mappingDataToRefinedLevel : List Nat)
    (mappingRefinedLevelToData : List (List Nat)) (newEmbIdsInRefinedLevelEmb : List Nat) :
    List Nat → List Nat → Except Failure (List Nat)
  | [], mapDataToLevel => .ok mapDataToLevel
  | selectionIdInRefinedLevel :: rest, mapDataToLevel =>
    match mappingRefinedLevelToData[selectionIdInRefinedLevel]? with
    | none => .error Failure.outOfBounds
    | some selectionIDsInData =>
      match writePixels mappingDataToRefinedLevel newEmbIdsInRefinedLevelEmb selectionIDsInData
        mapDataToLevel with
      | .error e => .error e
      | .ok written =>
        writeNodes mappingDataToRefinedLevel mappingRefinedLevelToData
          newEmbIdsInRefinedLevelEmb rest written

/-- The two selection maps that `refine` builds for a refined embedding, and the mask
of the refined images. -/
structure SelectionMaps where
  mapLevelToData : List (List Nat)
  mapDataToLevel : List Nat
  imageMask : List Nat
  deriving DecidableEq, Repr

/-- The block of `RefineAction::refine` that builds the selection maps between the
refined embedding and the data, and the image mask: `mapDataToLevel` starts with
the sentinel in every entry; for an exact refinement the pixels of the expanded
selection are written, otherwise the pixels of every extracted node; the mask is 0
where the sentinel is left and 255 elsewhere. -/
def selectionMaps (exactRefinement : Bool) (numImagePoints : Nat)
    (mappingDataToRefinedLevel : List Nat) (mappingRefinedLevelToData : List (List Nat))
    (expandedSelectionInData : List Nat) (newEmbIdsInRefinedLevelEmb : List Nat) :
    Except Failure SelectionMaps :=
  match fillMapLevelToData mappingRefinedLevelToData newEmbIdsInRefinedLevelEmb with
  | .error e => .error e
  | .ok mapLevelToData =>
    match (if exactRefinement then
        writePixels mappingDataToRefinedLevel newEmbIdsInRefinedLevelEmb expandedSelectionInData
          (List.replicate numImagePoints UINT64_MAX)
      else
        writeNodes mappingDataToRefinedLevel mappingRefinedLevelToData
          newEmbIdsInRefinedLevelEmb newEmbIdsInRefinedLevelEmb
          (List.replicate numImagePoints UINT64_MAX)) with
    | .error e => .error e
    | .ok mapDataToLevel =>
      .ok { mapLevelToData := mapLevelToData
            mapDataToLevel := mapDataToLevel
            imageMask := mapDataToLevel.map (fun v => if v = UINT64_MAX then 0 else 255) }

end RefineAction

/-! ## A restart while a job is running -/

namespace EmbedWorker

/-- One pass of the `while` loop of `compute` after its stop check, during whose
engine step (`continueGradientDescent(_updateSteps)`, the long-running statement of
the pass) another thread runs `other` on the members of the worker: the counter
update and the publish check that follow find the members as the other thread
left them. -/
def chunkDuring (other : Worker → Worker) (stopSeen : Nat → Bool) (r : Run) : Run :=
  checkPublishExtends (advance
    { continueGradientDescent (readStop stopSeen r).2 updateSteps with
      w := other (continueGradientDescent (readStop stopSeen r).2 updateSteps).w }
    updateSteps)

/-- The `while` loop of `compute` when another thread acts on the members of the
worker while the loop runs: `others j` is what that thread does during the engine
step of the pass whose stop check is read number `j` of the flag (the identity
where it does nothing). -/
def descentLoopDuring (others : Nat → Worker → Worker) (stopSeen : Nat → Bool)
    (remainingIter : Int) (r : Run) : Int × Run × Bool :=
  if h : remainingIter > 0 ∧ castU32 remainingIter ≥ updateSteps then
    if (readStop stopSeen r).1 then
      (remainingIter, (readStop stopSeen r).2, true)
    else
      descentLoopDuring others stopSeen
        (castI32 ((castU32 remainingIter : Int) - (updateSteps : Int)))
        (chunkDuring (others r.checks) stopSeen r)
  else
    (remainingIter, r, false)
termination_by remainingIter.toNat
decreasing_by
  simp only [castU32, castI32, updateSteps] at *
  omega

/-- The function `EmbedWorker::compute(iterations, init)` run by the worker thread
while another thread acts on the members of the worker during engine steps of the
`while` loop, as `others` tells. -/
def computeDuring (others : Nat → Worker → Worker) (w : Worker) (iterations : Nat) (init : Bool)
    (stopSeen : Nat → Bool) : Run :=
  if iterations = 0 then
    { w := w, trace := [], checks := 0, assertFailed := false }
  else
    let r0 : Run := resetStop
      (({ w := w, trace := [], checks := 0, assertFailed := false } : Run).emit Event.started)
    let firstUpdate : Nat := if iterations ≤ updateSteps then iterations else updateSteps
    let remInit : Int :=
      if iterations ≤ updateSteps then 0 else castI32 ((castU32 iterations : Int) - updateSteps)
    let r1 : Run :=
      if init then checkPublishExtends (advance (initGradientDescent r0 firstUpdate) firstUpdate)
      else r0
    let remainingIter : Int := if init then remInit else castI32 iterations
    let out := descentLoopDuring others stopSeen remainingIter r1
    if out.2.2 then out.2.1
    else finishCompute stopSeen iterations out.1 out.2.1

end EmbedWorker

namespace SPHPlugin

/-- The handler of the restart action connected in `SPHPlugin::init`, which the GUI
thread runs, as far as the members of the worker are concerned.
`stopComputation()` emits `stopWorker`, connected to `EmbedWorker::stop` directly:
the flag is set in the calling thread, which does not wait for the worker (the
`stopped` signal of that call is not part of a run of `compute`).
`updateInitEmbedding()` writes the initial embedding only. `restartComputation`
then sets the iteration count to zero and queues the job. -/
def restartTriggered (w : EmbedWorker.Worker) (numIterations : Nat) :
    EmbedWorker.Worker × ComputeEmbeddingWrapper.Job :=
  ComputeEmbeddingWrapper.restartComputation
    (EmbedWorker.stop
      ({ w := w, trace := [], checks := 0, assertFailed := false } : EmbedWorker.Run)).w
    numIterations

/-- The run of a job of `running` iterations, entered with `init = true`, during
the first pass of whose loop the restart action is triggered with `numIterations`
iterations configured; nothing else stops the job. -/
def interruptedJob (w : EmbedWorker.Worker) (running numIterations : Nat) : EmbedWorker.Run :=
  EmbedWorker.computeDuring
    (fun j v => if j = 0 then (restartTriggered v numIterations).1 else v)
    w running true EmbedWorker.neverStopped

/-- The run of the restarted job: the worker thread takes the job queued by the
restart action once the interrupted job has returned, and nobody stops it. The job
that the handler queues is the same whatever the state of the worker; the worker
is the one that the interrupted job has left behind. -/
def restartedJob (w : EmbedWorker.Worker) (running numIterations : Nat) : EmbedWorker.Run :=
  ComputeEmbeddingWrapper.runJob
    ((interruptedJob w running numIterations).w,
      (restartTriggered (interruptedJob w running numIterations).w numIterations).2)
    EmbedWorker.neverStopped

end SPHPlugin

/-! # Theorems -/

namespace EmbedWorker

/-! ### The loop of `compute` -/

theorem castI32_of_small (n : Nat) (h : n < 2147483648) : castI32 (n : Int) = n := by
  unfold castI32; omega

theorem castU32_of_small (n : Nat) (h : n < 4294967296) : castU32 (n : Int) = n := by
  unfold castU32; omega

theorem checkPublishExtends_flag (r : Run) :
    (checkPublishExtends r).w.shouldStop = r.w.shouldStop := by
  simp only [checkPublishExtends, Run.emit]
  split_ifs <;> rfl

theorem chunk_flag (s : Nat → Bool) (r : Run) :
    (chunk s r).w.shouldStop = (r.w.shouldStop || s r.checks) := by
  rw [chunk, checkPublishExtends_flag]; rfl

theorem readStop_clear (s : Nat → Bool) (r : Run) (hflag : r.w.shouldStop = false) :
    (readStop s r).1 = s r.checks := by
  simp [readStop, hflag]

/-- The loop started with the flag clear when none of its reads sees a `stop()`. -/
theorem descentLoop_noStop (stopSeen : Nat → Bool) (n : Nat) :
    ∀ r : Run, n < 2147483648 → r.w.shouldStop = false →
      (∀ i, i < n / 10 → stopSeen (r.checks + i) = false) →
      descentLoop stopSeen (n : Int) r = (((n % 10 : Nat) : Int), (chunk stopSeen)^[n / 10] r, false) := by
  induction n using Nat.strong_induction_on with
  | _ n ih =>
    intro r hn hflag hs
    rw [descentLoop]
    by_cases h10 : n < 10
    · have hc : ¬ ((n : Int) > 0 ∧ castU32 (n : Int) ≥ updateSteps) := by
        rw [castU32_of_small n (by omega)]; unfold updateSteps; omega
      rw [dif_neg hc]
      have h1 : n % 10 = n := Nat.mod_eq_of_lt h10
      have h2 : n / 10 = 0 := Nat.div_eq_of_lt h10
      rw [h1, h2]; rfl
    · have hc : ((n : Int) > 0 ∧ castU32 (n : Int) ≥ updateSteps) := by
        rw [castU32_of_small n (by omega)]; unfold updateSteps; omega
      rw [dif_pos hc]
      have h0 : stopSeen r.checks = false := by
        have := hs 0 (by omega)
        simpa using this
      have hrd : (readStop stopSeen r).1 = false := by simp [readStop, h0, hflag]
      rw [hrd]
      simp only [Bool.false_eq_true, if_false]
      have hsub : castI32 ((castU32 (n : Int) : Int) - (updateSteps : Int)) = ((n - 10 : Nat) : Int) := by
        rw [castU32_of_small n (by omega)]; unfold castI32 updateSteps; omega
      rw [hsub]
      have hchk : (chunk stopSeen r).checks = r.checks + 1 := by
        simp only [chunk, checkPublishExtends, advance, continueGradientDescent, readStop, Run.emit]
        split_ifs <;> rfl
      have hfl : (chunk stopSeen r).w.shouldStop = false := by
        rw [chunk_flag, hflag, h0]; rfl
      have := ih (n - 10) (by omega) (chunk stopSeen r) (by omega) hfl (by
        intro i hi
        rw [hchk]
        have := hs (i + 1) (by omega)
        rw [← this]; congr 1; omega)
      rw [this]
      have h3 : (n - 10) % 10 = n % 10 := by omega
      have h4 : n / 10 = (n - 10) / 10 + 1 := by omega
      rw [h3, h4, Function.iterate_succ_apply]

end EmbedWorker

namespace EmbedWorker

/-! ### What a chunk does to the observable parts of a run -/

theorem chunk_checks (s : Nat → Bool) (r : Run) : (chunk s r).checks = r.checks + 1 := by
  simp only [chunk, checkPublishExtends, advance, continueGradientDescent, readStop, Run.emit]
  split_ifs <;> rfl

theorem chunk_current (s : Nat → Bool) (r : Run) :
    (chunk s r).w.currentIteration = (r.w.currentIteration + 10) % 4294967296 := by
  simp only [chunk, checkPublishExtends, advance, continueGradientDescent, readStop, Run.emit,
    updateSteps]
  split_ifs <;> rfl

theorem chunk_publishIter (s : Nat → Bool) (r : Run) :
    (chunk s r).w.publishExtendsIter = r.w.publishExtendsIter := by
  simp only [chunk, checkPublishExtends, advance, continueGradientDescent, readStop, Run.emit]
  split_ifs <;> rfl

theorem chunk_assertFailed (s : Nat → Bool) (r : Run) :
    (chunk s r).assertFailed = r.assertFailed := by
  simp only [chunk, checkPublishExtends, advance, continueGradientDescent, readStop, Run.emit]
  split_ifs <;> rfl

theorem chunk_engineSteps (s : Nat → Bool) (r : Run) :
    engineSteps (chunk s r).trace
      = engineSteps r.trace ++ [Event.continueGradientDescent 10] := by
  simp only [chunk, checkPublishExtends, advance, continueGradientDescent, readStop, Run.emit,
    updateSteps, engineSteps]
  split_ifs <;> simp [List.filter_append]

theorem chunk_finished (s : Nat → Bool) (r : Run) :
    (chunk s r).trace.count Event.finished = r.trace.count Event.finished := by
  simp only [chunk, checkPublishExtends, advance, continueGradientDescent, readStop, Run.emit,
    updateSteps]
  split_ifs <;> simp [List.count_append]

theorem iter_checks (s : Nat → Bool) (j : Nat) (r : Run) :
    ((chunk s)^[j] r).checks = r.checks + j := by
  induction j with
  | zero => rfl
  | succ j ih => rw [Function.iterate_succ_apply', chunk_checks, ih]; omega

theorem iter_current (s : Nat → Bool) (j : Nat) (r : Run)
    (hc : r.w.currentIteration < 4294967296) :
    ((chunk s)^[j] r).w.currentIteration = (r.w.currentIteration + 10 * j) % 4294967296 := by
  induction j with
  | zero => simp [Nat.mod_eq_of_lt hc]
  | succ j ih => rw [Function.iterate_succ_apply', chunk_current, ih]; omega

theorem iter_publishIter (s : Nat → Bool) (j : Nat) (r : Run) :
    ((chunk s)^[j] r).w.publishExtendsIter = r.w.publishExtendsIter := by
  induction j with
  | zero => rfl
  | succ j ih => rw [Function.iterate_succ_apply', chunk_publishIter, ih]

theorem iter_assertFailed (s : Nat → Bool) (j : Nat) (r : Run) :
    ((chunk s)^[j] r).assertFailed = r.assertFailed := by
  induction j with
  | zero => rfl
  | succ j ih => rw [Function.iterate_succ_apply', chunk_assertFailed, ih]

theorem iter_engineSteps (s : Nat → Bool) (j : Nat) (r : Run) :
    engineSteps ((chunk s)^[j] r).trace
      = engineSteps r.trace ++ List.replicate j (Event.continueGradientDescent 10) := by
  induction j with
  | zero => simp
  | succ j ih =>
    rw [Function.iterate_succ_apply', chunk_engineSteps, ih, List.replicate_succ',
      List.append_assoc]

theorem iter_finished (s : Nat → Bool) (j : Nat) (r : Run) :
    ((chunk s)^[j] r).trace.count Event.finished = r.trace.count Event.finished := by
  induction j with
  | zero => rfl
  | succ j ih => rw [Function.iterate_succ_apply', chunk_finished, ih]

theorem iter_flag (s : Nat → Bool) (j : Nat) (r : Run) (hflag : r.w.shouldStop = false)
    (hs : ∀ i, i < j → s (r.checks + i) = false) : ((chunk s)^[j] r).w.shouldStop = false := by
  induction j with
  | zero => exact hflag
  | succ j ih =>
    rw [Function.iterate_succ_apply', chunk_flag, ih (fun i hi => hs i (by omega)), iter_checks,
      hs j (by omega)]
    rfl

theorem afterInit_flag (w : Worker) : (afterInit w).w.shouldStop = false := by
  rw [afterInit, checkPublishExtends_flag]; rfl

theorem beforeLoop_flag (w : Worker) (N : Nat) (init : Bool) :
    (beforeLoop w N init).w.shouldStop = false := by
  cases init
  · rfl
  · simp only [beforeLoop, if_true, checkPublishExtends_flag]; rfl

/-- The loop when the flag is first seen by its read number `j` (counted from 0):
`j` chunks are done and the loop is left through `return`. -/
theorem descentLoop_stop (stopSeen : Nat → Bool) (j : Nat) :
    ∀ (n : Nat) (r : Run), n < 2147483648 → j < n / 10 → r.w.shouldStop = false →
      (∀ i, i < j → stopSeen (r.checks + i) = false) → stopSeen (r.checks + j) = true →
      (descentLoop stopSeen (n : Int) r).2
        = ((readStop stopSeen ((chunk stopSeen)^[j] r)).2, true) := by
  induction j with
  | zero =>
    intro n r hn hj hflag _ ht
    rw [descentLoop]
    have hc : ((n : Int) > 0 ∧ castU32 (n : Int) ≥ updateSteps) := by
      rw [castU32_of_small n (by omega)]; unfold updateSteps; omega
    rw [dif_pos hc]
    have h0 : stopSeen r.checks = true := by simpa using ht
    have hrd : (readStop stopSeen r).1 = true := by
      rw [readStop_clear stopSeen r hflag, h0]
    rw [hrd]; rfl
  | succ j ih =>
    intro n r hn hj hflag hs ht
    rw [descentLoop]
    have hc : ((n : Int) > 0 ∧ castU32 (n : Int) ≥ updateSteps) := by
      rw [castU32_of_small n (by omega)]; unfold updateSteps; omega
    rw [dif_pos hc]
    have h0 : stopSeen r.checks = false := by
      have := hs 0 (by omega)
      simpa using this
    have hrd : (readStop stopSeen r).1 = false := by
      rw [readStop_clear stopSeen r hflag, h0]
    rw [hrd]
    simp only [Bool.false_eq_true, if_false]
    have hsub : castI32 ((castU32 (n : Int) : Int) - (updateSteps : Int))
        = ((n - 10 : Nat) : Int) := by
      rw [castU32_of_small n (by omega)]; unfold castI32 updateSteps; omega
    have hfl : (chunk stopSeen r).w.shouldStop = false := by
      rw [chunk_flag, hflag, h0]; rfl
    rw [hsub, ih (n - 10) (chunk stopSeen r) (by omega) (by omega) hfl (by
        intro i hi
        rw [chunk_checks, ← hs (i + 1) (by omega)]; congr 1; omega) (by
        rw [chunk_checks, ← ht]; congr 1; omega),
      Function.iterate_succ_apply]

end EmbedWorker

namespace EmbedWorker

theorem checkPublishExtends_engineSteps (r : Run) :
    engineSteps (checkPublishExtends r).trace = engineSteps r.trace := by
  simp only [checkPublishExtends, Run.emit, engineSteps]
  split_ifs <;> simp [List.filter_append]

theorem checkPublishExtends_assertFailed (r : Run) :
    (checkPublishExtends r).assertFailed = r.assertFailed := by
  simp only [checkPublishExtends, Run.emit]
  split_ifs <;> rfl

theorem engineSteps_emit (r : Run) (e : Event) :
    engineSteps (r.emit e).trace = engineSteps r.trace ++ engineSteps [e] := by
  simp [Run.emit, engineSteps, List.filter_append]

theorem emit_assertFailed (r : Run) (e : Event) : (r.emit e).assertFailed = r.assertFailed := rfl

theorem advance_trace (r : Run) (n : Nat) : (advance r n).trace = r.trace := rfl

theorem advance_assertFailed (r : Run) (n : Nat) : (advance r n).assertFailed = r.assertFailed :=
  rfl

theorem initGradientDescent_engineSteps (r : Run) (n : Nat) :
    engineSteps (initGradientDescent r n).trace
      = engineSteps r.trace ++ [Event.initGradientDescent n] := by
  simp [initGradientDescent, Run.emit, engineSteps, List.filter_append]

theorem continueGradientDescent_engineSteps (r : Run) (n : Nat) :
    engineSteps (continueGradientDescent r n).trace
      = engineSteps r.trace ++ [Event.continueGradientDescent n] := by
  simp [continueGradientDescent, Run.emit, engineSteps, List.filter_append]

/-- The run with which `compute` enters its `init` branch. -/
theorem start_engineSteps (w : Worker) :
    engineSteps (resetStop (({ w := w, trace := [], checks := 0, assertFailed := false } : Run).emit
      Event.started)).trace = [] := by
  simp [resetStop, Run.emit, engineSteps]

/-- C1: for every iteration count `1 ≤ N < 2^31` and every worker state,
`compute(N, init = true)` run without a stop request performs exactly one
initialization step of size `min(10, N)`, then `(N - min(10, N)) / 10` continuation
steps of size 10, then one continuation step of size `N mod 10` only if `N > 10`
and `N mod 10 ≠ 0`; it returns without a failed assertion. -/
theorem C1_compute_step_sequence (w : Worker) (N : Nat) (h1 : 1 ≤ N) (h2 : N < 2147483648) :
    engineSteps (compute w N true neverStopped).trace
      = [Event.initGradientDescent (min 10 N)]
        ++ List.replicate ((N - min 10 N) / 10) (Event.continueGradientDescent 10)
        ++ (if 10 < N ∧ N % 10 ≠ 0 then [Event.continueGradientDescent (N % 10)] else [])
    ∧ (compute w N true neverStopped).assertFailed = false := by
  have hN : N ≠ 0 := by omega
  have hfin : engineSteps [Event.finished] = [] := rfl
  by_cases hle : N ≤ 10
  · have hloop : ∀ r, descentLoop neverStopped (0 : Int) r = (0, r, false) := fun r => by
      rw [descentLoop, dif_neg (by omega)]
    have hmin : min 10 N = N := by omega
    have hnlt : ¬ (10 < N) := by omega
    simp only [compute, hN, if_false, updateSteps, hle, if_true, hloop, finishCompute,
      Bool.false_eq_true, ne_eq, not_true_eq_false, hmin, hnlt, false_and]
    constructor
    · rw [engineSteps_emit, checkPublishExtends_engineSteps, advance_trace,
        initGradientDescent_engineSteps, start_engineSteps, hfin]
      simp
    · rw [emit_assertFailed, checkPublishExtends_assertFailed, advance_assertFailed]
      rfl
  · have hmin : min 10 N = 10 := by omega
    have hrem : castI32 ((castU32 (N : Int) : Int) - ((10 : Nat) : Int)) = ((N - 10 : Nat) : Int) := by
      rw [castU32_of_small N (by omega)]; unfold castI32; omega
    have hloop := descentLoop_noStop neverStopped (N - 10) (afterInit w) (by omega)
      (afterInit_flag w) (by intro i hi; rfl)
    have hfl := iter_flag neverStopped ((N - 10) / 10) (afterInit w) (afterInit_flag w)
      (by intro i hi; rfl)
    unfold afterInit at hloop hfl
    simp only [compute, hN, if_false, updateSteps, hle, if_true, hrem, hloop, finishCompute,
      Bool.false_eq_true, hmin]
    by_cases hm : N % 10 = 0
    · have hm2 : (N - 10) % 10 = 0 := by omega
      simp only [hm2, Nat.cast_zero, ne_eq, not_true_eq_false, if_false, hm, and_false]
      constructor
      · rw [engineSteps_emit, iter_engineSteps, checkPublishExtends_engineSteps, advance_trace,
          initGradientDescent_engineSteps, start_engineSteps, hfin]
        simp
      · rw [emit_assertFailed, iter_assertFailed, checkPublishExtends_assertFailed,
          advance_assertFailed]
        rfl
    · have hm2 : (N - 10) % 10 = N % 10 := by omega
      have hne : ¬ (((N % 10 : Nat) : Int) = 0) := by omega
      have hnn : ¬ (((N % 10 : Nat) : Int) < 0) := by omega
      have hlt : 10 < N := by omega
      have hcu : castU32 ((N % 10 : Nat) : Int) = N % 10 := castU32_of_small _ (by omega)
      simp only [hm2, ne_eq, hne, not_false_eq_true, if_true, hnn, false_and, if_false,
        readStop, hfl, neverStopped, Bool.or_false, Bool.false_eq_true, hcu, hlt, hm, and_self]
      constructor
      · rw [engineSteps_emit, checkPublishExtends_engineSteps, advance_trace,
          continueGradientDescent_engineSteps]
        change engineSteps ((chunk neverStopped)^[(N - 10) / 10] _).trace ++ _ ++ _ = _
        rw [iter_engineSteps, checkPublishExtends_engineSteps, advance_trace,
          initGradientDescent_engineSteps, start_engineSteps, hfin]
        simp
      · rw [emit_assertFailed, checkPublishExtends_assertFailed, advance_assertFailed]
        change ((chunk neverStopped)^[(N - 10) / 10] _).assertFailed = _
        rw [iter_assertFailed, checkPublishExtends_assertFailed, advance_assertFailed]
        rfl

/-- C1 at the inputs named by the specification: 25, 30 and 7 iterations. -/
theorem C1_compute_step_sequence_witness :
    engineSteps (compute ⟨0, 12, false⟩ 25 true neverStopped).trace
      = [Event.initGradientDescent 10, Event.continueGradientDescent 10,
          Event.continueGradientDescent 5]
    ∧ engineSteps (compute ⟨0, 12, false⟩ 30 true neverStopped).trace
      = [Event.initGradientDescent 10, Event.continueGradientDescent 10,
          Event.continueGradientDescent 10]
    ∧ engineSteps (compute ⟨0, 12, false⟩ 7 true neverStopped).trace
      = [Event.initGradientDescent 7] := by
  refine ⟨?_, ?_, ?_⟩
  · rw [(C1_compute_step_sequence ⟨0, 12, false⟩ 25 (by decide) (by decide)).1]; decide
  · rw [(C1_compute_step_sequence ⟨0, 12, false⟩ 30 (by decide) (by decide)).1]; decide
  · rw [(C1_compute_step_sequence ⟨0, 12, false⟩ 7 (by decide) (by decide)).1]; decide

/-! ### Cancellation -/

theorem checkPublishExtends_current (r : Run) :
    (checkPublishExtends r).w.currentIteration = r.w.currentIteration := by
  simp only [checkPublishExtends, Run.emit]
  split_ifs <;> rfl

theorem checkPublishExtends_checks (r : Run) : (checkPublishExtends r).checks = r.checks := by
  simp only [checkPublishExtends, Run.emit]
  split_ifs <;> rfl

theorem checkPublishExtends_finished (r : Run) :
    (checkPublishExtends r).trace.count Event.finished = r.trace.count Event.finished := by
  simp only [checkPublishExtends, Run.emit]
  split_ifs <;> simp [List.count_append]

theorem readStop_engineSteps (s : Nat → Bool) (r : Run) :
    engineSteps (readStop s r).2.trace = engineSteps r.trace := rfl

theorem afterInit_checks (w : Worker) : (afterInit w).checks = 0 := by
  rw [afterInit, checkPublishExtends_checks]; rfl

theorem afterInit_current (w : Worker) :
    (afterInit w).w.currentIteration = (w.currentIteration + 10) % 4294967296 := by
  rw [afterInit, checkPublishExtends_current]; rfl

theorem afterInit_engineSteps (w : Worker) :
    engineSteps (afterInit w).trace = [Event.initGradientDescent 10] := by
  rw [afterInit, checkPublishExtends_engineSteps, advance_trace,
    initGradientDescent_engineSteps, start_engineSteps]; rfl

theorem afterInit_finished (w : Worker) : (afterInit w).trace.count Event.finished = 0 := by
  rw [afterInit, checkPublishExtends_finished]
  simp [advance, initGradientDescent, resetStop, Run.emit]

theorem afterInit_assertFailed (w : Worker) : (afterInit w).assertFailed = false := by
  rw [afterInit, checkPublishExtends_assertFailed]; rfl

/-- Unfolding of `compute` for more than ten iterations with `init = true`. -/
theorem compute_init_eq (w : Worker) (N : Nat) (s : Nat → Bool) (h1 : 10 < N)
    (h2 : N < 2147483648) :
    compute w N true s
      = if (descentLoop s ((N - 10 : Nat) : Int) (afterInit w)).2.2
        then (descentLoop s ((N - 10 : Nat) : Int) (afterInit w)).2.1
        else finishCompute s N (descentLoop s ((N - 10 : Nat) : Int) (afterInit w)).1
          (descentLoop s ((N - 10 : Nat) : Int) (afterInit w)).2.1 := by
  have hN : N ≠ 0 := by omega
  have hle : ¬ N ≤ 10 := by omega
  have hrem : castI32 ((castU32 (N : Int) : Int) - ((10 : Nat) : Int)) = ((N - 10 : Nat) : Int) := by
    rw [castU32_of_small N (by omega)]; unfold castI32; omega
  simp only [compute, hN, if_false, updateSteps, hle, if_true, hrem, afterInit]

/-- An uninterrupted run of `compute(N, init = true)` with `10 < N < 2^31` makes
`(N - 1) / 10` stop-flag checks: one before every continuation step. -/
theorem compute_checks_uninterrupted (w : Worker) (N : Nat) (h1 : 10 < N)
    (h2 : N < 2147483648) : (compute w N true neverStopped).checks = (N - 1) / 10 := by
  rw [compute_init_eq w N neverStopped h1 h2,
    descentLoop_noStop neverStopped (N - 10) (afterInit w) (by omega) (afterInit_flag w)
      (by intro i hi; rfl)]
  simp only [Bool.false_eq_true, if_false, finishCompute]
  by_cases hm : (N - 10) % 10 = 0
  · have hz : (((N - 10) % 10 : Nat) : Int) = 0 := by omega
    simp only [hz, ne_eq, not_true_eq_false, if_false]
    change ((chunk neverStopped)^[(N - 10) / 10] (afterInit w)).checks = _
    rw [iter_checks, afterInit_checks]
    omega
  · have hne : ¬ ((((N - 10) % 10 : Nat) : Int) = 0) := by omega
    have hnn : ¬ ((((N - 10) % 10 : Nat) : Int) < 0) := by omega
    have hrd : (readStop neverStopped ((chunk neverStopped)^[(N - 10) / 10] (afterInit w))).1
        = false := by
      rw [readStop_clear _ _ (iter_flag neverStopped _ _ (afterInit_flag w)
        (by intro i hi; rfl))]
      rfl
    simp only [ne_eq, hne, not_false_eq_true, if_true, hnn, false_and, if_false, hrd,
      Bool.false_eq_true]
    change (checkPublishExtends _).checks = _
    rw [checkPublishExtends_checks]
    change ((chunk neverStopped)^[(N - 10) / 10] (afterInit w)).checks + 1 = _
    rw [iter_checks, afterInit_checks]
    omega

/-- C2 as stated fails when the 32-bit iteration counter wraps: a 50-iteration job
started at `current = 4294967290` and stopped at its first stop-flag check returns
with `current = 4`, not with `4294967290 + 10`. -/
theorem C2_counterexample :
    (compute ⟨4294967290, 0, false⟩ 50 true (fun _ => true)).w.currentIteration = 4
    ∧ ¬ ((compute ⟨4294967290, 0, false⟩ 50 true (fun _ => true)).w.currentIteration
          = 4294967290 + 10 * 1) := by
  have h : (compute ⟨4294967290, 0, false⟩ 50 true (fun _ => true)).w.currentIteration = 4 := by
    rw [compute_init_eq _ _ _ (by decide) (by decide), descentLoop]
    simp [readStop, afterInit, checkPublishExtends, advance, initGradientDescent, resetStop,
      Run.emit, updateSteps, castU32]
  exact ⟨h, by rw [h]; decide⟩

/-- C2 (amended): for `10 < N < 2^31`, every start value `c` of the 32-bit counter and
every `k ≥ 1` not exceeding the number of stop-flag checks that an uninterrupted
run makes: when the `k`-th check is the first that sees the flag set,
`compute(N, init = true)` returns after exactly `k` checks with
`current = (c + 10 k) mod 2^32`, which is `c + 10 k` when that value fits in 32 bits
and is below `c + N` in any case; it has done the initialization step and `k - 1`
continuation steps of size 10 and nothing more, has emitted no `finished`, and
`stop()` emits `stopped`. -/
theorem C2_stop_at_check (w : Worker) (N k : Nat) (stopSeen : Nat → Bool)
    (hN1 : 10 < N) (hN2 : N < 2147483648) (hc : w.currentIteration < 4294967296)
    (hk1 : 1 ≤ k) (hk2 : k ≤ (compute w N true neverStopped).checks)
    (hfalse : ∀ i, i + 1 < k → stopSeen i = false) (htrue : stopSeen (k - 1) = true) :
    (compute w N true stopSeen).w.currentIteration = (w.currentIteration + 10 * k) % 4294967296
    ∧ (w.currentIteration + 10 * k < 4294967296 →
        (compute w N true stopSeen).w.currentIteration = w.currentIteration + 10 * k)
    ∧ (compute w N true stopSeen).w.currentIteration < w.currentIteration + N
    ∧ 10 * k < N
    ∧ (compute w N true stopSeen).checks = k
    ∧ engineSteps (compute w N true stopSeen).trace
        = Event.initGradientDescent 10 :: List.replicate (k - 1) (Event.continueGradientDescent 10)
    ∧ (compute w N true stopSeen).trace.count Event.finished = 0
    ∧ (compute w N true stopSeen).assertFailed = false
    ∧ Event.stopped ∈ (stop (compute w N true stopSeen)).trace := by
  rw [compute_checks_uninterrupted w N hN1 hN2] at hk2
  have hkN : 10 * k < N := by omega
  have hmain : (compute w N true stopSeen)
      = (readStop stopSeen ((chunk stopSeen)^[k - 1] (afterInit w))).2 := by
    rw [compute_init_eq w N stopSeen hN1 hN2]
    by_cases hin : k - 1 < (N - 10) / 10
    · have h := descentLoop_stop stopSeen (k - 1) (N - 10) (afterInit w) (by omega) hin
        (afterInit_flag w)
        (by intro i hi; rw [afterInit_checks]; simpa using hfalse i (by omega))
        (by rw [afterInit_checks]; simpa using htrue)
      rw [h]; rfl
    · have hkeq : k - 1 = (N - 10) / 10 := by omega
      have hmod : (N - 10) % 10 ≠ 0 := by omega
      have h := descentLoop_noStop stopSeen (N - 10) (afterInit w) (by omega) (afterInit_flag w)
        (by intro i hi; rw [afterInit_checks]; simpa using hfalse i (by omega))
      rw [h]
      have hne : (((N - 10) % 10 : Nat) : Int) ≠ 0 := by omega
      have hnn : ¬ ((((N - 10) % 10 : Nat) : Int) < 0) := by omega
      have hrd : (readStop stopSeen ((chunk stopSeen)^[(N - 10) / 10] (afterInit w))).1 = true := by
        simp only [readStop, iter_checks, afterInit_checks, ← hkeq]
        simp [htrue]
      simp only [Bool.false_eq_true, if_false, finishCompute, hne, ne_eq, not_false_eq_true,
        if_true, hnn, false_and, hrd, hkeq]
  have hcur : (compute w N true stopSeen).w.currentIteration
      = (w.currentIteration + 10 * k) % 4294967296 := by
    rw [hmain]
    change ((chunk stopSeen)^[k - 1] (afterInit w)).w.currentIteration = _
    rw [iter_current _ _ _ (by rw [afterInit_current]; omega), afterInit_current]
    omega
  refine ⟨hcur, ?_, ?_, hkN, ?_, ?_, ?_, ?_, ?_⟩
  · intro hfit
    rw [hcur]; omega
  · rw [hcur]; omega
  · rw [hmain]
    change ((chunk stopSeen)^[k - 1] (afterInit w)).checks + 1 = _
    rw [iter_checks, afterInit_checks]; omega
  · rw [hmain, readStop_engineSteps, iter_engineSteps, afterInit_engineSteps]; rfl
  · rw [hmain]
    change ((chunk stopSeen)^[k - 1] (afterInit w)).trace.count Event.finished = 0
    rw [iter_finished, afterInit_finished]
  · rw [hmain]
    change ((chunk stopSeen)^[k - 1] (afterInit w)).assertFailed = false
    rw [iter_assertFailed, afterInit_assertFailed]
  · simp [stop, Run.emit]

/-- C2 on the 50-iteration job of the specification started at 0: stopped at the
first check it ends with `current = 10`, stopped at the second with `current = 20`. -/
theorem C2_stop_at_check_witness :
    (compute ⟨0, 0, false⟩ 50 true (fun _ => true)).w.currentIteration = 10
    ∧ (compute ⟨0, 0, false⟩ 50 true (fun i => decide (1 ≤ i))).w.currentIteration = 20 := by
  constructor
  · exact (C2_stop_at_check ⟨0, 0, false⟩ 50 1 (fun _ => true) (by decide) (by decide)
      (by decide) (by decide)
      (by rw [compute_checks_uninterrupted _ _ (by decide) (by decide)]; decide)
      (by intro i hi; omega) rfl).2.1 (by decide)
  · exact (C2_stop_at_check ⟨0, 0, false⟩ 50 2 (fun i => decide (1 ≤ i)) (by decide) (by decide)
      (by decide) (by decide)
      (by rw [compute_checks_uninterrupted _ _ (by decide) (by decide)]; decide)
      (by intro i hi; have : i = 0 := by omega
          subst this; rfl) rfl).2.1 (by decide)

/-! ### Requests of 2^31 iterations or more, and the publish window -/

theorem descentLoop_exit (s : Nat → Bool) (rem : Int) (r : Run)
    (h : ¬ (rem > 0 ∧ castU32 rem ≥ updateSteps)) : descentLoop s rem r = (rem, r, false) := by
  rw [descentLoop, dif_neg h]

/-- Beyond the iteration counts that the callers pass (the settings allow at most
10000): for a request of 2^31 iterations the conversion to `int32_t` turns
`remainingIter` negative, the loop is skipped and `assert(iterations < _updateSteps)`
does not hold. The same happens to `compute(2147483658, init = true)` after its
initialization step. -/
theorem compute_large_request :
    compute ⟨0, 0, false⟩ 2147483648 false neverStopped
      = { w := ⟨0, 0, false⟩, trace := [Event.started, Event.engineResetStop], checks := 0,
          assertFailed := true }
    ∧ (compute ⟨0, 0, false⟩ 2147483648 false neverStopped).trace.count Event.finished = 0
    ∧ compute ⟨0, 0, false⟩ 2147483658 true neverStopped
      = { w := ⟨10, 0, false⟩,
          trace := [Event.started, Event.engineResetStop, Event.initGradientDescent 10,
            Event.embeddingUpdate],
          checks := 0, assertFailed := true } := by
  have hc : castI32 (2147483648 : Int) = -2147483648 := by unfold castI32; omega
  have hl := fun r => descentLoop_exit neverStopped (-2147483648) r (by omega)
  have h : compute ⟨0, 0, false⟩ 2147483648 false neverStopped
      = { w := ⟨0, 0, false⟩, trace := [Event.started, Event.engineResetStop], checks := 0,
          assertFailed := true } := by
    simp [compute, hc, hl, finishCompute, resetStop, Run.emit, updateSteps]
  refine ⟨h, by rw [h]; decide, ?_⟩
  simp [compute, hc, hl, finishCompute, resetStop, Run.emit, updateSteps, castU32,
    checkPublishExtends, advance, initGradientDescent]

/-- C4 fails on the code when the run ends with a partial step: with publish
threshold 12, `compute(21, init = true)` started at `current = 0` and not stopped
emits `publishExtends` twice, after the step from 10 to 20 and again after the
remainder step from 20 to 21, because 20 and 21 both lie in the window `[12, 22)`. -/
theorem C4_publishExtends_twice :
    (compute ⟨0, 12, false⟩ 21 true neverStopped).trace
      = [Event.started, Event.engineResetStop, Event.initGradientDescent 10,
          Event.embeddingUpdate, Event.continueGradientDescent 10, Event.embeddingUpdate,
          Event.publishExtends, Event.continueGradientDescent 1, Event.embeddingUpdate,
          Event.publishExtends, Event.finished]
    ∧ (compute ⟨0, 12, false⟩ 21 true neverStopped).trace.count Event.publishExtends = 2 := by
  have h : (compute ⟨0, 12, false⟩ 21 true neverStopped).trace
      = [Event.started, Event.engineResetStop, Event.initGradientDescent 10,
          Event.embeddingUpdate, Event.continueGradientDescent 10, Event.embeddingUpdate,
          Event.publishExtends, Event.continueGradientDescent 1, Event.embeddingUpdate,
          Event.publishExtends, Event.finished] := by
    rw [compute_init_eq _ _ _ (by decide) (by decide),
      descentLoop_noStop neverStopped (21 - 10) _ (by decide) (afterInit_flag _)
        (by intro i hi; rfl)]
    simp [finishCompute, chunk, readStop, afterInit, checkPublishExtends, advance,
      initGradientDescent, continueGradientDescent, resetStop, Run.emit, updateSteps, castU32,
      neverStopped]
  exact ⟨h, by rw [h]; decide⟩

end EmbedWorker

namespace EmbedWorker

/-! ### `finished` is emitted exactly when no stop-flag check saw the flag -/

theorem compute_eq (w : Worker) (N : Nat) (init : Bool) (s : Nat → Bool) (h1 : 1 ≤ N)
    (h2 : N < 2147483648) :
    compute w N init s
      = if (descentLoop s ((loopStart N init : Nat) : Int) (beforeLoop w N init)).2.2
        then (descentLoop s ((loopStart N init : Nat) : Int) (beforeLoop w N init)).2.1
        else finishCompute s N (descentLoop s ((loopStart N init : Nat) : Int)
            (beforeLoop w N init)).1
          (descentLoop s ((loopStart N init : Nat) : Int) (beforeLoop w N init)).2.1 := by
  have hN : N ≠ 0 := by omega
  cases init with
  | false =>
    have hc : castI32 (N : Int) = (N : Int) := castI32_of_small N h2
    simp only [compute, hN, if_false, Bool.false_eq_true, hc, loopStart, beforeLoop]
  | true =>
    by_cases hle : N ≤ 10
    · have hm : min N 10 = N := by omega
      have hz : N - 10 = 0 := by omega
      simp only [compute, hN, if_false, if_true, updateSteps, hle, loopStart, beforeLoop, hm, hz,
        Nat.cast_zero]
    · have hm : min N 10 = 10 := by omega
      have hrem : castI32 ((castU32 (N : Int) : Int) - ((10 : Nat) : Int))
          = ((N - 10 : Nat) : Int) := by
        rw [castU32_of_small N (by omega)]; unfold castI32; omega
      simp only [compute, hN, if_false, if_true, updateSteps, hle, loopStart, beforeLoop, hm, hrem]

theorem beforeLoop_checks (w : Worker) (N : Nat) (init : Bool) :
    (beforeLoop w N init).checks = 0 := by
  cases init
  · rfl
  · simp only [beforeLoop, if_true, checkPublishExtends_checks]; rfl

theorem checkPublishExtends_quiet (r : Run) (h : Quiet r) : Quiet (checkPublishExtends r) := by
  obtain ⟨h1, h2, h3⟩ := h
  simp only [checkPublishExtends, Run.emit]
  split_ifs
  · exact ⟨h1, h2, h3⟩
  · exact ⟨h1, by simpa [List.count_append] using h2, by simpa [List.count_append] using h3⟩
  · exact ⟨h1, h2, h3⟩

theorem beforeLoop_quiet (w : Worker) (N : Nat) (init : Bool) : Quiet (beforeLoop w N init) := by
  cases init
  · exact ⟨rfl, by simp [beforeLoop, resetStop, Run.emit], by simp [beforeLoop, resetStop, Run.emit]⟩
  · simp only [beforeLoop, if_true]
    apply checkPublishExtends_quiet
    exact ⟨rfl, by simp [advance, initGradientDescent, resetStop, Run.emit],
      by simp [advance, initGradientDescent, resetStop, Run.emit]⟩

theorem readStop_quiet (s : Nat → Bool) (r : Run) (h : Quiet r) : Quiet (readStop s r).2 := h

theorem step_quiet (r : Run) (n : Nat) (h : Quiet r) :
    Quiet (checkPublishExtends (advance (continueGradientDescent r n) n)) := by
  apply checkPublishExtends_quiet
  obtain ⟨h1, h2, h3⟩ := h
  exact ⟨h1, by simpa [advance, continueGradientDescent, Run.emit, List.count_append] using h2,
    by simpa [advance, continueGradientDescent, Run.emit, List.count_append] using h3⟩

theorem chunk_quiet (s : Nat → Bool) (r : Run) (h : Quiet r) : Quiet (chunk s r) :=
  step_quiet _ _ (readStop_quiet s r h)

theorem iter_quiet (s : Nat → Bool) (j : Nat) (r : Run) (h : Quiet r) :
    Quiet ((chunk s)^[j] r) := by
  induction j with
  | zero => exact h
  | succ j ih => rw [Function.iterate_succ_apply']; exact chunk_quiet s _ ih

/-- Either no read made by the loop sees the flag, or there is a first one that does. -/
theorem descentLoop_cases (s : Nat → Bool) (n : Nat) (r : Run) (hn : n < 2147483648)
    (hflag : r.w.shouldStop = false) :
    ((∀ i, i < n / 10 → s (r.checks + i) = false)
        ∧ descentLoop s (n : Int) r = (((n % 10 : Nat) : Int), (chunk s)^[n / 10] r, false))
    ∨ ∃ j, j < n / 10 ∧ (∀ i, i < j → s (r.checks + i) = false) ∧ s (r.checks + j) = true
        ∧ (descentLoop s (n : Int) r).2 = ((readStop s ((chunk s)^[j] r)).2, true) := by
  by_cases h : ∃ j, j < n / 10 ∧ s (r.checks + j) = true
  · right
    classical
    refine ⟨Nat.find h, (Nat.find_spec h).1, ?_, (Nat.find_spec h).2, ?_⟩
    · intro i hi
      have hmin := Nat.find_min h hi
      have hlt : i < n / 10 := lt_trans hi (Nat.find_spec h).1
      cases hsi : s (r.checks + i) with
      | false => rfl
      | true => exact absurd ⟨hlt, hsi⟩ hmin
    · apply descentLoop_stop s (Nat.find h) n r hn (Nat.find_spec h).1 hflag _
        (Nat.find_spec h).2
      intro i hi
      have hmin := Nat.find_min h hi
      have hlt : i < n / 10 := lt_trans hi (Nat.find_spec h).1
      cases hsi : s (r.checks + i) with
      | false => rfl
      | true => exact absurd ⟨hlt, hsi⟩ hmin
  · left
    have hall : ∀ i, i < n / 10 → s (r.checks + i) = false := by
      intro i hi
      cases hsi : s (r.checks + i) with
      | false => rfl
      | true => exact absurd ⟨i, hi, hsi⟩ h
    exact ⟨hall, descentLoop_noStop s n r hn hflag hall⟩

/-- For requests below 2^31, with either `init` flag and every pattern of stop-flag
observations, `compute` meets no failed assertion and never emits `stopped`; if
none of its stop-flag checks saw the flag set it emits `finished` exactly once, as
its last emission, and if one of them did it emits no `finished`. -/
theorem compute_finished_iff_no_stop_seen (w : Worker) (N : Nat) (init : Bool)
    (s : Nat → Bool) (h1 : 1 ≤ N) (h2 : N < 2147483648) :
    (compute w N init s).assertFailed = false
    ∧ (compute w N init s).trace.count Event.stopped = 0
    ∧ ((∀ i, i < (compute w N init s).checks → s i = false) →
        (compute w N init s).trace.count Event.finished = 1
          ∧ (compute w N init s).trace.getLast? = some Event.finished)
    ∧ ((∃ i, i < (compute w N init s).checks ∧ s i = true) →
        (compute w N init s).trace.count Event.finished = 0) := by
  have hls : loopStart N init < 2147483648 := by
    unfold loopStart; split_ifs <;> omega
  have hq0 := beforeLoop_quiet w N init
  have hc0 := beforeLoop_checks w N init
  have hf0 := beforeLoop_flag w N init
  rw [compute_eq w N init s h1 h2]
  rcases descentLoop_cases s (loopStart N init) (beforeLoop w N init) hls hf0 with
    ⟨hall, hloop⟩ | ⟨j, hj, hbefore, hat, hloop⟩
  · rw [hloop]
    simp only [Bool.false_eq_true, if_false]
    have hq := iter_quiet s (loopStart N init / 10) _ hq0
    have hck := iter_checks s (loopStart N init / 10) (beforeLoop w N init)
    have hfl := iter_flag s (loopStart N init / 10) (beforeLoop w N init) hf0 hall
    rw [hc0, Nat.zero_add] at hck
    simp only [hc0, Nat.zero_add] at hall
    generalize (chunk s)^[loopStart N init / 10] (beforeLoop w N init) = r at hq hck hfl
    obtain ⟨hq1, hq2, hq3⟩ := hq
    by_cases hm : loopStart N init % 10 = 0
    · have hz : ((loopStart N init % 10 : Nat) : Int) = 0 := by omega
      simp only [finishCompute, hz, ne_eq, not_true_eq_false, if_false]
      refine ⟨hq1, ?_, ?_, ?_⟩
      · simpa [Run.emit, List.count_append] using hq3
      · intro _
        exact ⟨by simp [Run.emit, List.count_append, hq2], by simp [Run.emit]⟩
      · rintro ⟨i, hi, hsi⟩
        have hi2 : i < r.checks := hi
        rw [hall i (by omega)] at hsi
        cases hsi
    · have hne : ¬ (((loopStart N init % 10 : Nat) : Int) = 0) := by omega
      have hnn : ¬ (((loopStart N init % 10 : Nat) : Int) < 0) := by omega
      simp only [finishCompute, ne_eq, hne, not_false_eq_true, if_true, hnn, false_and, if_false]
      cases hrd : s r.checks with
      | true =>
        have hrd1 : (readStop s r).1 = true := by rw [readStop_clear s r hfl, hrd]
        simp only [hrd1, if_true]
        refine ⟨hq1, hq3, ?_, ?_⟩
        · intro hno
          have := hno r.checks (by simp [readStop])
          rw [hrd] at this
          cases this
        · intro _
          exact hq2
      | false =>
        have hrd1 : (readStop s r).1 = false := by rw [readStop_clear s r hfl, hrd]
        simp only [hrd1, Bool.false_eq_true, if_false]
        have hqs := step_quiet (readStop s r).2
          (castU32 ((loopStart N init % 10 : Nat) : Int)) ⟨hq1, hq2, hq3⟩
        have hcs : (checkPublishExtends (advance (continueGradientDescent (readStop s r).2
            (castU32 ((loopStart N init % 10 : Nat) : Int)))
            (castU32 ((loopStart N init % 10 : Nat) : Int)))).checks = r.checks + 1 := by
          rw [checkPublishExtends_checks]; rfl
        generalize checkPublishExtends (advance (continueGradientDescent (readStop s r).2
            (castU32 ((loopStart N init % 10 : Nat) : Int)))
            (castU32 ((loopStart N init % 10 : Nat) : Int))) = r2 at hqs hcs
        obtain ⟨hs1, hs2, hs3⟩ := hqs
        refine ⟨hs1, ?_, ?_, ?_⟩
        · simpa [Run.emit, List.count_append] using hs3
        · intro _
          exact ⟨by simp [Run.emit, List.count_append, hs2], by simp [Run.emit]⟩
        · rintro ⟨i, hi, hsi⟩
          have hi2 : i < r2.checks := hi
          rw [hcs] at hi2
          by_cases hil : i < r.checks
          · rw [hall i (by omega)] at hsi
            cases hsi
          · have hie : i = r.checks := by omega
            rw [hie, hrd] at hsi
            cases hsi
  · rw [hloop]
    simp only [if_true]
    have hq := iter_quiet s j _ hq0
    have hck := iter_checks s j (beforeLoop w N init)
    rw [hc0, Nat.zero_add] at hck
    rw [hc0, Nat.zero_add] at hat
    generalize (chunk s)^[j] (beforeLoop w N init) = r at hq hck
    obtain ⟨hq1, hq2, hq3⟩ := hq
    refine ⟨hq1, hq3, ?_, ?_⟩
    · intro hno
      have := hno j (by simp [readStop, hck])
      rw [hat] at this
      cases this
    · intro _
      exact hq2

/-- C3: for every iteration count that a caller passes (the settings bound it by
10000; the statement covers every `1 ≤ N < 2^31`), either `init` flag and every
pattern of stop-flag observations, `compute` emits `finished` exactly once, as its
last emission, if and only if none of its stop-flag checks saw the flag set; if a
check saw the flag set the run ends without `finished`, and `compute` itself never
emits `stopped`. -/
theorem C3_finished_iff_no_stop_seen (w : Worker) (N : Nat) (init : Bool) (s : Nat → Bool)
    (h1 : 1 ≤ N) (h2 : N < 2147483648) :
    (compute w N init s).assertFailed = false
    ∧ (compute w N init s).trace.count Event.stopped = 0
    ∧ (((compute w N init s).trace.count Event.finished = 1
          ∧ (compute w N init s).trace.getLast? = some Event.finished)
        ↔ ∀ i, i < (compute w N init s).checks → s i = false)
    ∧ ((∃ i, i < (compute w N init s).checks ∧ s i = true) →
        (compute w N init s).trace.count Event.finished = 0) := by
  obtain ⟨ha, hs, hfin, hstop⟩ := compute_finished_iff_no_stop_seen w N init s h1 h2
  refine ⟨ha, hs, ⟨?_, hfin⟩, hstop⟩
  rintro ⟨hone, -⟩ i hi
  cases hsi : s i with
  | false => rfl
  | true =>
    have := hstop ⟨i, hi, hsi⟩
    omega

/-- C3 on a job of 25 iterations that nobody stops: `finished` is emitted once, as
the last emission, and `stopped` is not emitted. -/
theorem C3_finished_iff_no_stop_seen_witness :
    (compute ⟨0, 250, false⟩ 25 true neverStopped).trace.count Event.stopped = 0
    ∧ (compute ⟨0, 250, false⟩ 25 true neverStopped).trace.count Event.finished = 1
    ∧ (compute ⟨0, 250, false⟩ 25 true neverStopped).trace.getLast? = some Event.finished :=
  ⟨(C3_finished_iff_no_stop_seen ⟨0, 250, false⟩ 25 true neverStopped (by decide)
      (by decide)).2.1,
    (C3_finished_iff_no_stop_seen ⟨0, 250, false⟩ 25 true neverStopped (by decide)
      (by decide)).2.2.1.2 (fun _ _ => rfl)⟩

end EmbedWorker

/-! ## Selection mapping -/

theorem mem_uniqueAdjacent (x : Nat) : ∀ l : List Nat, x ∈ uniqueAdjacent l ↔ x ∈ l := by
  intro l
  induction l using uniqueAdjacent.induct with
  | case1 => simp [uniqueAdjacent]
  | case2 a => simp [uniqueAdjacent]
  | case3 a rest ih =>
    simp only [uniqueAdjacent, if_true, ih, List.mem_cons]
    tauto
  | case4 a b rest hab ih =>
    simp only [uniqueAdjacent, hab, if_false, List.mem_cons, ih]

theorem sorted_uniqueAdjacent :
    ∀ l : List Nat, l.Sorted (fun a b => a ≤ b) → (uniqueAdjacent l).Sorted (fun a b => a < b) := by
  intro l
  induction l using uniqueAdjacent.induct with
  | case1 => intro _; simp [uniqueAdjacent]
  | case2 a => intro _; simp [uniqueAdjacent]
  | case3 a rest ih =>
    intro h
    simp only [uniqueAdjacent, if_true]
    exact ih (List.sorted_cons.1 h).2
  | case4 a b rest hab ih =>
    intro h
    simp only [uniqueAdjacent, hab, if_false]
    have h1 := List.sorted_cons.1 h
    have h2 := List.sorted_cons.1 h1.2
    refine List.sorted_cons.2 ⟨?_, ih h1.2⟩
    intro x hx
    have hx2 : x ∈ b :: rest := (mem_uniqueAdjacent x _).1 hx
    have hab2 : a ≤ b := h1.1 b (List.mem_cons_self _ _)
    have hbx : b ≤ x := by
      rcases List.mem_cons.1 hx2 with h3 | h3
      · omega
      · exact h2.1 x h3
    omega

theorem sortAndUnique_sorted (l : List Nat) : (sortAndUnique l).Sorted (fun a b => a < b) :=
  sorted_uniqueAdjacent _ (List.sorted_insertionSort (fun a b => a ≤ b) l)

theorem mem_sortAndUnique (x : Nat) (l : List Nat) : x ∈ sortAndUnique l ↔ x ∈ l := by
  unfold sortAndUnique
  rw [mem_uniqueAdjacent]
  exact (List.perm_insertionSort (fun a b => a ≤ b) l).mem_iff

/-- Two strictly increasing lists with the same elements are the same list. -/
theorem eq_of_sorted_of_mem_iff (l₁ l₂ : List Nat) (h₁ : l₁.Sorted (fun a b => a < b))
    (h₂ : l₂.Sorted (fun a b => a < b)) (h : ∀ x, x ∈ l₁ ↔ x ∈ l₂) : l₁ = l₂ :=
  List.eq_of_perm_of_sorted ((List.perm_ext_iff_of_nodup h₁.nodup h₂.nodup).2 h) h₁ h₂

theorem pixelLoop_ok (map : List Nat) :
    ∀ sel : List Nat, SelectionInRange sel map.length →
      ∃ out, pixelLoop map sel = .ok out
        ∧ ∀ x, x ∈ out ↔ ∃ i ∈ sel, ∃ v, map[i]? = some v ∧ x = v % 4294967296 := by
  intro sel
  induction sel with
  | nil => intro _; exact ⟨[], rfl, by simp⟩
  | cons i rest ih =>
    intro h
    obtain ⟨out, ho, hm⟩ := ih (fun j hj => h j (List.mem_cons_of_mem _ hj))
    have hi : i < map.length := h i (List.mem_cons_self _ _)
    have hget : map[i]? = some map[i] := List.getElem?_eq_getElem hi
    have hne : ¬ (map[i] % 4294967296 = UINT64_MAX) := by unfold UINT64_MAX; omega
    refine ⟨map[i] % 4294967296 :: out, ?_, ?_⟩
    · simp only [pixelLoop, hget, ho, hne, if_false, Nat.mod_mod]
    · intro x
      simp only [List.mem_cons, hm, exists_eq_or_imp, hget, Option.some.injEq, exists_eq_left']

theorem superPixelLoop_ok (map : List (List Nat)) :
    ∀ sel : List Nat, SelectionInRange sel map.length →
      ∃ out, superPixelLoop map sel = .ok out
        ∧ ∀ x, x ∈ out ↔ ∃ j ∈ sel, ∃ fs, map[j]? = some fs ∧ ∃ f ∈ fs, x = f % 4294967296 := by
  intro sel
  induction sel with
  | nil => intro _; exact ⟨[], rfl, by simp⟩
  | cons j rest ih =>
    intro h
    obtain ⟨out, ho, hm⟩ := ih (fun k hk => h k (List.mem_cons_of_mem _ hk))
    have hj : j < map.length := h j (List.mem_cons_self _ _)
    have hget : map[j]? = some map[j] := List.getElem?_eq_getElem hj
    by_cases he : map[j] = []
    · refine ⟨out, ?_, ?_⟩
      · simp [superPixelLoop, hget, ho, he]
      · intro x
        simp [List.mem_cons, hm, exists_eq_or_imp, hget, he]
    · refine ⟨map[j].map (fun val => val % 4294967296) ++ out, ?_, ?_⟩
      · simp [superPixelLoop, hget, ho, he]
      · intro x
        simp only [List.mem_append, List.mem_map, List.mem_cons, hm, exists_eq_or_imp, hget,
          Option.some.injEq, exists_eq_left']
        constructor
        · rintro (⟨f, hf, rfl⟩ | h2)
          · exact Or.inl ⟨f, hf, rfl⟩
          · exact Or.inr h2
        · rintro (⟨f, hf, rfl⟩ | h2)
          · exact Or.inl ⟨f, hf, rfl⟩
          · exact Or.inr h2

/-- C7 fails on the code: the sentinel test of `mapPixelToSuperPixel` compares the map
entry after it has been truncated to `uint32_t`, so it never succeeds. Selecting
the only unmapped pixel of the map `[0, UINT64_MAX, 1]` returns the coarse index
`4294967295` where the claim expects the empty list. -/
theorem C7_sentinel_not_skipped :
    mapPixelToSuperPixel ⟨3, [1]⟩ [0, UINT64_MAX, 1] = .ok [4294967295]
    ∧ mapPixelToSuperPixel ⟨3, [1]⟩ [0, UINT64_MAX, 1] ≠ .ok [] := by
  constructor
  · rfl
  · intro h
    have h2 : mapPixelToSuperPixel ⟨3, [1]⟩ [0, UINT64_MAX, 1] = .ok [4294967295] := rfl
    rw [h2] at h
    cases h

/-- C8: for every selection of in-range pixel indices and every fine-to-coarse map
without sentinel entries whose values are all below 2^32, `mapPixelToSuperPixel`
returns a strictly increasing list whose elements are exactly the map entries of
the selected pixels. -/
theorem C8_mapPixelToSuperPixel_sorted_image (data : Points) (map : List Nat)
    (hS : SelectionInRange data.selectionIndices map.length) (hsent : NoSentinel map)
    (h32 : ∀ v ∈ map, v < 4294967296) :
    ∃ out, mapPixelToSuperPixel data map = .ok out
      ∧ out.Sorted (fun a b => a < b)
      ∧ ∀ x, x ∈ out ↔ ∃ i ∈ data.selectionIndices, map[i]? = some x := by
  obtain ⟨raw, hraw, hmem⟩ := pixelLoop_ok map data.selectionIndices hS
  refine ⟨sortAndUnique raw, ?_, sortAndUnique_sorted raw, ?_⟩
  · simp only [mapPixelToSuperPixel, hraw]
  · intro x
    rw [mem_sortAndUnique, hmem]
    constructor
    · rintro ⟨i, hi, v, hv, rfl⟩
      have hv32 : v < 4294967296 := h32 v (List.getElem?_mem hv)
      exact ⟨i, hi, by rw [hv, Nat.mod_eq_of_lt hv32]⟩
    · rintro ⟨i, hi, hx⟩
      have hx32 : x < 4294967296 := h32 x (List.getElem?_mem hx)
      exact ⟨i, hi, x, hx, (Nat.mod_eq_of_lt hx32).symm⟩

/-- C8 on a selection with a repeated pixel and two pixels of the same superpixel. -/
theorem C8_mapPixelToSuperPixel_sorted_image_witness :
    ∃ out, mapPixelToSuperPixel ⟨3, [2, 0, 2, 1]⟩ [5, 3, 5] = .ok out
      ∧ out.Sorted (fun a b => a < b)
      ∧ ∀ x, x ∈ out ↔ ∃ i ∈ [2, 0, 2, 1], [5, 3, 5][i]? = some x :=
  C8_mapPixelToSuperPixel_sorted_image ⟨3, [2, 0, 2, 1]⟩ [5, 3, 5] (by decide) (by decide)
    (by decide)

/-- C9: for every selection of in-range coarse indices and every coarse-to-fine map
whose fine indices are all below 2^32, `mapSuperPixelToPixel` returns a strictly
increasing list whose elements are exactly the fine indices listed under the
selected coarse nodes; a node with an empty list contributes nothing. -/
theorem C9_mapSuperPixelToPixel_sorted_union (data : Points) (map : List (List Nat))
    (hT : SelectionInRange data.selectionIndices map.length)
    (h32 : ∀ fs ∈ map, ∀ f ∈ fs, f < 4294967296) :
    ∃ out, mapSuperPixelToPixel data map = .ok out
      ∧ out.Sorted (fun a b => a < b)
      ∧ ∀ x, x ∈ out ↔ ∃ j ∈ data.selectionIndices, ∃ fs, map[j]? = some fs ∧ x ∈ fs := by
  obtain ⟨raw, hraw, hmem⟩ := superPixelLoop_ok map data.selectionIndices hT
  refine ⟨sortAndUnique raw, ?_, sortAndUnique_sorted raw, ?_⟩
  · simp only [mapSuperPixelToPixel, hraw]
  · intro x
    rw [mem_sortAndUnique, hmem]
    constructor
    · rintro ⟨j, hj, fs, hfs, f, hf, rfl⟩
      have hf32 : f < 4294967296 := h32 fs (List.getElem?_mem hfs) f hf
      exact ⟨j, hj, fs, hfs, by rw [Nat.mod_eq_of_lt hf32]; exact hf⟩
    · rintro ⟨j, hj, fs, hfs, hx⟩
      have hx32 : x < 4294967296 := h32 fs (List.getElem?_mem hfs) x hx
      exact ⟨j, hj, fs, hfs, x, hx, (Nat.mod_eq_of_lt hx32).symm⟩

/-- C9 on a selection that names one coarse node twice and one with an empty list. -/
theorem C9_mapSuperPixelToPixel_sorted_union_witness :
    ∃ out, mapSuperPixelToPixel ⟨3, [2, 1, 0, 2]⟩ [[4, 1], [], [3, 0]] = .ok out
      ∧ out.Sorted (fun a b => a < b)
      ∧ ∀ x, x ∈ out ↔ ∃ j ∈ [2, 1, 0, 2], ∃ fs, [[4, 1], [], [3, 0]][j]? = some fs ∧ x ∈ fs :=
  C9_mapSuperPixelToPixel_sorted_union ⟨3, [2, 1, 0, 2]⟩ [[4, 1], [], [3, 0]] (by decide)
    (by decide)

/-- What `expandPixelToSuperpixelSelection` returns for non-empty maps whose length
agrees with the point count, when all reads are in range. -/
theorem expand_ok (data : Points) (f2c : List Nat) (c2f : List (List Nat))
    (hne : ¬ (f2c.length = 0 ∨ c2f.length = 0)) (hlen : f2c.length = data.numPoints)
    (hr : ∀ v ∈ f2c, v < c2f.length) (hS : SelectionInRange data.selectionIndices f2c.length) :
    ∃ E, expandPixelToSuperpixelSelection data f2c c2f = .ok E
      ∧ E.Sorted (fun a b => a < b)
      ∧ ∀ x, x ∈ E ↔ ∃ p ∈ data.selectionIndices, ∃ v, f2c[p]? = some v
          ∧ ∃ fs, c2f[v % 4294967296]? = some fs ∧ ∃ f ∈ fs, x = f % 4294967296 := by
  obtain ⟨raw, hraw, hmem⟩ := pixelLoop_ok f2c data.selectionIndices hS
  have hC : SelectionInRange (sortAndUnique raw) c2f.length := by
    intro c hc
    rw [mem_sortAndUnique, hmem] at hc
    obtain ⟨i, hi, v, hv, rfl⟩ := hc
    have := hr v (List.getElem?_mem hv)
    have := Nat.mod_le v 4294967296
    omega
  obtain ⟨raw2, hraw2, hmem2⟩ := superPixelLoop_ok c2f (sortAndUnique raw) hC
  refine ⟨sortAndUnique raw2, ?_, sortAndUnique_sorted raw2, ?_⟩
  · have hne2 : ¬ (data.numPoints = 0 ∨ c2f.length = 0) := by rw [← hlen]; exact hne
    simp only [expandPixelToSuperpixelSelection, hne, if_false, hlen, ne_eq, not_true_eq_false,
      mapPixelToSuperPixel, hraw, hraw2, hne2]
  · intro x
    rw [mem_sortAndUnique, hmem2]
    constructor
    · rintro ⟨c, hc, fs, hfs, f, hf, rfl⟩
      rw [mem_sortAndUnique, hmem] at hc
      obtain ⟨i, hi, v, hv, rfl⟩ := hc
      exact ⟨i, hi, v, hv, fs, hfs, f, hf, rfl⟩
    · rintro ⟨i, hi, v, hv, fs, hfs, f, hf, rfl⟩
      exact ⟨v % 4294967296, by rw [mem_sortAndUnique, hmem]; exact ⟨i, hi, v, hv, rfl⟩,
        fs, hfs, f, hf, rfl⟩

/-- A fine index listed under a coarse node is below 2^32 and maps back to the node. -/
theorem listed_facts (data : Points) (f2c : List Nat) (c2f : List (List Nat))
    (hnum : data.numPoints < 4294967296) (hlen : f2c.length = data.numPoints)
    (hrange : InRange f2c c2f) (hback : ListedMapsBack f2c c2f)
    (c : Nat) (fs : List Nat) (hfs : c2f[c]? = some fs) (f : Nat) (hf : f ∈ fs) :
    f < f2c.length ∧ f % 4294967296 = f ∧ f2c[f]? = some c := by
  have h1 : f < f2c.length := hrange.2 fs (List.getElem?_mem hfs) f hf
  obtain ⟨hc, hget⟩ := List.getElem?_eq_some.1 hfs
  have h2 : c2f.getD c [] = fs := by
    rw [List.getD_eq_getElem?_getD, hfs]; rfl
  refine ⟨h1, Nat.mod_eq_of_lt (by omega), hback c hc f (by rw [h2]; exact hf)⟩

/-- C6: closure idempotence. For maps that are in range and consistent (every fine
index listed under coarse node `c` maps back to `c`), a fine-to-coarse map without
sentinel entries whose length is the 32-bit point count of the dataset, and a
selection of in-range pixels, `expandPixelToSuperpixelSelection` returns a list,
and applied to that list as the selection it returns the same list. -/
theorem C6_expand_idempotent (data : Points) (f2c : List Nat) (c2f : List (List Nat))
    (hnum : data.numPoints < 4294967296) (hlen : f2c.length = data.numPoints)
    (hsent : NoSentinel f2c) (hrange : InRange f2c c2f) (hback : ListedMapsBack f2c c2f)
    (hS : SelectionInRange data.selectionIndices f2c.length) :
    ∃ E, expandPixelToSuperpixelSelection data f2c c2f = .ok E
      ∧ expandPixelToSuperpixelSelection { data with selectionIndices := E } f2c c2f = .ok E := by
  by_cases hne : f2c.length = 0 ∨ c2f.length = 0
  · exact ⟨[], by simp only [expandPixelToSuperpixelSelection, hne, if_true],
      by simp only [expandPixelToSuperpixelSelection, hne, if_true]⟩
  · obtain ⟨E, hE, hEs, hEm⟩ := expand_ok data f2c c2f hne hlen hrange.1 hS
    have hEr : SelectionInRange E f2c.length := by
      intro x hx
      obtain ⟨p, hp, v, hv, fs, hfs, f, hf, rfl⟩ := (hEm x).1 hx
      have := listed_facts data f2c c2f hnum hlen hrange hback _ fs hfs f hf
      omega
    obtain ⟨E', hE', hEs', hEm'⟩ := expand_ok { data with selectionIndices := E } f2c c2f hne
      hlen hrange.1 hEr
    have hEE : E' = E := by
      apply eq_of_sorted_of_mem_iff E' E hEs' hEs
      intro x
      rw [hEm', hEm]
      constructor
      · rintro ⟨p, hp, v, hv, fs', hfs', f', hf', rfl⟩
        obtain ⟨p0, hp0, v0, hv0, fs, hfs, f, hf, rfl⟩ := (hEm p).1 hp
        obtain ⟨_, hfm, hfc⟩ := listed_facts data f2c c2f hnum hlen hrange hback _ fs hfs f hf
        rw [hfm, hfc] at hv
        cases hv
        rw [Nat.mod_mod] at hfs'
        exact ⟨p0, hp0, v0, hv0, fs', hfs', f', hf', rfl⟩
      · rintro ⟨p0, hp0, v0, hv0, fs, hfs, f, hf, rfl⟩
        obtain ⟨_, hfm, hfc⟩ := listed_facts data f2c c2f hnum hlen hrange hback _ fs hfs f hf
        refine ⟨f, ?_, v0 % 4294967296, hfc, fs, by rw [Nat.mod_mod]; exact hfs, f, hf, rfl⟩
        rw [hEm]
        exact ⟨p0, hp0, v0, hv0, fs, hfs, f, hf, hfm.symm⟩
    exact ⟨E, hE, by rw [← hEE] at hE' ⊢; exact hE'⟩

/-- C6 on a four-pixel image with two superpixels. -/
theorem C6_expand_idempotent_witness :
    ∃ E, expandPixelToSuperpixelSelection ⟨4, [3]⟩ [0, 1, 0, 1] [[0, 2], [1, 3]] = .ok E
      ∧ expandPixelToSuperpixelSelection { (⟨4, [3]⟩ : Points) with selectionIndices := E }
          [0, 1, 0, 1] [[0, 2], [1, 3]] = .ok E :=
  C6_expand_idempotent ⟨4, [3]⟩ [0, 1, 0, 1] [[0, 2], [1, 3]] (by decide) (by decide)
    (by decide) (by decide) (by decide) (by decide)

/-- C10: for non-empty maps that are in range, mutually consistent (every fine index
listed under a coarse node maps back to it, and every pixel is listed under the
node it maps to) and free of sentinels, and for every selection of in-range
pixels, `expandPixelToSuperpixelSelection` returns a list whose elements are
exactly the fine indices of `coarseToFine[fineToCoarse[p]]` over the selected
pixels `p`; it therefore contains every selected pixel. The maps are those of a
call: the fine-to-coarse map has one entry per point of the dataset and the
coarse-to-fine map one entry per embedding point, both 32-bit counts. -/
theorem C10_expand_covers (data : Points) (f2c : List Nat) (c2f : List (List Nat))
    (hnum : data.numPoints < 4294967296) (hlen : f2c.length = data.numPoints)
    (hne1 : f2c ≠ []) (hne2 : c2f ≠ [])
    (hsent : NoSentinel f2c) (hrange : InRange f2c c2f) (hback : ListedMapsBack f2c c2f)
    (hlisted : MappedIsListed f2c c2f) (hemb : c2f.length < 4294967296)
    (hS : SelectionInRange data.selectionIndices f2c.length) :
    ∃ E, expandPixelToSuperpixelSelection data f2c c2f = .ok E
      ∧ (∀ x, x ∈ E ↔ ∃ p ∈ data.selectionIndices, ∃ c fs,
            f2c[p]? = some c ∧ c2f[c]? = some fs ∧ x ∈ fs)
      ∧ ∀ p ∈ data.selectionIndices, p ∈ E := by
  have h32 : ∀ v ∈ f2c, v < 4294967296 := fun v hv => lt_trans (hrange.1 v hv) hemb
  have hne : ¬ (f2c.length = 0 ∨ c2f.length = 0) := by
    simp only [List.length_eq_zero, not_or]
    exact ⟨hne1, hne2⟩
  obtain ⟨E, hE, hEs, hEm⟩ := expand_ok data f2c c2f hne hlen hrange.1 hS
  have hunion : ∀ x, x ∈ E ↔ ∃ p ∈ data.selectionIndices, ∃ c fs,
      f2c[p]? = some c ∧ c2f[c]? = some fs ∧ x ∈ fs := by
    intro x
    rw [hEm]
    constructor
    · rintro ⟨p, hp, v, hv, fs, hfs, f, hf, rfl⟩
      have hv32 : v % 4294967296 = v := Nat.mod_eq_of_lt (h32 v (List.getElem?_mem hv))
      rw [hv32] at hfs
      have := listed_facts data f2c c2f hnum hlen hrange hback v fs hfs f hf
      exact ⟨p, hp, v, fs, hv, hfs, by rw [this.2.1]; exact hf⟩
    · rintro ⟨p, hp, c, fs, hc, hfs, hx⟩
      have hc32 : c % 4294967296 = c := Nat.mod_eq_of_lt (h32 c (List.getElem?_mem hc))
      have := listed_facts data f2c c2f hnum hlen hrange hback c fs hfs x hx
      exact ⟨p, hp, c, hc, fs, by rw [hc32]; exact hfs, x, hx, this.2.1.symm⟩
  refine ⟨E, hE, hunion, ?_⟩
  intro p hp
  rw [hunion]
  have hpl : p < f2c.length := hS p hp
  have hget : f2c[p]? = some f2c[p] := List.getElem?_eq_getElem hpl
  have hcl : f2c[p] < c2f.length := hrange.1 _ (List.getElem_mem _)
  have hget2 : c2f[f2c[p]]? = some c2f[f2c[p]] := List.getElem?_eq_getElem hcl
  refine ⟨p, hp, f2c[p], c2f[f2c[p]], hget, hget2, ?_⟩
  have := hlisted p hpl
  rw [List.getD_eq_getElem?_getD, List.getD_eq_getElem?_getD, hget] at this
  simpa [hget2] using this

/-- C10 on a four-pixel image with two superpixels. -/
theorem C10_expand_covers_witness :
    ∃ E, expandPixelToSuperpixelSelection ⟨4, [3, 0]⟩ [0, 1, 0, 1] [[0, 2], [1, 3]] = .ok E
      ∧ (∀ x, x ∈ E ↔ ∃ p ∈ [3, 0], ∃ c fs,
            [0, 1, 0, 1][p]? = some c ∧ [[0, 2], [1, 3]][c]? = some fs ∧ x ∈ fs)
      ∧ ∀ p ∈ [3, 0], p ∈ E :=
  C10_expand_covers ⟨4, [3, 0]⟩ [0, 1, 0, 1] [[0, 2], [1, 3]] (by decide) (by decide)
    (by decide) (by decide) (by decide) (by decide) (by decide) (by decide) (by decide)
    (by decide)

/-! ## Selection hubs -/

/-- The coarse indices returned by the fine-to-coarse loop are positions of the
coarse-to-fine map when all map entries are. -/
theorem sortAndUnique_pixel_inRange (f2c : List Nat) (n : Nat) (sel raw : List Nat)
    (hraw : ∀ x, x ∈ raw ↔ ∃ i ∈ sel, ∃ v, f2c[i]? = some v ∧ x = v % 4294967296)
    (hr : ∀ v ∈ f2c, v < n) : SelectionInRange (sortAndUnique raw) n := by
  intro c hc
  rw [mem_sortAndUnique, hraw] at hc
  obtain ⟨i, hi, v, hv, rfl⟩ := hc
  have := hr v (List.getElem?_mem hv)
  have := Nat.mod_le v 4294967296
  omega

namespace SPHPlugin

open SelectionDatasets Hub

/-- A wave in `SPHPlugin` that starts in a pixel-indexed view. -/
theorem wave_SPH (s : Hub SelectionDatasets) (n depth : Nat) (V : SelectionDatasets)
    (hV : V ≠ GLOBAL) (hdepth : 6 ≤ depth) (hn : n + 1 < 18446744073709551616)
    (hsync : ∀ d, s.selectionCounters d = n) (hvalid : ValidMaps s)
    (hsel : SelectionInRange (s.datasets V).selectionIndices (s.datasets V).numPoints) :
    ∃ s', dataSelectionChanged true depth V s = .ok s'
      ∧ (∀ d, s'.selectionCounters d = n + 1)
      ∧ ∃ wave, s'.assigned = s.assigned ++ wave
          ∧ ∀ W, wave.count W = if W = V ∨ W = GLOBAL then 0 else 1 := by
  obtain ⟨k, rfl⟩ : ∃ k, depth = k + 6 := ⟨depth - 6, by omega⟩
  obtain ⟨hne1, hne2, hI, hR, hSp, hA, hE, hr⟩ := hvalid
  have hmod : (n + 1) % 18446744073709551616 = n + 1 := Nat.mod_eq_of_lt hn
  have hl1 : ¬ (s.mappingDataToLevel.length = 0) := by rw [List.length_eq_zero]; exact hne1
  have hl2 : ¬ (s.mappingLevelToData.length = 0) := by rw [List.length_eq_zero]; exact hne2
  cases V with
  | GLOBAL => exact absurd rfl hV
  | INPUT =>
    rw [hI] at hsel
    obtain ⟨raw, hraw, -⟩ := pixelLoop_ok _ _ hsel
    simp [dataSelectionChanged, onSelectionInInputData, onSelectionInEmbedding,
      onSelectionInImgColoredByEmb, onSelectionInSuperPixelComponents,
      onSelectionInPixelAverages, enterHandler, areLocksInSync, counters, isNotYetHandled,
      markAsHandled, ifNotYetHandled, copySelection, mapDataToLevel, mapLevelToData,
      setSelection, selectionMapping, selectionMappingLevelToData, mapPixelToSuperPixel,
      mapSuperPixelToPixel, hsync, hmod, bind, Except.bind, pure, Except.pure, hl1, hl2, hI, hR,
      hSp, hA, hE, hraw]
    exact ⟨by intro d; cases d <;> simp, by intro W; cases W <;> simp⟩
  | EMBEDDING =>
    rw [hE] at hsel
    obtain ⟨raw, hraw, -⟩ := superPixelLoop_ok _ _ hsel
    simp [dataSelectionChanged, onSelectionInInputData, onSelectionInEmbedding,
      onSelectionInImgColoredByEmb, onSelectionInSuperPixelComponents,
      onSelectionInPixelAverages, enterHandler, areLocksInSync, counters, isNotYetHandled,
      markAsHandled, ifNotYetHandled, copySelection, mapDataToLevel, mapLevelToData,
      setSelection, selectionMapping, selectionMappingLevelToData, mapPixelToSuperPixel,
      mapSuperPixelToPixel, hsync, hmod, bind, Except.bind, pure, Except.pure, hl1, hl2, hI, hR,
      hSp, hA, hE, hraw]
    exact ⟨by intro d; cases d <;> simp, by intro W; cases W <;> simp⟩
  | RECOLOR_IMAGE =>
    rw [hR] at hsel
    obtain ⟨raw, hraw, hmem⟩ := pixelLoop_ok _ _ hsel
    obtain ⟨raw2, hraw2, -⟩ := superPixelLoop_ok s.mappingLevelToData _
      (sortAndUnique_pixel_inRange _ _ _ raw hmem hr)
    simp [dataSelectionChanged, onSelectionInInputData, onSelectionInEmbedding,
      onSelectionInImgColoredByEmb, onSelectionInSuperPixelComponents,
      onSelectionInPixelAverages, enterHandler, areLocksInSync, counters, isNotYetHandled,
      markAsHandled, ifNotYetHandled, copySelection, mapDataToLevel, mapLevelToData,
      setSelection, selectionMapping, selectionMappingLevelToData, mapPixelToSuperPixel,
      mapSuperPixelToPixel, hsync, hmod, bind, Except.bind, pure, Except.pure, hl1, hl2, hI, hR,
      hSp, hA, hE, hraw, hraw2]
    exact ⟨by intro d; cases d <;> simp, by intro W; cases W <;> simp⟩
  | SUPERPIXELS =>
    rw [hSp] at hsel
    obtain ⟨raw, hraw, hmem⟩ := pixelLoop_ok _ _ hsel
    obtain ⟨raw2, hraw2, -⟩ := superPixelLoop_ok s.mappingLevelToData _
      (sortAndUnique_pixel_inRange _ _ _ raw hmem hr)
    simp [dataSelectionChanged, onSelectionInInputData, onSelectionInEmbedding,
      onSelectionInImgColoredByEmb, onSelectionInSuperPixelComponents,
      onSelectionInPixelAverages, enterHandler, areLocksInSync, counters, isNotYetHandled,
      markAsHandled, ifNotYetHandled, copySelection, mapDataToLevel, mapLevelToData,
      setSelection, selectionMapping, selectionMappingLevelToData, mapPixelToSuperPixel,
      mapSuperPixelToPixel, hsync, hmod, bind, Except.bind, pure, Except.pure, hl1, hl2, hI, hR,
      hSp, hA, hE, hraw, hraw2]
    exact ⟨by intro d; cases d <;> simp, by intro W; cases W <;> simp⟩
  | AVERAGES =>
    rw [hA] at hsel
    obtain ⟨raw, hraw, hmem⟩ := pixelLoop_ok _ _ hsel
    obtain ⟨raw2, hraw2, -⟩ := superPixelLoop_ok s.mappingLevelToData _
      (sortAndUnique_pixel_inRange _ _ _ raw hmem hr)
    simp [dataSelectionChanged, onSelectionInInputData, onSelectionInEmbedding,
      onSelectionInImgColoredByEmb, onSelectionInSuperPixelComponents,
      onSelectionInPixelAverages, enterHandler, areLocksInSync, counters, isNotYetHandled,
      markAsHandled, ifNotYetHandled, copySelection, mapDataToLevel, mapLevelToData,
      setSelection, selectionMapping, selectionMappingLevelToData, mapPixelToSuperPixel,
      mapSuperPixelToPixel, hsync, hmod, bind, Except.bind, pure, Except.pure, hl1, hl2, hI, hR,
      hSp, hA, hE, hraw, hraw2]
    exact ⟨by intro d; cases d <;> simp, by intro W; cases W <;> simp⟩

end SPHPlugin

namespace RefinedSelectionMapping

open SelectionDatasets Hub

/-- A wave in `RefinedSelectionMapping`. -/
theorem wave_Refined (s : Hub SelectionDatasets) (n depth : Nat) (V : SelectionDatasets)
    (hV : V ≠ GLOBAL) (hdepth : 5 ≤ depth) (hn : n + 1 < 18446744073709551616)
    (hsync : ∀ d, s.selectionCounters d = n) (hvalid : ValidMaps s)
    (hsel : SelectionInRange (s.datasets V).selectionIndices (s.datasets V).numPoints) :
    ∃ s', dataSelectionChanged depth V s = .ok s'
      ∧ (∀ d, s'.selectionCounters d = n + 1)
      ∧ ∃ wave, s'.assigned = s.assigned ++ wave
          ∧ ∀ W, wave.count W = if W = V ∨ W = GLOBAL then 0 else 1 := by
  obtain ⟨k, rfl⟩ : ∃ k, depth = k + 5 := ⟨depth - 5, by omega⟩
  obtain ⟨hne1, hne2, hI, hR, hA, hE, hr⟩ := hvalid
  have hmod : (n + 1) % 18446744073709551616 = n + 1 := Nat.mod_eq_of_lt hn
  have hl1 : ¬ (s.mappingDataToLevel.length = 0) := by rw [List.length_eq_zero]; exact hne1
  have hl2 : ¬ (s.mappingLevelToData.length = 0) := by rw [List.length_eq_zero]; exact hne2
  cases V with
  | GLOBAL => exact absurd rfl hV
  | INPUT =>
    rw [hI] at hsel
    obtain ⟨raw, hraw, -⟩ := pixelLoop_ok _ _ hsel
    simp [dataSelectionChanged, onSelectionInInputData, onSelectionInLevelEmbedding,
      onSelectionInColoredByEmb, onSelectionInPixelAverages, enterHandler, areLocksInSync,
      counters, isNotYetHandled, markAsHandled, ifNotYetHandled, copySelection, mapDataToLevel,
      mapLevelToData, setSelection, selectionMapping, selectionMappingLevelToData,
      mapPixelToSuperPixel, mapSuperPixelToPixel, hsync, hmod, bind, Except.bind, pure,
      Except.pure, hl1, hl2, hI, hR, hA, hE, hraw]
    exact ⟨by intro d; cases d <;> simp, by intro W; cases W <;> simp⟩
  | EMBEDDING =>
    rw [hE] at hsel
    obtain ⟨raw, hraw, -⟩ := superPixelLoop_ok _ _ hsel
    simp [dataSelectionChanged, onSelectionInInputData, onSelectionInLevelEmbedding,
      onSelectionInColoredByEmb, onSelectionInPixelAverages, enterHandler, areLocksInSync,
      counters, isNotYetHandled, markAsHandled, ifNotYetHandled, copySelection, mapDataToLevel,
      mapLevelToData, setSelection, selectionMapping, selectionMappingLevelToData,
      mapPixelToSuperPixel, mapSuperPixelToPixel, hsync, hmod, bind, Except.bind, pure,
      Except.pure, hl1, hl2, hI, hR, hA, hE, hraw]
    exact ⟨by intro d; cases d <;> simp, by intro W; cases W <;> simp⟩
  | RECOLOR_IMAGE =>
    rw [hR] at hsel
    obtain ⟨raw, hraw, hmem⟩ := pixelLoop_ok _ _ hsel
    obtain ⟨raw2, hraw2, -⟩ := superPixelLoop_ok s.mappingLevelToData _
      (sortAndUnique_pixel_inRange _ _ _ raw hmem hr)
    simp [dataSelectionChanged, onSelectionInInputData, onSelectionInLevelEmbedding,
      onSelectionInColoredByEmb, onSelectionInPixelAverages, enterHandler, areLocksInSync,
      counters, isNotYetHandled, markAsHandled, ifNotYetHandled, copySelection, mapDataToLevel,
      mapLevelToData, setSelection, selectionMapping, selectionMappingLevelToData,
      mapPixelToSuperPixel, mapSuperPixelToPixel, hsync, hmod, bind, Except.bind, pure,
      Except.pure, hl1, hl2, hI, hR, hA, hE, hraw, hraw2]
    exact ⟨by intro d; cases d <;> simp, by intro W; cases W <;> simp⟩
  | AVERAGES =>
    rw [hA] at hsel
    obtain ⟨raw, hraw, hmem⟩ := pixelLoop_ok _ _ hsel
    obtain ⟨raw2, hraw2, -⟩ := superPixelLoop_ok s.mappingLevelToData _
      (sortAndUnique_pixel_inRange _ _ _ raw hmem hr)
    simp [dataSelectionChanged, onSelectionInInputData, onSelectionInLevelEmbedding,
      onSelectionInColoredByEmb, onSelectionInPixelAverages, enterHandler, areLocksInSync,
      counters, isNotYetHandled, markAsHandled, ifNotYetHandled, copySelection, mapDataToLevel,
      mapLevelToData, setSelection, selectionMapping, selectionMappingLevelToData,
      mapPixelToSuperPixel, mapSuperPixelToPixel, hsync, hmod, bind, Except.bind, pure,
      Except.pure, hl1, hl2, hI, hR, hA, hE, hraw, hraw2]
    exact ⟨by intro d; cases d <;> simp, by intro W; cases W <;> simp⟩

end RefinedSelectionMapping

/-- C5 as stated fails for `RefinedSelectionMapping`, for which the claim does not
ask for non-empty maps: in a freshly constructed hub (all counters 0, both maps
still empty) a selection event in INPUT returns with the selection of EMBEDDING
never assigned and its counter still 0 while the counter of GLOBAL is 1. -/
theorem C5_counterexample :
    (∀ d, (RefinedSelectionMapping.fresh ⟨4, [1]⟩ ⟨2, []⟩ ⟨4, []⟩ ⟨4, []⟩).selectionCounters d = 0)
    ∧ ∃ s', RefinedSelectionMapping.dataSelectionChanged 5
          RefinedSelectionMapping.SelectionDatasets.INPUT
          (RefinedSelectionMapping.fresh ⟨4, [1]⟩ ⟨2, []⟩ ⟨4, []⟩ ⟨4, []⟩) = .ok s'
        ∧ s'.selectionCounters RefinedSelectionMapping.SelectionDatasets.EMBEDDING = 0
        ∧ s'.selectionCounters RefinedSelectionMapping.SelectionDatasets.GLOBAL = 1
        ∧ s'.assigned = [RefinedSelectionMapping.SelectionDatasets.RECOLOR_IMAGE,
            RefinedSelectionMapping.SelectionDatasets.AVERAGES] :=
  ⟨fun _ => rfl, _, rfl, by decide, by decide, by decide⟩

/-- C5 (amended): in both selection hubs (`SPHPlugin`, initialised, and
`RefinedSelectionMapping`), each with non-empty valid maps, when every selection
assignment to a view synchronously runs that view's handler: for every state in
which all counters are equal and below 2^64 - 1 and for every originating view
whose selection is in range, the handler call returns (six, respectively five,
levels of nested notifications suffice), the selection of every other view is
assigned exactly once during the wave, the selection of the originating view is
never assigned, and on return all counters are equal again, one more than before. -/
theorem C5_selection_wave (s : Hub SPHPlugin.SelectionDatasets)
    (r : Hub RefinedSelectionMapping.SelectionDatasets) (n m depth : Nat)
    (V : SPHPlugin.SelectionDatasets) (U : RefinedSelectionMapping.SelectionDatasets)
    (hV : V ≠ SPHPlugin.SelectionDatasets.GLOBAL)
    (hU : U ≠ RefinedSelectionMapping.SelectionDatasets.GLOBAL) (hdepth : 6 ≤ depth)
    (hn : n + 1 < 18446744073709551616) (hm : m + 1 < 18446744073709551616)
    (hs : ∀ d, s.selectionCounters d = n) (hr : ∀ d, r.selectionCounters d = m)
    (hsv : SPHPlugin.ValidMaps s) (hrv : RefinedSelectionMapping.ValidMaps r)
    (hssel : SelectionInRange (s.datasets V).selectionIndices (s.datasets V).numPoints)
    (hrsel : SelectionInRange (r.datasets U).selectionIndices (r.datasets U).numPoints) :
    (∃ s', SPHPlugin.dataSelectionChanged true depth V s = .ok s'
      ∧ (∀ d, s'.selectionCounters d = n + 1)
      ∧ ∃ wave, s'.assigned = s.assigned ++ wave
          ∧ ∀ W, wave.count W = if W = V ∨ W = SPHPlugin.SelectionDatasets.GLOBAL then 0 else 1)
    ∧ (∃ r', RefinedSelectionMapping.dataSelectionChanged depth U r = .ok r'
      ∧ (∀ d, r'.selectionCounters d = m + 1)
      ∧ ∃ wave, r'.assigned = r.assigned ++ wave
          ∧ ∀ W, wave.count W
              = if W = U ∨ W = RefinedSelectionMapping.SelectionDatasets.GLOBAL then 0 else 1) :=
  ⟨SPHPlugin.wave_SPH s n depth V hV hdepth hn hs hsv hssel,
    RefinedSelectionMapping.wave_Refined r m depth U hU (by omega) hm hr hrv hrsel⟩

/-- C5 on two four-pixel hubs: a wave started in RECOLOR_IMAGE of the plugin at
counter value 7 and one started in EMBEDDING of a refined hub at counter value 0. -/
theorem C5_selection_wave_witness :
    (∃ s', SPHPlugin.dataSelectionChanged true 6 SPHPlugin.SelectionDatasets.RECOLOR_IMAGE
        (SPHPlugin.example4 7 SPHPlugin.SelectionDatasets.RECOLOR_IMAGE) = .ok s'
      ∧ (∀ d, s'.selectionCounters d = 7 + 1)
      ∧ ∃ wave, s'.assigned
            = (SPHPlugin.example4 7 SPHPlugin.SelectionDatasets.RECOLOR_IMAGE).assigned ++ wave
          ∧ ∀ W, wave.count W
              = if W = SPHPlugin.SelectionDatasets.RECOLOR_IMAGE
                  ∨ W = SPHPlugin.SelectionDatasets.GLOBAL then 0 else 1)
    ∧ (∃ r', RefinedSelectionMapping.dataSelectionChanged 6
        RefinedSelectionMapping.SelectionDatasets.EMBEDDING
        (RefinedSelectionMapping.example4 0 RefinedSelectionMapping.SelectionDatasets.EMBEDDING)
          = .ok r'
      ∧ (∀ d, r'.selectionCounters d = 0 + 1)
      ∧ ∃ wave, r'.assigned
            = (RefinedSelectionMapping.example4 0
                RefinedSelectionMapping.SelectionDatasets.EMBEDDING).assigned ++ wave
          ∧ ∀ W, wave.count W
              = if W = RefinedSelectionMapping.SelectionDatasets.EMBEDDING
                  ∨ W = RefinedSelectionMapping.SelectionDatasets.GLOBAL then 0 else 1) :=
  C5_selection_wave (SPHPlugin.example4 7 SPHPlugin.SelectionDatasets.RECOLOR_IMAGE)
    (RefinedSelectionMapping.example4 0 RefinedSelectionMapping.SelectionDatasets.EMBEDDING)
    7 0 6 SPHPlugin.SelectionDatasets.RECOLOR_IMAGE
    RefinedSelectionMapping.SelectionDatasets.EMBEDDING (by decide) (by decide) (by decide)
    (by decide) (by decide) (fun _ => rfl) (fun _ => rfl) (by decide) (by decide) (by decide)
    (by decide)

namespace EmbedWorker

/-! ### Uninterrupted runs, continuation and restart -/

/-- The run that `compute` makes when nobody calls `stop()`, for requests below 2^31. -/
theorem compute_uninterrupted (w : Worker) (N : Nat) (init : Bool) (h1 : 1 ≤ N)
    (h2 : N < 2147483648) :
    compute w N init neverStopped
      = if loopStart N init % 10 = 0 then
          ((chunk neverStopped)^[loopStart N init / 10] (beforeLoop w N init)).emit Event.finished
        else
          (checkPublishExtends (advance (continueGradientDescent
            (readStop neverStopped
              ((chunk neverStopped)^[loopStart N init / 10] (beforeLoop w N init))).2
            (loopStart N init % 10)) (loopStart N init % 10))).emit Event.finished := by
  have hls : loopStart N init < 2147483648 := by
    unfold loopStart; split_ifs <;> omega
  rw [compute_eq w N init neverStopped h1 h2,
    descentLoop_noStop neverStopped (loopStart N init) _ hls (beforeLoop_flag w N init)
      (by intro i hi; rfl)]
  simp only [Bool.false_eq_true, if_false, finishCompute]
  by_cases hm : loopStart N init % 10 = 0
  · simp only [hm, Nat.cast_zero, ne_eq, not_true_eq_false, if_false, if_true]
  · have hne : ¬ (((loopStart N init % 10 : Nat) : Int) = 0) := by omega
    have hnn : ¬ (((loopStart N init % 10 : Nat) : Int) < 0) := by omega
    have hrd : (readStop neverStopped
        ((chunk neverStopped)^[loopStart N init / 10] (beforeLoop w N init))).1 = false := by
      rw [readStop_clear _ _ (iter_flag neverStopped _ _ (beforeLoop_flag w N init)
        (by intro i hi; rfl))]
      rfl
    have hcu : castU32 ((loopStart N init % 10 : Nat) : Int) = loopStart N init % 10 :=
      castU32_of_small _ (by omega)
    simp only [ne_eq, hne, not_false_eq_true, if_true, hnn, false_and, if_false, hrd,
      Bool.false_eq_true, hcu, hm]

theorem beforeLoop_current (w : Worker) (N : Nat) (init : Bool)
    (hc : w.currentIteration < 4294967296) :
    (beforeLoop w N init).w.currentIteration
      = (w.currentIteration + (if init then min N 10 else 0)) % 4294967296 := by
  cases init
  · simp only [beforeLoop, Bool.false_eq_true, if_false, Nat.add_zero]
    exact (Nat.mod_eq_of_lt hc).symm
  · simp only [beforeLoop, if_true, checkPublishExtends_current]
    rfl

theorem beforeLoop_engineSteps (w : Worker) (N : Nat) (init : Bool) :
    engineSteps (beforeLoop w N init).trace
      = if init then [Event.initGradientDescent (min N 10)] else [] := by
  cases init
  · simp only [beforeLoop, Bool.false_eq_true, if_false]
    exact start_engineSteps w
  · simp only [beforeLoop, if_true]
    rw [checkPublishExtends_engineSteps, advance_trace, initGradientDescent_engineSteps,
      start_engineSteps]
    rfl

/-- The value of `current` after an uninterrupted run. -/
theorem compute_uninterrupted_current (w : Worker) (N : Nat) (init : Bool) (h1 : 1 ≤ N)
    (h2 : N < 2147483648) (hc : w.currentIteration < 4294967296) :
    (compute w N init neverStopped).w.currentIteration
      = (w.currentIteration + N) % 4294967296 := by
  rw [compute_uninterrupted w N init h1 h2]
  have hb := beforeLoop_current w N init hc
  have hi := iter_current neverStopped (loopStart N init / 10) (beforeLoop w N init)
    (by rw [hb]; exact Nat.mod_lt _ (by decide))
  have hsum : (if init then min N 10 else 0) + 10 * (loopStart N init / 10)
      + loopStart N init % 10 = N := by
    unfold loopStart
    cases init <;> simp <;> omega
  split_ifs with hm
  · change ((chunk neverStopped)^[loopStart N init / 10] (beforeLoop w N init)).w.currentIteration
      = _
    rw [hi, hb]
    omega
  · change (checkPublishExtends _).w.currentIteration = _
    rw [checkPublishExtends_current]
    change (((chunk neverStopped)^[loopStart N init / 10]
      (beforeLoop w N init)).w.currentIteration + loopStart N init % 10) % 4294967296 = _
    rw [hi, hb]
    omega

/-- The engine steps of an uninterrupted run. -/
theorem compute_uninterrupted_steps (w : Worker) (N : Nat) (init : Bool) (h1 : 1 ≤ N)
    (h2 : N < 2147483648) :
    engineSteps (compute w N init neverStopped).trace
      = (if init then [Event.initGradientDescent (min N 10)] else [])
        ++ List.replicate (loopStart N init / 10) (Event.continueGradientDescent 10)
        ++ (if loopStart N init % 10 = 0 then []
            else [Event.continueGradientDescent (loopStart N init % 10)]) := by
  have hfin : engineSteps [Event.finished] = [] := rfl
  rw [compute_uninterrupted w N init h1 h2]
  by_cases hm : loopStart N init % 10 = 0
  · rw [if_pos hm, if_pos hm, engineSteps_emit, iter_engineSteps, beforeLoop_engineSteps, hfin]
  · rw [if_neg hm, if_neg hm, engineSteps_emit, checkPublishExtends_engineSteps, advance_trace,
      continueGradientDescent_engineSteps, readStop_engineSteps, iter_engineSteps,
      beforeLoop_engineSteps, hfin]
    simp

/-- C15: `compute(0, init)` does nothing for either value of `init`: the returned run
has an empty trace (no engine step and no signal, so neither `started`,
`embeddingUpdate`, `publishExtends` nor `finished`), it has read the stop flag
zero times, and the worker, with `current` and the stop flag, is unchanged. -/
theorem C15_compute_zero_is_noop (w : Worker) (init : Bool) (stopSeen : Nat → Bool) :
    (compute w 0 init stopSeen).trace = []
    ∧ engineSteps (compute w 0 init stopSeen).trace = []
    ∧ (compute w 0 init stopSeen).w = w
    ∧ (compute w 0 init stopSeen).w.currentIteration = w.currentIteration
    ∧ (compute w 0 init stopSeen).w.shouldStop = w.shouldStop
    ∧ (compute w 0 init stopSeen).checks = 0
    ∧ (compute w 0 init stopSeen).assertFailed = false := by
  simp [compute, engineSteps]

/-- C13 as stated fails when the 32-bit iteration counter wraps:
`continueComputation(10)` started at `current = 4294967290` and not stopped ends
with `current = 4`, which is not `4294967290 + 10`. -/
theorem C13_counterexample :
    (continueComputation ⟨4294967290, 0, false⟩ 10 neverStopped).w.currentIteration = 4
    ∧ ¬ ((continueComputation ⟨4294967290, 0, false⟩ 10 neverStopped).w.currentIteration
          = 4294967290 + 10) := by
  have h : (continueComputation ⟨4294967290, 0, false⟩ 10 neverStopped).w.currentIteration
      = 4 := by
    unfold continueComputation
    rw [compute_uninterrupted_current _ _ _ (by decide) (by decide) (by decide)]
    rfl
  exact ⟨h, by rw [h]; decide⟩

/-- C13 (amended): for every `1 ≤ n < 2^31` and every start value `c` of the 32-bit
counter, `continueComputation(n)` run without a stop request performs no
initialization step, only `n / 10` continuation steps of size 10 followed, if
`n mod 10 ≠ 0`, by one continuation step of size `n mod 10`; it then emits
`finished`, once and as its last emission, and `current` is `(c + n) mod 2^32`,
which is `c + n` whenever that value fits in 32 bits. -/
theorem C13_continue_without_init (w : Worker) (n : Nat) (h1 : 1 ≤ n) (h2 : n < 2147483648)
    (hc : w.currentIteration < 4294967296) :
    engineSteps (continueComputation w n neverStopped).trace
      = List.replicate (n / 10) (Event.continueGradientDescent 10)
        ++ (if n % 10 = 0 then [] else [Event.continueGradientDescent (n % 10)])
    ∧ (∀ k, Event.initGradientDescent k ∉ (continueComputation w n neverStopped).trace)
    ∧ (continueComputation w n neverStopped).trace.count Event.finished = 1
    ∧ (continueComputation w n neverStopped).trace.getLast? = some Event.finished
    ∧ (continueComputation w n neverStopped).w.currentIteration
        = (w.currentIteration + n) % 4294967296
    ∧ (w.currentIteration + n < 4294967296 →
        (continueComputation w n neverStopped).w.currentIteration = w.currentIteration + n)
    ∧ (continueComputation w n neverStopped).assertFailed = false := by
  unfold continueComputation
  have hsteps := compute_uninterrupted_steps w n false h1 h2
  simp only [Bool.false_eq_true, if_false, List.nil_append, loopStart] at hsteps
  have hfin := compute_finished_iff_no_stop_seen w n false neverStopped h1 h2
  have hcur := compute_uninterrupted_current w n false h1 h2 hc
  refine ⟨hsteps, ?_, (hfin.2.2.1 (fun _ _ => rfl)).1, (hfin.2.2.1 (fun _ _ => rfl)).2, hcur, ?_,
    hfin.1⟩
  · intro k hk
    have hmem : Event.initGradientDescent k ∈ engineSteps (compute w n false neverStopped).trace := by
      unfold engineSteps
      exact List.mem_filter.2 ⟨hk, rfl⟩
    rw [hsteps] at hmem
    simp only [List.mem_append, List.mem_replicate] at hmem
    rcases hmem with ⟨_, h⟩ | h
    · cases h
    · split_ifs at h
      · cases h
      · simp at h
  · intro hfit
    rw [hcur]
    exact Nat.mod_eq_of_lt hfit

/-- C13 on a continuation by 25 iterations from `current = 30`. -/
theorem C13_continue_without_init_witness :
    engineSteps (continueComputation ⟨30, 12, false⟩ 25 neverStopped).trace
      = [Event.continueGradientDescent 10, Event.continueGradientDescent 10,
          Event.continueGradientDescent 5]
    ∧ (continueComputation ⟨30, 12, false⟩ 25 neverStopped).w.currentIteration = 55 := by
  have h := C13_continue_without_init ⟨30, 12, false⟩ 25 (by decide) (by decide) (by decide)
  refine ⟨?_, h.2.2.2.2.2.1 (by decide)⟩
  rw [h.1]
  decide

end EmbedWorker

/-- On a worker that runs no job when the restart is made, `restartComputation(params)`
sets the iteration count to zero and then dispatches an initialising job of
`N = params.numIterations` iterations: for every previous worker state and every
`1 ≤ N < 2^31`, when the worker has run the dispatched job without a stop, the job
has begun with an initialization step, has emitted `finished`, and `current`
equals exactly `N`. -/
theorem restartComputation_idle (w : EmbedWorker.Worker) (N : Nat) (h1 : 1 ≤ N)
    (h2 : N < 2147483648) :
    (ComputeEmbeddingWrapper.restartComputation w N).1.currentIteration = 0
    ∧ (ComputeEmbeddingWrapper.restartComputation w N).2 = { iterations := N, init := true }
    ∧ (ComputeEmbeddingWrapper.runJob (ComputeEmbeddingWrapper.restartComputation w N)
        EmbedWorker.neverStopped).w.currentIteration = N
    ∧ (EmbedWorker.engineSteps (ComputeEmbeddingWrapper.runJob
        (ComputeEmbeddingWrapper.restartComputation w N) EmbedWorker.neverStopped).trace).head?
        = some (EmbedWorker.Event.initGradientDescent (min N 10))
    ∧ (ComputeEmbeddingWrapper.runJob (ComputeEmbeddingWrapper.restartComputation w N)
        EmbedWorker.neverStopped).trace.count EmbedWorker.Event.finished = 1 := by
  refine ⟨rfl, rfl, ?_, ?_, ?_⟩
  · simp only [ComputeEmbeddingWrapper.runJob, ComputeEmbeddingWrapper.restartComputation,
      ComputeEmbeddingWrapper.compute, ComputeEmbeddingWrapper.setNumIterations]
    rw [EmbedWorker.compute_uninterrupted_current _ N true h1 h2
      (show (0 : Nat) < 4294967296 by decide)]
    simp only [Nat.zero_add]
    exact Nat.mod_eq_of_lt (by omega)
  · simp only [ComputeEmbeddingWrapper.runJob, ComputeEmbeddingWrapper.restartComputation,
      ComputeEmbeddingWrapper.compute, ComputeEmbeddingWrapper.setNumIterations]
    rw [EmbedWorker.compute_uninterrupted_steps _ N true h1 h2]
    simp
  · simp only [ComputeEmbeddingWrapper.runJob, ComputeEmbeddingWrapper.restartComputation,
      ComputeEmbeddingWrapper.compute, ComputeEmbeddingWrapper.setNumIterations]
    exact ((EmbedWorker.compute_finished_iff_no_stop_seen _ N true EmbedWorker.neverStopped
      h1 h2).2.2.1 (fun _ _ => rfl)).1

/-! ## Empty maps, sentinel lookups and the copy derivation -/

/-- C17: both overloads of `selectionMapping` do nothing on an empty map: for every
input dataset the function returns before assigning or notifying, and in a hub
whose map is empty the call leaves the whole hub state (every selection, every
counter, the record of assignments) unchanged, whatever handler is connected to
the output dataset, because no selection-changed notification is raised. -/
theorem C17_selectionMapping_empty_map_noop {D : Type} [DecidableEq D] (input : Points)
    (notify : D → Hub D → Except Failure (Hub D)) (inputView outputView : D)
    (s t : Hub D) (hs : s.mappingDataToLevel.length = 0) (ht : t.mappingLevelToData.length = 0) :
    selectionMapping input [] = .ok none
    ∧ selectionMappingLevelToData input [] = .ok none
    ∧ Hub.mapDataToLevel notify inputView outputView s = .ok s
    ∧ Hub.mapLevelToData notify inputView outputView t = .ok t := by
  refine ⟨rfl, rfl, ?_, ?_⟩
  · simp only [Hub.mapDataToLevel, selectionMapping, hs, if_true]
  · simp only [Hub.mapLevelToData, selectionMappingLevelToData, ht, if_true]

/-- C17 on a freshly constructed `RefinedSelectionMapping`, with a handler that
would fail if it were ever notified. -/
theorem C17_selectionMapping_empty_map_noop_witness :
    selectionMapping ⟨4, [1]⟩ [] = .ok none
    ∧ selectionMappingLevelToData ⟨4, [1]⟩ [] = .ok none
    ∧ Hub.mapDataToLevel (fun _ _ => .error Failure.depthExceeded)
        RefinedSelectionMapping.SelectionDatasets.INPUT
        RefinedSelectionMapping.SelectionDatasets.EMBEDDING
        (RefinedSelectionMapping.fresh ⟨4, [1]⟩ ⟨2, []⟩ ⟨4, []⟩ ⟨4, []⟩)
        = .ok (RefinedSelectionMapping.fresh ⟨4, [1]⟩ ⟨2, []⟩ ⟨4, []⟩ ⟨4, []⟩)
    ∧ Hub.mapLevelToData (fun _ _ => .error Failure.depthExceeded)
        RefinedSelectionMapping.SelectionDatasets.EMBEDDING
        RefinedSelectionMapping.SelectionDatasets.INPUT
        (RefinedSelectionMapping.fresh ⟨4, [1]⟩ ⟨2, []⟩ ⟨4, []⟩ ⟨4, []⟩)
        = .ok (RefinedSelectionMapping.fresh ⟨4, [1]⟩ ⟨2, []⟩ ⟨4, []⟩ ⟨4, []⟩) :=
  C17_selectionMapping_empty_map_noop ⟨4, [1]⟩ (fun _ _ => .error Failure.depthExceeded)
    RefinedSelectionMapping.SelectionDatasets.INPUT
    RefinedSelectionMapping.SelectionDatasets.EMBEDDING
    (RefinedSelectionMapping.fresh ⟨4, [1]⟩ ⟨2, []⟩ ⟨4, []⟩ ⟨4, []⟩)
    (RefinedSelectionMapping.fresh ⟨4, [1]⟩ ⟨2, []⟩ ⟨4, []⟩ ⟨4, []⟩) rfl rfl

/-- C18 fails on the code: a selected pixel whose fine-to-coarse entry is the
sentinel is not skipped (the sentinel test is made on the value truncated to
`uint32_t`), so the coarse-to-fine map is indexed at 4294967295. With the
two-pixel map `[0, UINT64_MAX]`, the one-node map `[[0]]` and pixel 1 selected,
`expandPixelToSuperpixelSelection` reads past the end of the coarse-to-fine map,
and so does `mapSuperPixelToPixel` applied to the result of
`mapPixelToSuperPixel`. -/
theorem C18_sentinel_lookup_out_of_bounds :
    expandPixelToSuperpixelSelection ⟨2, [1]⟩ [0, UINT64_MAX] [[0]]
      = .error Failure.outOfBounds
    ∧ mapPixelToSuperPixel ⟨2, [1]⟩ [0, UINT64_MAX] = .ok [4294967295]
    ∧ mapSuperPixelToPixel ⟨1, [4294967295]⟩ [[0]] = .error Failure.outOfBounds :=
  ⟨rfl, rfl, rfl⟩

namespace SPHPlugin

open SelectionDatasets Hub

/-- C19 as stated fails when the counters are about to wrap: in the initialised
plugin with valid non-empty maps, all counters equal to 2^64 - 1 and pixel 3
selected in INPUT, the opening of the handler takes the counters of GLOBAL and of
INPUT to 0, no view counts as not yet handled any more (no counter is below 0),
and RECOLOR_IMAGE, SUPERPIXELS, AVERAGES and EMBEDDING keep their empty
selections. -/
theorem C19_counterexample :
    ValidMaps (example4 18446744073709551615 INPUT)
    ∧ (∀ d, (example4 18446744073709551615 INPUT).selectionCounters d = 18446744073709551615)
    ∧ ((example4 18446744073709551615 INPUT).datasets INPUT).selectionIndices = [3]
    ∧ ∃ s', dataSelectionChanged true 6 INPUT (example4 18446744073709551615 INPUT) = .ok s'
        ∧ s'.selectionCounters GLOBAL = 0
        ∧ s'.selectionCounters INPUT = 0
        ∧ s'.assigned = []
        ∧ (s'.datasets RECOLOR_IMAGE).selectionIndices = []
        ∧ (s'.datasets SUPERPIXELS).selectionIndices = []
        ∧ (s'.datasets AVERAGES).selectionIndices = []
        ∧ (s'.datasets EMBEDDING).selectionIndices = [] :=
  ⟨by decide, fun _ => rfl, rfl, _, rfl, rfl, rfl, rfl, rfl, rfl, rfl, rfl⟩

/-- C19 (amended): in `SPHPlugin` with valid non-empty maps (the plugin is
initialised: the maps are set by the first level switch, after which `_isInit` is
set and never cleared), starting from a state with all counters equal and below
2^64 - 1, a selection event in INPUT with an in-range selection `S` returns with
RECOLOR_IMAGE, SUPERPIXELS and AVERAGES each holding exactly `S` (the same list),
with EMBEDDING holding `mapPixelToSuperPixel(S)`, and with the dataset of INPUT
unchanged. -/
theorem C19_input_wave_copies (s : Hub SelectionDatasets) (n depth : Nat)
    (hdepth : 6 ≤ depth) (hn : n + 1 < 18446744073709551616)
    (hsync : ∀ d, s.selectionCounters d = n) (hvalid : ValidMaps s)
    (hsel : SelectionInRange (s.datasets INPUT).selectionIndices (s.datasets INPUT).numPoints) :
    ∃ s', dataSelectionChanged true depth INPUT s = .ok s'
      ∧ (s'.datasets RECOLOR_IMAGE).selectionIndices = (s.datasets INPUT).selectionIndices
      ∧ (s'.datasets SUPERPIXELS).selectionIndices = (s.datasets INPUT).selectionIndices
      ∧ (s'.datasets AVERAGES).selectionIndices = (s.datasets INPUT).selectionIndices
      ∧ mapPixelToSuperPixel (s.datasets INPUT) s.mappingDataToLevel
          = .ok (s'.datasets EMBEDDING).selectionIndices
      ∧ s'.datasets INPUT = s.datasets INPUT := by
  obtain ⟨k, rfl⟩ : ∃ k, depth = k + 6 := ⟨depth - 6, by omega⟩
  obtain ⟨hne1, hne2, hI, hR, hSp, hA, hE, hr⟩ := hvalid
  have hmod : (n + 1) % 18446744073709551616 = n + 1 := Nat.mod_eq_of_lt hn
  have hl1 : ¬ (s.mappingDataToLevel.length = 0) := by rw [List.length_eq_zero]; exact hne1
  have hl2 : ¬ (s.mappingLevelToData.length = 0) := by rw [List.length_eq_zero]; exact hne2
  rw [hI] at hsel
  obtain ⟨raw, hraw, -⟩ := pixelLoop_ok _ _ hsel
  simp [dataSelectionChanged, onSelectionInInputData, onSelectionInEmbedding,
    onSelectionInImgColoredByEmb, onSelectionInSuperPixelComponents,
    onSelectionInPixelAverages, enterHandler, areLocksInSync, counters, isNotYetHandled,
    markAsHandled, ifNotYetHandled, copySelection, mapDataToLevel, mapLevelToData,
    setSelection, selectionMapping, selectionMappingLevelToData, mapPixelToSuperPixel,
    mapSuperPixelToPixel, hsync, hmod, bind, Except.bind, pure, Except.pure, hl1, hl2, hI, hR,
    hSp, hA, hE, hraw]

/-- C19 on the four-pixel plugin state with pixel 3 selected in INPUT. -/
theorem C19_input_wave_copies_witness :
    ∃ s', dataSelectionChanged true 6 INPUT (example4 7 INPUT) = .ok s'
      ∧ (s'.datasets RECOLOR_IMAGE).selectionIndices
          = ((example4 7 INPUT).datasets INPUT).selectionIndices
      ∧ (s'.datasets SUPERPIXELS).selectionIndices
          = ((example4 7 INPUT).datasets INPUT).selectionIndices
      ∧ (s'.datasets AVERAGES).selectionIndices
          = ((example4 7 INPUT).datasets INPUT).selectionIndices
      ∧ mapPixelToSuperPixel ((example4 7 INPUT).datasets INPUT)
          (example4 7 INPUT).mappingDataToLevel = .ok (s'.datasets EMBEDDING).selectionIndices
      ∧ s'.datasets INPUT = (example4 7 INPUT).datasets INPUT :=
  C19_input_wave_copies (example4 7 INPUT) 7 6 (by decide) (by decide) (fun _ => rfl)
    (by decide) (by decide)

end SPHPlugin

/-! ## Refinement -/

namespace RefineAction

theorem lookupLoop_ok (map : List Nat) :
    ∀ sel : List Nat, SelectionInRange sel map.length →
      ∃ out, lookupLoop map sel = .ok out ∧ ∀ c, c ∈ out ↔ ∃ x ∈ sel, map[x]? = some c := by
  intro sel
  induction sel with
  | nil => intro _; exact ⟨[], rfl, by simp⟩
  | cons i rest ih =>
    intro h
    obtain ⟨out, ho, hm⟩ := ih (fun j hj => h j (List.mem_cons_of_mem _ hj))
    have hi : i < map.length := h i (List.mem_cons_self _ _)
    have hget : map[i]? = some map[i] := List.getElem?_eq_getElem hi
    refine ⟨map[i] :: out, ?_, ?_⟩
    · simp only [lookupLoop, hget, ho]
    · intro c
      simp only [List.mem_cons, hm, exists_eq_or_imp, hget, Option.some.injEq]
      constructor
      · rintro (h1 | h1)
        · exact Or.inl h1.symm
        · exact Or.inr h1
      · rintro (h1 | h1)
        · exact Or.inl h1.symm
        · exact Or.inr h1

theorem castU64_pred (L : Nat) (h1 : 1 ≤ L) (h2 : L < 9223372036854775808) :
    castU64 ((L : Int) - 1) = L - 1 := by
  unfold castU64; omega

/-- C12 as stated fails on the code: `refine` expands the selection with the maps of
the refined level `L - 1`, not with those of the current level `L`. In the
three-level hierarchy, at current level 2 with pixel 0 selected, the only id handed
to subgraph extraction is the level-1 node 0, although pixel 2 belongs to the
level-2 superpixel of pixel 0 and its level-1 node is 1. -/
theorem C12_counterexample :
    selectionSuperpixelsInRefinedLevel true 2 ⟨4, [0]⟩ threeLevels = .ok (some [0])
    ∧ threeLevels.mapFromPixelToLevel[2]? = some [0, 0, 0, 0]
    ∧ threeLevels.mapFromLevelToPixel[2]? = some [[0, 1, 2, 3]]
    ∧ threeLevels.mapFromPixelToLevel[1]? = some [0, 0, 1, 1]
    ∧ (2 ∈ [0, 1, 2, 3] ∧ [0, 0, 1, 1][2]? = some 1 ∧ 1 ∉ [0]) :=
  ⟨rfl, rfl, rfl, rfl, by decide, rfl, by decide⟩

/-- C12 (amended): `RefineAction::refine` at current level `L ≥ 1` closes the pixel
selection under the granularity of the refined level `L - 1`, whose maps are the
only ones it reads: for valid, mutually consistent, non-empty level-`(L - 1)` maps
with coarse indices below 2^32 and every non-empty in-range pixel selection `S`,
the node ids handed to subgraph extraction form a strictly increasing list whose
elements are exactly the level-`(L - 1)` nodes of the selected pixels, which are
also the level-`(L - 1)` nodes of all pixels that belong to a level-`(L - 1)`
superpixel touched by `S`. -/
theorem C12_refine_closes_under_refined_level (hierarchy : Hierarchy) (L : Nat)
    (data : Points) (f2c : List Nat) (c2f : List (List Nat))
    (hL1 : 1 ≤ L) (hL2 : L < 9223372036854775808)
    (hf : hierarchy.mapFromPixelToLevel[L - 1]? = some f2c)
    (hc : hierarchy.mapFromLevelToPixel[L - 1]? = some c2f)
    (hnum : data.numPoints < 4294967296) (hlen : f2c.length = data.numPoints)
    (hne1 : f2c ≠ []) (hne2 : c2f ≠ [])
    (hrange : InRange f2c c2f) (hback : ListedMapsBack f2c c2f)
    (hlisted : MappedIsListed f2c c2f) (h32 : ∀ v ∈ f2c, v < 4294967296)
    (hS : SelectionInRange data.selectionIndices f2c.length)
    (hSne : data.selectionIndices ≠ []) :
    ∃ ids, selectionSuperpixelsInRefinedLevel true (L : Int) data hierarchy = .ok (some ids)
      ∧ ids.Sorted (fun a b => a < b)
      ∧ (∀ c, c ∈ ids ↔ ∃ p ∈ data.selectionIndices, f2c[p]? = some c)
      ∧ (∀ c, c ∈ ids ↔ ∃ p ∈ data.selectionIndices, ∃ c' fs,
            f2c[p]? = some c' ∧ c2f[c']? = some fs ∧ ∃ q ∈ fs, f2c[q]? = some c) := by
  have hne : ¬ (f2c.length = 0 ∨ c2f.length = 0) := by
    simp only [List.length_eq_zero, not_or]
    exact ⟨hne1, hne2⟩
  obtain ⟨E, hE, hEs, hEm⟩ := expand_ok data f2c c2f hne hlen hrange.1 hS
  have hEr : SelectionInRange E f2c.length := by
    intro x hx
    obtain ⟨p, hp, v, hv, fs, hfs, f, hf, rfl⟩ := (hEm x).1 hx
    have := listed_facts data f2c c2f hnum hlen hrange hback _ fs hfs f hf
    omega
  obtain ⟨nodes, hnodes, hnm⟩ := lookupLoop_ok f2c E hEr
  have hL0 : ¬ ((L : Int) = 0) := by omega
  have hS0 : ¬ (data.selectionIndices.length = 0) := by
    rw [List.length_eq_zero]; exact hSne
  -- every selected pixel lies in the superpixel of its own node
  have hown : ∀ p ∈ data.selectionIndices, ∃ c fs, f2c[p]? = some c ∧ c < 4294967296
      ∧ c2f[c]? = some fs ∧ p ∈ fs := by
    intro p hp
    have hpl : p < f2c.length := hS p hp
    have hget : f2c[p]? = some f2c[p] := List.getElem?_eq_getElem hpl
    have hcl : f2c[p] < c2f.length := hrange.1 _ (List.getElem_mem _)
    have hget2 : c2f[f2c[p]]? = some c2f[f2c[p]] := List.getElem?_eq_getElem hcl
    refine ⟨f2c[p], c2f[f2c[p]], hget, h32 _ (List.getElem_mem _), hget2, ?_⟩
    have := hlisted p hpl
    rw [List.getD_eq_getElem?_getD, List.getD_eq_getElem?_getD, hget] at this
    simpa [hget2] using this
  have hfirst : ∀ c, c ∈ sortAndUnique nodes ↔ ∃ p ∈ data.selectionIndices, f2c[p]? = some c := by
    intro c
    rw [mem_sortAndUnique, hnm]
    constructor
    · rintro ⟨x, hx, hxc⟩
      obtain ⟨p, hp, v, hv, fs, hfs, f, hf, rfl⟩ := (hEm x).1 hx
      have hfacts := listed_facts data f2c c2f hnum hlen hrange hback _ fs hfs f hf
      rw [hfacts.2.1, hfacts.2.2] at hxc
      have hv32 : v % 4294967296 = v := Nat.mod_eq_of_lt (h32 v (List.getElem?_mem hv))
      rw [hv32] at hxc
      exact ⟨p, hp, by rw [hv]; exact hxc⟩
    · rintro ⟨p, hp, hpc⟩
      obtain ⟨c', fs, hc', hc32, hfs, hpfs⟩ := hown p hp
      rw [hc'] at hpc
      cases hpc
      have hpm : p % 4294967296 = p := by
        have := hS p hp
        exact Nat.mod_eq_of_lt (by omega)
      refine ⟨p, (hEm p).2 ⟨p, hp, c, hc', fs, ?_, p, hpfs, hpm.symm⟩, hc'⟩
      rw [Nat.mod_eq_of_lt hc32]; exact hfs
  refine ⟨sortAndUnique nodes, ?_, sortAndUnique_sorted nodes, hfirst, ?_⟩
  · simp only [selectionSuperpixelsInRefinedLevel, Bool.not_true, Bool.false_eq_true, if_false,
      hL0, hS0, castU64_pred L hL1 hL2, hf, hc, hE, hnodes]
  · intro c
    rw [hfirst]
    constructor
    · rintro ⟨p, hp, hpc⟩
      obtain ⟨c', fs, hc', _, hfs, hpfs⟩ := hown p hp
      exact ⟨p, hp, c', fs, hc', hfs, p, hpfs, hpc⟩
    · rintro ⟨p, hp, c', fs, hc', hfs, q, hq, hqc⟩
      have hfacts := listed_facts data f2c c2f hnum hlen hrange hback c' fs hfs q hq
      rw [hfacts.2.2] at hqc
      cases hqc
      exact ⟨p, hp, hc'⟩

/-- C12 on the three-level hierarchy at current level 2 with pixels 0 and 1 selected. -/
theorem C12_refine_closes_under_refined_level_witness :
    ∃ ids, selectionSuperpixelsInRefinedLevel true ((2 : Nat) : Int) ⟨4, [0, 1]⟩ threeLevels
        = .ok (some ids)
      ∧ ids.Sorted (fun a b => a < b)
      ∧ (∀ c, c ∈ ids ↔ ∃ p ∈ [0, 1], [0, 0, 1, 1][p]? = some c)
      ∧ (∀ c, c ∈ ids ↔ ∃ p ∈ [0, 1], ∃ c' fs,
            [0, 0, 1, 1][p]? = some c' ∧ [[0, 1], [2, 3]][c']? = some fs
              ∧ ∃ q ∈ fs, [0, 0, 1, 1][q]? = some c) :=
  C12_refine_closes_under_refined_level threeLevels 2 ⟨4, [0, 1]⟩ [0, 0, 1, 1] [[0, 1], [2, 3]]
    (by decide) (by decide) rfl rfl (by decide) (by decide) (by decide) (by decide) (by decide)
    (by decide) (by decide) (by decide) (by decide) (by decide)

end RefineAction


namespace RefineAction

theorem isBasicallyEqual_one : isBasicallyEqual 1 1 (1 / 1000) = true := by
  unfold isBasicallyEqual; rw [decide_eq_true_iff]; norm_num

theorem isBasicallyEqual_half : isBasicallyEqual (1 / 2) 1 (1 / 1000) = false := by
  unfold isBasicallyEqual; rw [decide_eq_false_iff_not]; norm_num [abs_lt]

theorem extract_exact (probDist : List (List (Nat × ℚ))) (selection : List Nat) (value : ℚ)
    (h : isBasicallyEqual value 1 (1 / 1000) = true) :
    (extract probDist selection value).2 = selection
      ∧ (extract probDist selection value).1.length = selection.length := by
  unfold extract
  rw [h]
  simp [extractSubGraph]

theorem extract_soft_mem (probDist : List (List (Nat × ℚ))) (selection : List Nat) (value : ℚ)
    (h : isBasicallyEqual value 1 (1 / 1000) = false) (j : Nat) :
    j ∈ (extract probDist selection value).2
      ↔ j ∈ selection ∨ ∃ i ∈ selection, ∃ w, (j, w) ∈ probDist.getD i [] ∧ value < w := by
  unfold extract
  rw [h]
  simp only [extractSubGraph, Bool.false_eq_true, if_false, List.mem_append, List.mem_dedup,
    List.mem_filter, List.mem_flatMap, List.mem_map, decide_eq_true_eq, Prod.exists,
    exists_and_right, exists_eq_right]
  constructor
  · rintro (hj | ⟨⟨i, hi, w, hw, hlt⟩, _⟩)
    · exact Or.inl hj
    · exact Or.inr ⟨i, hi, w, hw, hlt⟩
  · rintro (hj | ⟨i, hi, w, hw, hlt⟩)
    · exact Or.inl hj
    · by_cases hj : j ∈ selection
      · exact Or.inl hj
      · exact Or.inr ⟨⟨i, hi, w, hw, hlt⟩, hj⟩

/-- C11 as stated fails on the modelled extraction: with inclusion ratio 0.5 on a
two-node graph whose only edge weighs 1/4, selecting node 0 returns exactly `[0]`,
which is not a strict superset of the selection. -/
theorem C11_counterexample :
    (extract [[(1, 1 / 4)], [(0, 1 / 4)]] [0] (1 / 2)).2 = [0] := by
  unfold extract
  rw [isBasicallyEqual_half]
  simp [extractSubGraph]
  norm_num

/-- C11 (amended): with inclusion ratio 1 the extraction returns exactly the selected
refined-level ids, and a restricted matrix with one row per selected id; with
inclusion ratio 0.5 the returned ids are the selected ids together with the nodes
adjacent to a selected node through an edge of weight above 0.5, so they form a
superset of the selection that is strict exactly when some selected node has a
non-selected neighbour with edge weight above 0.5. -/
theorem C11_inclusion_ratio (probDist : List (List (Nat × ℚ))) (selection : List Nat) :
    (extract probDist selection 1).2 = selection
    ∧ (extract probDist selection 1).1.length = selection.length
    ∧ (∀ j, j ∈ (extract probDist selection (1 / 2)).2
          ↔ j ∈ selection ∨ ∃ i ∈ selection, ∃ w, (j, w) ∈ probDist.getD i [] ∧ 1 / 2 < w)
    ∧ ((∃ j ∈ (extract probDist selection (1 / 2)).2, j ∉ selection)
          ↔ ∃ i ∈ selection, ∃ j w, (j, w) ∈ probDist.getD i [] ∧ 1 / 2 < w
              ∧ j ∉ selection) := by
  have hmem := extract_soft_mem probDist selection (1 / 2) isBasicallyEqual_half
  refine ⟨(extract_exact probDist selection 1 isBasicallyEqual_one).1,
    (extract_exact probDist selection 1 isBasicallyEqual_one).2, hmem, ?_⟩
  constructor
  · rintro ⟨j, hj, hns⟩
    rcases (hmem j).1 hj with hs | ⟨i, hi, w, hw, hlt⟩
    · exact absurd hs hns
    · exact ⟨i, hi, j, w, hw, hlt, hns⟩
  · rintro ⟨i, hi, j, w, hw, hlt, hns⟩
    exact ⟨j, (hmem j).2 (Or.inr ⟨i, hi, w, hw, hlt⟩), hns⟩

end RefineAction


/-! ## Level switches -/

namespace SPHPlugin

/-- C16 as stated fails on the code: the busy flag is cleared by the `started`
notification, so a level switch requested while the job is running is accepted.
From `idle`, a switch to level 2 is accepted and the worker enters its job, which
gives `runningLevel2`; a switch to level 1 requested then changes the current
level and the map and matrix references to level 1, asks the running job to stop
and dispatches a new job. -/
theorem C16_counterexample :
    updateEmbedding idle 2 = .ok busyLevel2
    ∧ workerEntersCompute busyLevel2 = runningLevel2
    ∧ runningLevel2.isBusy = false
    ∧ runningLevel2.running = some { iterations := 1000, init := true }
    ∧ updateEmbedding runningLevel2 1 = .ok
        { isBusy := true, currentLevel := 1, refineLevel := 1, numLevels := 3
          mappingLevel := some 1, transitionLevel := some 1, inputSelection := []
          numIterations := 1000, iterationsPublishExtend := 250, workerThreadRunning := true
          worker := { currentIteration := 0, publishExtendsIter := 250, shouldStop := true }
          dispatched := [{ iterations := 1000, init := true }]
          running := some { iterations := 1000, init := true } } :=
  ⟨rfl, rfl, rfl, rfl, rfl⟩

/-- C16 (amended): a level-switch request `SPHPlugin::updateEmbedding(level)` made
while the busy flag is set, that is after an accepted request and before the
`started` notification of its job has been delivered, is rejected with the state
unchanged: the current level, the map and matrix references, the worker, the
running job and the dispatched jobs are not modified. -/
theorem C16_busy_request_rejected (s : Plugin) (level : Int) (hbusy : s.isBusy = true) :
    updateEmbedding s level = .ok s := by
  unfold updateEmbedding
  rw [if_pos hbusy]

/-- C16 on the state right after the accepted switch of `idle` to level 2. -/
theorem C16_busy_request_rejected_witness :
    busyLevel2.isBusy = true ∧ updateEmbedding busyLevel2 1 = .ok busyLevel2 :=
  ⟨rfl, C16_busy_request_rejected busyLevel2 1 rfl⟩

end SPHPlugin


namespace EmbedWorker

/-! ### The stop flag on entry -/

/-- A loop that is entered with the flag set returns at its first check: what
keeps a stale `stop()` from ending a new run is the reset made by `compute`. -/
theorem descentLoop_stale_flag (s : Nat → Bool) (n : Nat) (r : Run) (h1 : 10 ≤ n)
    (h2 : n < 2147483648) (hflag : r.w.shouldStop = true) :
    descentLoop s (n : Int) r = ((n : Int), (readStop s r).2, true) := by
  rw [descentLoop]
  have hc : ((n : Int) > 0 ∧ castU32 (n : Int) ≥ updateSteps) := by
    rw [castU32_of_small n (by omega)]; unfold updateSteps; omega
  rw [dif_pos hc]
  have hrd : (readStop s r).1 = true := by simp [readStop, hflag]
  rw [hrd]; rfl

theorem compute_entry_flag (w₁ w₂ : Worker) (N : Nat) (init : Bool) (s : Nat → Bool)
    (h1 : 1 ≤ N) (hcur : w₁.currentIteration = w₂.currentIteration)
    (hpub : w₁.publishExtendsIter = w₂.publishExtendsIter) :
    compute w₁ N init s = compute w₂ N init s := by
  have hN : N ≠ 0 := by omega
  have hr : resetStop (({ w := w₁, trace := [], checks := 0, assertFailed := false } : Run).emit
        Event.started)
      = resetStop (({ w := w₂, trace := [], checks := 0, assertFailed := false } : Run).emit
        Event.started) := by
    simp [resetStop, Run.emit, hcur, hpub]
  simp only [compute, hN, if_false, hr]

/-- C23: `compute` resets the stop flag before its first step, so a `stop()` issued
before the job began has no effect on it: for every `N ≥ 1`, either `init` flag and
every pattern of `stop()` calls during the run (in particular none), two runs of
`compute` whose workers differ only in the value of the stop flag on entry are the
same run: they execute the same engine steps, emit the same notifications, with
`finished` among them in the one exactly when it is in the other, and end with the
same `current`; when no `stop()` is issued during the run and `N < 2^31`, both
emit `finished`, once. -/
theorem C23_stop_before_job_has_no_effect (w₁ w₂ : Worker) (N : Nat) (init : Bool)
    (stopSeen : Nat → Bool) (h1 : 1 ≤ N)
    (hcur : w₁.currentIteration = w₂.currentIteration)
    (hpub : w₁.publishExtendsIter = w₂.publishExtendsIter) :
    compute w₁ N init stopSeen = compute w₂ N init stopSeen
    ∧ engineSteps (compute w₁ N init stopSeen).trace
        = engineSteps (compute w₂ N init stopSeen).trace
    ∧ (compute w₁ N init stopSeen).trace = (compute w₂ N init stopSeen).trace
    ∧ (compute w₁ N init stopSeen).trace.count Event.finished
        = (compute w₂ N init stopSeen).trace.count Event.finished
    ∧ (compute w₁ N init stopSeen).w.currentIteration
        = (compute w₂ N init stopSeen).w.currentIteration
    ∧ (N < 2147483648 →
        (compute w₁ N init neverStopped).trace.count Event.finished = 1
        ∧ (compute w₂ N init neverStopped).trace.count Event.finished = 1) := by
  have h := compute_entry_flag w₁ w₂ N init stopSeen h1 hcur hpub
  refine ⟨h, by rw [h], by rw [h], by rw [h], by rw [h], ?_⟩
  intro h2
  exact ⟨((compute_finished_iff_no_stop_seen w₁ N init neverStopped h1 h2).2.2.1
      (fun _ _ => rfl)).1,
    ((compute_finished_iff_no_stop_seen w₂ N init neverStopped h1 h2).2.2.1
      (fun _ _ => rfl)).1⟩

/-- C23 on a 25-iteration job: a worker whose flag was left set by an earlier
`stop()` runs it exactly as a worker whose flag is clear, and both finish. -/
theorem C23_stop_before_job_has_no_effect_witness :
    compute ⟨30, 12, true⟩ 25 true neverStopped = compute ⟨30, 12, false⟩ 25 true neverStopped
    ∧ (compute ⟨30, 12, true⟩ 25 true neverStopped).trace.count Event.finished = 1
    ∧ (compute ⟨30, 12, false⟩ 25 true neverStopped).trace.count Event.finished = 1 :=
  ⟨(C23_stop_before_job_has_no_effect ⟨30, 12, true⟩ ⟨30, 12, false⟩ 25 true neverStopped
      (by decide) rfl rfl).1,
    ((C23_stop_before_job_has_no_effect ⟨30, 12, true⟩ ⟨30, 12, false⟩ 25 true neverStopped
      (by decide) rfl rfl).2.2.2.2.2 (by decide)).1,
    ((C23_stop_before_job_has_no_effect ⟨30, 12, true⟩ ⟨30, 12, false⟩ 25 true neverStopped
      (by decide) rfl rfl).2.2.2.2.2 (by decide)).2⟩

end EmbedWorker


namespace EmbedWorker

/-! ### Iteration accounting -/

/-- The four ways in which `compute` returns for a request below 2^31: stopped by a
check of the loop, finished without a remainder step, stopped by the check before
the remainder step, finished after the remainder step. -/
theorem compute_cases (w : Worker) (N : Nat) (init : Bool) (s : Nat → Bool) (h1 : 1 ≤ N)
    (h2 : N < 2147483648) :
    (∃ j, j < loopStart N init / 10 ∧ (∀ i, i < j → s i = false) ∧ s j = true
        ∧ compute w N init s = (readStop s ((chunk s)^[j] (beforeLoop w N init))).2)
    ∨ ((∀ i, i < loopStart N init / 10 → s i = false) ∧ loopStart N init % 10 = 0
        ∧ compute w N init s
          = ((chunk s)^[loopStart N init / 10] (beforeLoop w N init)).emit Event.finished)
    ∨ ((∀ i, i < loopStart N init / 10 → s i = false) ∧ loopStart N init % 10 ≠ 0
        ∧ s (loopStart N init / 10) = true
        ∧ compute w N init s
          = (readStop s ((chunk s)^[loopStart N init / 10] (beforeLoop w N init))).2)
    ∨ ((∀ i, i ≤ loopStart N init / 10 → s i = false) ∧ loopStart N init % 10 ≠ 0
        ∧ compute w N init s
          = (checkPublishExtends (advance (continueGradientDescent
              (readStop s ((chunk s)^[loopStart N init / 10] (beforeLoop w N init))).2
              (loopStart N init % 10)) (loopStart N init % 10))).emit Event.finished) := by
  have hls : loopStart N init < 2147483648 := by
    unfold loopStart; split_ifs <;> omega
  have hc0 := beforeLoop_checks w N init
  have hf0 := beforeLoop_flag w N init
  rw [compute_eq w N init s h1 h2]
  rcases descentLoop_cases s (loopStart N init) (beforeLoop w N init) hls hf0 with
    ⟨hall, hloop⟩ | ⟨j, hj, hbefore, hat, hloop⟩
  · simp only [hc0, Nat.zero_add] at hall
    have hfl := iter_flag s (loopStart N init / 10) (beforeLoop w N init) hf0
      (by simpa [hc0] using hall)
    have hck := iter_checks s (loopStart N init / 10) (beforeLoop w N init)
    rw [hc0, Nat.zero_add] at hck
    rw [hloop]
    simp only [Bool.false_eq_true, if_false]
    by_cases hm : loopStart N init % 10 = 0
    · right; left
      have hz : ((loopStart N init % 10 : Nat) : Int) = 0 := by omega
      refine ⟨hall, hm, ?_⟩
      simp only [finishCompute, hz, ne_eq, not_true_eq_false, if_false]
    · have hne : ¬ (((loopStart N init % 10 : Nat) : Int) = 0) := by omega
      have hnn : ¬ (((loopStart N init % 10 : Nat) : Int) < 0) := by omega
      have hcu : castU32 ((loopStart N init % 10 : Nat) : Int) = loopStart N init % 10 :=
        castU32_of_small _ (by omega)
      have hrd := readStop_clear s _ hfl
      rw [hck] at hrd
      cases hsv : s (loopStart N init / 10) with
      | true =>
        right; right; left
        refine ⟨hall, hm, rfl, ?_⟩
        rw [hsv] at hrd
        simp only [finishCompute, ne_eq, hne, not_false_eq_true, if_true, hnn, false_and,
          if_false, hrd]
      | false =>
        right; right; right
        refine ⟨?_, hm, ?_⟩
        · intro i hi
          by_cases hlt : i < loopStart N init / 10
          · exact hall i hlt
          · have : i = loopStart N init / 10 := by omega
            rw [this]; exact hsv
        · rw [hsv] at hrd
          simp only [finishCompute, ne_eq, hne, not_false_eq_true, if_true, hnn, false_and,
            if_false, hrd, Bool.false_eq_true, hcu]
  · left
    rw [hc0, Nat.zero_add] at hat
    simp only [hc0, Nat.zero_add] at hbefore
    refine ⟨j, hj, hbefore, hat, ?_⟩
    rw [hloop]
    simp only [if_true]

theorem stepSum_append (a b : List Event) : stepSum (a ++ b) = stepSum a + stepSum b := by
  simp [stepSum]

theorem updatesFollowStepsFrom_append (b : List Event) :
    ∀ (a : List Event) (pending : Bool), updatesFollowStepsFrom pending a = true →
      updatesFollowStepsFrom pending (a ++ b) = updatesFollowStepsFrom false b := by
  intro a
  induction a with
  | nil =>
    intro pending ha
    cases pending
    · rfl
    · simp [updatesFollowStepsFrom] at ha
  | cons e rest ih =>
    intro pending ha
    cases pending
    · simp only [updatesFollowStepsFrom] at ha
      simp only [List.cons_append, updatesFollowStepsFrom]
      split_ifs at ha ⊢ with h1 h2
      · exact ih true ha
      · exact ih false ha
    · simp only [updatesFollowStepsFrom, Bool.and_eq_true, decide_eq_true_eq] at ha
      simp only [List.cons_append, updatesFollowStepsFrom, ha.1, decide_True, Bool.true_and]
      exact ih false ha.2

theorem updatesFollowSteps_append (a b : List Event) (ha : updatesFollowSteps a = true) :
    updatesFollowSteps (a ++ b) = updatesFollowSteps b :=
  updatesFollowStepsFrom_append b a false ha

end EmbedWorker


namespace EmbedWorker

theorem accounted_emit (c : Nat) (r : Run) (e : Event) (h : Accounted c r)
    (he : updatesFollowSteps [e] = true) : Accounted c (r.emit e) := by
  obtain ⟨h1, h2⟩ := h
  have hz : stepSize e = 0 := by
    cases e <;> first | rfl | simp [updatesFollowSteps, updatesFollowStepsFrom, isStep] at he
  refine ⟨?_, ?_⟩
  · change r.w.currentIteration = (c + stepSum (r.trace ++ [e])) % 4294967296
    rw [stepSum_append, h1]
    simp [stepSum, hz]
  · change updatesFollowSteps (r.trace ++ [e]) = true
    rw [updatesFollowSteps_append _ _ h2, he]

theorem accounted_step (c : Nat) (r : Run) (e : Event) (h : Accounted c r)
    (he : isStep e = true) :
    Accounted c (advance ((r.emit e).emit Event.embeddingUpdate) (stepSize e)) := by
  obtain ⟨h1, h2⟩ := h
  refine ⟨?_, ?_⟩
  · change (r.w.currentIteration + stepSize e) % 4294967296
      = (c + stepSum (r.trace ++ [e] ++ [Event.embeddingUpdate])) % 4294967296
    rw [stepSum_append, stepSum_append, h1]
    simp only [stepSum, List.map_cons, List.map_nil, List.sum_cons, List.sum_nil, stepSize,
      Nat.add_zero]
    omega
  · change updatesFollowSteps (r.trace ++ [e] ++ [Event.embeddingUpdate]) = true
    rw [List.append_assoc, updatesFollowSteps_append _ _ h2]
    cases e <;> first | rfl | simp [isStep] at he

theorem accounted_checkPublishExtends (c : Nat) (r : Run) (h : Accounted c r) :
    Accounted c (checkPublishExtends r) := by
  unfold checkPublishExtends
  split_ifs
  · exact h
  · exact accounted_emit c r _ h rfl
  · exact h

theorem accounted_readStop (c : Nat) (s : Nat → Bool) (r : Run) (h : Accounted c r) :
    Accounted c (readStop s r).2 := h

theorem accounted_continue (c : Nat) (r : Run) (n : Nat) (h : Accounted c r) :
    Accounted c (checkPublishExtends (advance (continueGradientDescent r n) n)) :=
  accounted_checkPublishExtends c _
    (accounted_step c r (Event.continueGradientDescent n) h rfl)

theorem accounted_chunk (c : Nat) (s : Nat → Bool) (r : Run) (h : Accounted c r) :
    Accounted c (chunk s r) :=
  accounted_continue c _ _ (accounted_readStop c s r h)

theorem accounted_iter (c : Nat) (s : Nat → Bool) (j : Nat) (r : Run) (h : Accounted c r) :
    Accounted c ((chunk s)^[j] r) := by
  induction j with
  | zero => exact h
  | succ j ih => rw [Function.iterate_succ_apply']; exact accounted_chunk c s _ ih

theorem accounted_start (w : Worker) (hc : w.currentIteration < 4294967296) :
    Accounted w.currentIteration (resetStop
      (({ w := w, trace := [], checks := 0, assertFailed := false } : Run).emit Event.started)) := by
  refine ⟨?_, rfl⟩
  change w.currentIteration = (w.currentIteration + 0) % 4294967296
  rw [Nat.add_zero, Nat.mod_eq_of_lt hc]

theorem accounted_beforeLoop (w : Worker) (N : Nat) (init : Bool)
    (hc : w.currentIteration < 4294967296) :
    Accounted w.currentIteration (beforeLoop w N init) := by
  cases init
  · exact accounted_start w hc
  · simp only [beforeLoop, if_true]
    exact accounted_checkPublishExtends _ _
      (accounted_step _ _ (Event.initGradientDescent (min N 10)) (accounted_start w hc) rfl)

theorem chunk_stepSum (s : Nat → Bool) (r : Run) :
    stepSum (chunk s r).trace = stepSum r.trace + 10 := by
  simp only [chunk, checkPublishExtends, advance, continueGradientDescent, readStop, Run.emit,
    updateSteps]
  split_ifs <;> simp [stepSum, stepSize]

theorem iter_stepSum (s : Nat → Bool) (j : Nat) (r : Run) :
    stepSum ((chunk s)^[j] r).trace = stepSum r.trace + 10 * j := by
  induction j with
  | zero => rfl
  | succ j ih => rw [Function.iterate_succ_apply', chunk_stepSum, ih]; omega

theorem checkPublishExtends_stepSum (r : Run) :
    stepSum (checkPublishExtends r).trace = stepSum r.trace := by
  simp only [checkPublishExtends, Run.emit]
  split_ifs <;> simp [stepSum, stepSize]

theorem beforeLoop_stepSum (w : Worker) (N : Nat) (init : Bool) :
    stepSum (beforeLoop w N init).trace = if init then min N 10 else 0 := by
  cases init
  · rfl
  · simp only [beforeLoop, if_true, checkPublishExtends_stepSum]
    simp [advance, initGradientDescent, resetStop, Run.emit, stepSum, stepSize]

/-- C24: iteration accounting. For every `N < 2^31`, either `init` flag, every start
value `c` of the 32-bit counter and every pattern of stop observations, when
`compute` returns, `current` equals `c` plus the sum of the sizes of the engine
steps that were executed, modulo 2^32; every executed step is followed at once by
an `embeddingUpdate` emission and there is no other `embeddingUpdate`; and when no
stop-flag check of the run saw a stop, that sum is exactly `N`. -/
theorem C24_iteration_accounting (w : Worker) (N : Nat) (init : Bool) (stopSeen : Nat → Bool)
    (h2 : N < 2147483648) (hc : w.currentIteration < 4294967296) :
    (compute w N init stopSeen).w.currentIteration
      = (w.currentIteration + stepSum (compute w N init stopSeen).trace) % 4294967296
    ∧ updatesFollowSteps (compute w N init stopSeen).trace = true
    ∧ ((∀ i, i < (compute w N init stopSeen).checks → stopSeen i = false) →
        stepSum (compute w N init stopSeen).trace = N) := by
  by_cases h0 : N = 0
  · subst h0
    simp only [compute, if_true]
    refine ⟨?_, rfl, fun _ => rfl⟩
    change w.currentIteration = (w.currentIteration + 0) % 4294967296
    rw [Nat.add_zero, Nat.mod_eq_of_lt hc]
  · have h1 : 1 ≤ N := by omega
    have hb := accounted_beforeLoop w N init hc
    have hc0 := beforeLoop_checks w N init
    have hsum : (if init then min N 10 else 0) + 10 * (loopStart N init / 10)
        + loopStart N init % 10 = N := by
      unfold loopStart
      cases init <;> simp <;> omega
    rcases compute_cases w N init stopSeen h1 h2 with
      ⟨j, hj, hbefore, hat, heq⟩ | ⟨hall, hm, heq⟩ | ⟨hall, hm, hat, heq⟩ | ⟨hall, hm, heq⟩
    · rw [heq]
      have ha := accounted_readStop _ stopSeen _ (accounted_iter _ stopSeen j _ hb)
      refine ⟨ha.1, ha.2, ?_⟩
      intro hno
      have := hno j (by
        change j < ((chunk stopSeen)^[j] (beforeLoop w N init)).checks + 1
        rw [iter_checks, hc0]; omega)
      rw [hat] at this
      cases this
    · rw [heq]
      have ha := accounted_emit _ _ Event.finished
        (accounted_iter _ stopSeen (loopStart N init / 10) _ hb) rfl
      refine ⟨ha.1, ha.2, ?_⟩
      intro _
      change stepSum (((chunk stopSeen)^[loopStart N init / 10] (beforeLoop w N init)).trace
        ++ [Event.finished]) = N
      rw [stepSum_append, iter_stepSum, beforeLoop_stepSum]
      change _ + 0 = N
      omega
    · rw [heq]
      have ha := accounted_readStop _ stopSeen _
        (accounted_iter _ stopSeen (loopStart N init / 10) _ hb)
      refine ⟨ha.1, ha.2, ?_⟩
      intro hno
      have := hno (loopStart N init / 10) (by
        change _ < ((chunk stopSeen)^[loopStart N init / 10] (beforeLoop w N init)).checks + 1
        rw [iter_checks, hc0]; omega)
      rw [hat] at this
      cases this
    · rw [heq]
      have ha := accounted_emit _ _ Event.finished
        (accounted_continue _ _ (loopStart N init % 10)
          (accounted_readStop _ stopSeen _
            (accounted_iter _ stopSeen (loopStart N init / 10) _ hb))) rfl
      refine ⟨ha.1, ha.2, ?_⟩
      intro _
      change stepSum ((checkPublishExtends _).trace ++ [Event.finished]) = N
      rw [stepSum_append, checkPublishExtends_stepSum]
      change stepSum (((chunk stopSeen)^[loopStart N init / 10] (beforeLoop w N init)).trace
        ++ [Event.continueGradientDescent (loopStart N init % 10)] ++ [Event.embeddingUpdate])
        + 0 = N
      rw [stepSum_append, stepSum_append, iter_stepSum, beforeLoop_stepSum]
      change _ + (loopStart N init % 10 + 0) + 0 + 0 = N
      omega

/-- C24 on the 25-iteration job of the specification started at 0 and not stopped:
the executed steps sum to 25 and `current` ends at 25. -/
theorem C24_iteration_accounting_witness :
    stepSum (compute ⟨0, 12, false⟩ 25 true neverStopped).trace = 25
    ∧ (compute ⟨0, 12, false⟩ 25 true neverStopped).w.currentIteration = 25
    ∧ updatesFollowSteps (compute ⟨0, 12, false⟩ 25 true neverStopped).trace = true := by
  have h := C24_iteration_accounting ⟨0, 12, false⟩ 25 true neverStopped (by decide) (by decide)
  have hsum := h.2.2 (fun _ _ => rfl)
  refine ⟨hsum, ?_, h.2.1⟩
  rw [h.1, hsum]
  rfl

end EmbedWorker


namespace EmbedWorker

/-! ### The publish window -/

theorem chunk_trace (s : Nat → Bool) (r : Run) :
    (chunk s r).trace
      = r.trace ++ [Event.continueGradientDescent 10, Event.embeddingUpdate]
        ++ (if (r.w.currentIteration + 10) % 4294967296
              ≥ (r.w.publishExtendsIter + 10) % 4294967296 then []
            else if (r.w.currentIteration + 10) % 4294967296 ≥ r.w.publishExtendsIter then
              [Event.publishExtends]
            else []) := by
  simp only [chunk, checkPublishExtends, advance, continueGradientDescent, readStop, Run.emit,
    updateSteps]
  split_ifs <;> simp

theorem beforeLoop_trace (w : Worker) (N : Nat) (hN : 10 ≤ N) :
    (beforeLoop w N true).trace
      = [Event.started, Event.engineResetStop] ++ [Event.initGradientDescent 10,
          Event.embeddingUpdate]
        ++ (if (w.currentIteration + 10) % 4294967296
              ≥ (w.publishExtendsIter + 10) % 4294967296 then []
            else if (w.currentIteration + 10) % 4294967296 ≥ w.publishExtendsIter then
              [Event.publishExtends]
            else []) := by
  have hm : min N 10 = 10 := by omega
  simp only [beforeLoop, if_true, hm, checkPublishExtends, advance, initGradientDescent,
    resetStop, Run.emit, updateSteps]
  split_ifs <;> simp

/-- The publish window along an uninterrupted run started at `current = 0`: after the
initialization step and `j` chunks, `publishExtends` has been emitted once if the
threshold has been reached and not at all otherwise, and when it has been emitted
it stands right after the step (and its `embeddingUpdate`) that brought `current`
to the first multiple of 10 that is not below the threshold. -/
theorem iter_publish (w : Worker) (N p : Nat) (hN : 10 ≤ N) (hw : w.currentIteration = 0)
    (hp : w.publishExtendsIter = p) (hp1 : 1 ≤ p) (hp2 : p + 10 < 4294967296) :
    ∀ j, 10 * (j + 1) < 4294967296 →
      ((chunk neverStopped)^[j] (beforeLoop w N true)).trace.count Event.publishExtends
          = (if p ≤ 10 * (j + 1) then 1 else 0)
        ∧ (p ≤ 10 * (j + 1) → ∃ pre post e, isStep e = true
            ∧ ((chunk neverStopped)^[j] (beforeLoop w N true)).trace
                = pre ++ [e, Event.embeddingUpdate, Event.publishExtends] ++ post
            ∧ stepSum (pre ++ [e]) = 10 * ((p + 9) / 10)) := by
  intro j
  induction j with
  | zero =>
    intro _
    rw [Function.iterate_zero, id_eq, beforeLoop_trace w N hN, hw, hp]
    have h1 : ¬ ((0 + 10) % 4294967296 ≥ (p + 10) % 4294967296) := by omega
    simp only [h1, if_false]
    by_cases h2 : p ≤ 10
    · have h3 : (0 + 10) % 4294967296 ≥ p := by omega
      have h4 : p ≤ 10 * (0 + 1) := by omega
      simp only [h3, h4, if_true]
      refine ⟨by decide, fun _ => ⟨[Event.started, Event.engineResetStop], [],
        Event.initGradientDescent 10, rfl, rfl, ?_⟩⟩
      have : (p + 9) / 10 = 1 := by omega
      rw [this]; rfl
    · have h3 : ¬ ((0 + 10) % 4294967296 ≥ p) := by omega
      have h4 : ¬ (p ≤ 10 * (0 + 1)) := by omega
      simp only [h3, h4, if_false]
      exact ⟨by decide, fun h => h.elim⟩
  | succ j ih =>
    intro hj
    obtain ⟨hcount, hpos⟩ := ih (by omega)
    have hcur : ((chunk neverStopped)^[j] (beforeLoop w N true)).w.currentIteration
        = 10 * (j + 1) := by
      have hb := beforeLoop_current w N true (by omega)
      rw [iter_current _ _ _ (by rw [hb]; exact Nat.mod_lt _ (by decide)), hb, hw]
      simp only [if_true]
      have hm : min N 10 = 10 := by omega
      rw [hm]
      omega
    have hpub : ((chunk neverStopped)^[j] (beforeLoop w N true)).w.publishExtendsIter = p := by
      rw [iter_publishIter]
      simp only [beforeLoop, if_true, checkPublishExtends, Run.emit]
      split_ifs <;> exact hp
    have hsum : stepSum ((chunk neverStopped)^[j] (beforeLoop w N true)).trace
        = 10 * (j + 1) := by
      rw [iter_stepSum, beforeLoop_stepSum]
      simp only [if_true]
      have hm : min N 10 = 10 := by omega
      rw [hm]
      omega
    rw [Function.iterate_succ_apply', chunk_trace, hcur, hpub]
    have e1 : (10 * (j + 1) + 10) % 4294967296 = 10 * (j + 1 + 1) := by omega
    have e2 : (p + 10) % 4294967296 = p + 10 := Nat.mod_eq_of_lt hp2
    rw [e1, e2]
    generalize ((chunk neverStopped)^[j] (beforeLoop w N true)).trace = t at hcount hpos hsum
    by_cases hold : p ≤ 10 * (j + 1)
    · have h1 : 10 * (j + 1 + 1) ≥ p + 10 := by omega
      have h2 : p ≤ 10 * (j + 1 + 1) := by omega
      simp only [h1, if_true, h2, List.append_nil]
      rw [if_pos hold] at hcount
      refine ⟨by simp [List.count_append, hcount], fun _ => ?_⟩
      obtain ⟨pre, post, e, he, ht, hs⟩ := hpos hold
      exact ⟨pre, post ++ [Event.continueGradientDescent 10, Event.embeddingUpdate], e, he,
        by rw [ht]; simp, hs⟩
    · have h1 : ¬ (10 * (j + 1 + 1) ≥ p + 10) := by omega
      rw [if_neg hold] at hcount
      simp only [h1, if_false]
      by_cases hnew : p ≤ 10 * (j + 1 + 1)
      · have h3 : 10 * (j + 1 + 1) ≥ p := hnew
        simp only [h3, hnew, if_true]
        refine ⟨by simp [List.count_append, hcount], fun _ => ⟨t, [],
          Event.continueGradientDescent 10, rfl, by simp, ?_⟩⟩
        rw [stepSum_append, hsum]
        have : (p + 9) / 10 = j + 1 + 1 := by omega
        rw [this]
        change 10 * (j + 1) + (10 + 0) = _
        omega
      · have h3 : ¬ (10 * (j + 1 + 1) ≥ p) := hnew
        simp only [h3, hnew, if_false, List.append_nil]
        exact ⟨by simp [List.count_append, hcount], fun h => h.elim⟩

/-- C30: for every `N` that is a positive multiple of 10 below 2^31 and every publish
threshold `p ≥ 1` with `p + 10 < 2^32`, `compute(N, init = true)` started at
`current = 0` and not stopped emits `publishExtends` once if `p ≤ N` and never if
`p > N`; when it is emitted, it stands right after the engine step, and that step's
`embeddingUpdate`, with which the executed steps sum to `10 * ceil(p / 10)`, that
is after the step that brings `current` to that value. -/
theorem C30_publishExtends_once (w : Worker) (N p : Nat) (hN1 : 0 < N) (hN10 : N % 10 = 0)
    (hN2 : N < 2147483648) (hp1 : 1 ≤ p) (hp2 : p + 10 < 4294967296)
    (hw : w.currentIteration = 0) (hp : w.publishExtendsIter = p) :
    (compute w N true neverStopped).trace.count Event.publishExtends = (if p ≤ N then 1 else 0)
    ∧ (p ≤ N → ∃ pre post e, isStep e = true
        ∧ (compute w N true neverStopped).trace
            = pre ++ [e, Event.embeddingUpdate, Event.publishExtends] ++ post
        ∧ stepSum (pre ++ [e]) = 10 * ((p + 9) / 10)) := by
  have hN : 10 ≤ N := by omega
  have hm : loopStart N true % 10 = 0 := by
    simp only [loopStart, if_true]; omega
  have hj : 10 * (loopStart N true / 10 + 1) = N := by
    simp only [loopStart, if_true]; omega
  obtain ⟨hcount, hpos⟩ := iter_publish w N p hN hw hp hp1 hp2 (loopStart N true / 10)
    (by omega)
  rw [hj] at hcount hpos
  rw [compute_uninterrupted w N true (by omega) hN2, if_pos hm]
  change (((chunk neverStopped)^[loopStart N true / 10] (beforeLoop w N true)).trace
      ++ [Event.finished]).count Event.publishExtends = _
    ∧ (p ≤ N → ∃ pre post e, isStep e = true
        ∧ ((chunk neverStopped)^[loopStart N true / 10] (beforeLoop w N true)).trace
            ++ [Event.finished]
          = pre ++ [e, Event.embeddingUpdate, Event.publishExtends] ++ post
        ∧ stepSum (pre ++ [e]) = 10 * ((p + 9) / 10))
  refine ⟨by simp [List.count_append, hcount], fun hle => ?_⟩
  obtain ⟨pre, post, e, he, ht, hs⟩ := hpos hle
  exact ⟨pre, post ++ [Event.finished], e, he, by rw [ht]; simp, hs⟩

/-- C30 on a 30-iteration job with publish threshold 12 (emitted once, after the
step that brings `current` to 20) and with threshold 31 (never emitted). -/
theorem C30_publishExtends_once_witness :
    (compute ⟨0, 12, false⟩ 30 true neverStopped).trace.count Event.publishExtends = 1
    ∧ (∃ pre post e, isStep e = true
        ∧ (compute ⟨0, 12, false⟩ 30 true neverStopped).trace
            = pre ++ [e, Event.embeddingUpdate, Event.publishExtends] ++ post
        ∧ stepSum (pre ++ [e]) = 20)
    ∧ (compute ⟨0, 31, false⟩ 30 true neverStopped).trace.count Event.publishExtends = 0 :=
  ⟨(C30_publishExtends_once ⟨0, 12, false⟩ 30 12 (by decide) (by decide) (by decide) (by decide)
      (by decide) rfl rfl).1,
    (C30_publishExtends_once ⟨0, 12, false⟩ 30 12 (by decide) (by decide) (by decide) (by decide)
      (by decide) rfl rfl).2 (by decide),
    (C30_publishExtends_once ⟨0, 31, false⟩ 30 31 (by decide) (by decide) (by decide) (by decide)
      (by decide) rfl rfl).1⟩

end EmbedWorker


/-! ## Counters of a hub -/

namespace Hub

variable {D : Type} [DecidableEq D]

theorem enterHandler_none (counters : List D) (global V : D) (s : Hub D)
    (hsync : areLocksInSync counters global s = false)
    (hV : ¬ (s.selectionCounters V < s.selectionCounters global)) :
    enterHandler counters global V s = none := by
  simp [enterHandler, hsync, isNotYetHandled, hV]

/-- What the opening of a handler does to the counters: a call that is not ignored
leaves the counter of its view equal to that of `GLOBAL`, and the counters stay
within one of `GLOBAL`. -/
theorem enterHandler_counters (counters : List D) (global V : D)
    (hall : ∀ d, d ∈ counters) (hV : V ≠ global) (s s0 : Hub D) (hinv : CountersInv global s)
    (h : enterHandler counters global V s = some s0) :
    s0.selectionCounters V = s0.selectionCounters global ∧ CountersInv global s0 := by
  unfold enterHandler at h
  have hgV : ¬ (global = V) := fun e => hV e.symm
  cases hsync : areLocksInSync counters global s with
  | true =>
    have heq : ∀ d, s.selectionCounters d = s.selectionCounters global := by
      intro d
      have := List.all_eq_true.1 hsync d (hall d)
      simpa using this
    simp only [hsync, Bool.not_true, Bool.false_and, Bool.false_eq_true, if_false, if_true,
      Option.some.injEq] at h
    subst h
    have hb := (hinv global).1
    refine ⟨?_, fun d => ?_⟩
    · simp [markAsHandled, hV, heq V]
    · by_cases hd : d = V
      · subst hd
        simp only [markAsHandled, if_true, hV, if_false, hgV, heq d]
        exact ⟨Nat.mod_lt _ (by decide), Or.inl trivial⟩
      · by_cases hdg : d = global
        · subst hdg
          simp only [markAsHandled, hd, if_false, if_true]
          exact ⟨Nat.mod_lt _ (by decide), Or.inl trivial⟩
        · simp only [markAsHandled, hd, hdg, if_false, hgV, if_true, heq d]
          exact ⟨hb, Or.inr trivial⟩
  | false =>
    cases hnot : isNotYetHandled global s V with
    | false => simp [hsync, hnot] at h
    | true =>
      simp only [hsync, hnot, Bool.not_false, Bool.not_true, Bool.and_false, Bool.false_eq_true,
        if_false, Option.some.injEq] at h
      subst h
      have hlt : s.selectionCounters V < s.selectionCounters global := by
        simpa [isNotYetHandled] using hnot
      have hone : (s.selectionCounters V + 1) % 18446744073709551616
          = s.selectionCounters global := by
        rcases (hinv V).2 with h1 | h1
        · omega
        · exact h1
      refine ⟨?_, fun d => ?_⟩
      · simp [markAsHandled, hgV, hone]
      · by_cases hd : d = V
        · subst hd
          simp only [markAsHandled, if_true, hgV, if_false, hone]
          exact ⟨(hinv global).1, Or.inl trivial⟩
        · simp only [markAsHandled, hd, if_false, hgV]
          exact hinv d

theorem afterHandlerCalls_inv (counters : List D) (global : D) (hall : ∀ d, d ∈ counters)
    (calls : List D) :
    ∀ s : Hub D, CountersInv global s →
      CountersInv global (afterHandlerCalls counters global s calls) := by
  induction calls with
  | nil => intro s hs; exact hs
  | cons V rest ih =>
    intro s hs
    unfold afterHandlerCalls
    by_cases hV : V = global
    · rw [if_pos hV]; exact ih s hs
    · rw [if_neg hV]
      apply ih
      cases h : enterHandler counters global V s with
      | none => exact hs
      | some s0 => exact (enterHandler_counters counters global V hall hV s s0 hs h).2

end Hub

theorem Hub.countersInv_zero {D : Type} (global : D) (s : Hub D)
    (h : ∀ d, s.selectionCounters d = 0) : Hub.CountersInv global s := by
  intro d
  rw [h d, h global]
  exact ⟨by decide, Or.inl rfl⟩

/-- C21: in both hubs, on every counter state reached from the all-zero state
through any sequence of handler calls, a handler call for a view `V` that is not
ignored leaves `counters[V]` equal to `counters[GLOBAL]` once `V` has been marked
handled, although `markAsHandled` increments the counter; before and after the
call every counter is that of `GLOBAL` or one below it (in `uint64_t`
arithmetic). -/
theorem C21_marked_view_equals_global
    (s : Hub SPHPlugin.SelectionDatasets) (r : Hub RefinedSelectionMapping.SelectionDatasets)
    (calls : List SPHPlugin.SelectionDatasets)
    (rcalls : List RefinedSelectionMapping.SelectionDatasets)
    (V : SPHPlugin.SelectionDatasets) (U : RefinedSelectionMapping.SelectionDatasets)
    (s0 : Hub SPHPlugin.SelectionDatasets) (r0 : Hub RefinedSelectionMapping.SelectionDatasets)
    (hs : ∀ d, s.selectionCounters d = 0) (hr : ∀ d, r.selectionCounters d = 0)
    (hV : V ≠ SPHPlugin.SelectionDatasets.GLOBAL)
    (hU : U ≠ RefinedSelectionMapping.SelectionDatasets.GLOBAL)
    (hs0 : Hub.enterHandler SPHPlugin.counters SPHPlugin.SelectionDatasets.GLOBAL V
        (Hub.afterHandlerCalls SPHPlugin.counters SPHPlugin.SelectionDatasets.GLOBAL s calls)
        = some s0)
    (hr0 : Hub.enterHandler RefinedSelectionMapping.counters
        RefinedSelectionMapping.SelectionDatasets.GLOBAL U
        (Hub.afterHandlerCalls RefinedSelectionMapping.counters
          RefinedSelectionMapping.SelectionDatasets.GLOBAL r rcalls) = some r0) :
    (s0.selectionCounters V = s0.selectionCounters SPHPlugin.SelectionDatasets.GLOBAL
      ∧ Hub.CountersInv SPHPlugin.SelectionDatasets.GLOBAL
          (Hub.afterHandlerCalls SPHPlugin.counters SPHPlugin.SelectionDatasets.GLOBAL s calls)
      ∧ Hub.CountersInv SPHPlugin.SelectionDatasets.GLOBAL s0)
    ∧ (r0.selectionCounters U
        = r0.selectionCounters RefinedSelectionMapping.SelectionDatasets.GLOBAL
      ∧ Hub.CountersInv RefinedSelectionMapping.SelectionDatasets.GLOBAL
          (Hub.afterHandlerCalls RefinedSelectionMapping.counters
            RefinedSelectionMapping.SelectionDatasets.GLOBAL r rcalls)
      ∧ Hub.CountersInv RefinedSelectionMapping.SelectionDatasets.GLOBAL r0) := by
  have hall1 : ∀ d : SPHPlugin.SelectionDatasets, d ∈ SPHPlugin.counters := by
    intro d; cases d <;> decide
  have hall2 : ∀ d : RefinedSelectionMapping.SelectionDatasets,
      d ∈ RefinedSelectionMapping.counters := by
    intro d; cases d <;> decide
  have h1 := Hub.afterHandlerCalls_inv SPHPlugin.counters SPHPlugin.SelectionDatasets.GLOBAL
    hall1 calls s (Hub.countersInv_zero _ s hs)
  have h2 := Hub.afterHandlerCalls_inv RefinedSelectionMapping.counters
    RefinedSelectionMapping.SelectionDatasets.GLOBAL hall2 rcalls r (Hub.countersInv_zero _ r hr)
  have e1 := Hub.enterHandler_counters _ _ V hall1 hV _ s0 h1 hs0
  have e2 := Hub.enterHandler_counters _ _ U hall2 hU _ r0 h2 hr0
  exact ⟨⟨e1.1, h1, e1.2⟩, ⟨e2.1, h2, e2.2⟩⟩


/-- C21 after one handler call for INPUT from the all-zero state: the next call, for
RECOLOR_IMAGE, is not ignored and leaves the counter of RECOLOR_IMAGE equal to that
of GLOBAL. -/
theorem C21_marked_view_equals_global_witness :
    (Hub.markAsHandled (Hub.afterHandlerCalls SPHPlugin.counters
        SPHPlugin.SelectionDatasets.GLOBAL (SPHPlugin.example4 0 SPHPlugin.SelectionDatasets.INPUT)
        [SPHPlugin.SelectionDatasets.INPUT])
      SPHPlugin.SelectionDatasets.RECOLOR_IMAGE).selectionCounters
        SPHPlugin.SelectionDatasets.RECOLOR_IMAGE
      = (Hub.markAsHandled (Hub.afterHandlerCalls SPHPlugin.counters
        SPHPlugin.SelectionDatasets.GLOBAL (SPHPlugin.example4 0 SPHPlugin.SelectionDatasets.INPUT)
        [SPHPlugin.SelectionDatasets.INPUT])
      SPHPlugin.SelectionDatasets.RECOLOR_IMAGE).selectionCounters
        SPHPlugin.SelectionDatasets.GLOBAL
    ∧ (Hub.markAsHandled (Hub.afterHandlerCalls RefinedSelectionMapping.counters
        RefinedSelectionMapping.SelectionDatasets.GLOBAL
        (RefinedSelectionMapping.example4 0 RefinedSelectionMapping.SelectionDatasets.INPUT)
        [RefinedSelectionMapping.SelectionDatasets.INPUT])
      RefinedSelectionMapping.SelectionDatasets.RECOLOR_IMAGE).selectionCounters
        RefinedSelectionMapping.SelectionDatasets.RECOLOR_IMAGE
      = (Hub.markAsHandled (Hub.afterHandlerCalls RefinedSelectionMapping.counters
        RefinedSelectionMapping.SelectionDatasets.GLOBAL
        (RefinedSelectionMapping.example4 0 RefinedSelectionMapping.SelectionDatasets.INPUT)
        [RefinedSelectionMapping.SelectionDatasets.INPUT])
      RefinedSelectionMapping.SelectionDatasets.RECOLOR_IMAGE).selectionCounters
        RefinedSelectionMapping.SelectionDatasets.GLOBAL :=
  ⟨(C21_marked_view_equals_global
      (SPHPlugin.example4 0 SPHPlugin.SelectionDatasets.INPUT)
      (RefinedSelectionMapping.example4 0 RefinedSelectionMapping.SelectionDatasets.INPUT)
      [SPHPlugin.SelectionDatasets.INPUT] [RefinedSelectionMapping.SelectionDatasets.INPUT]
      SPHPlugin.SelectionDatasets.RECOLOR_IMAGE
      RefinedSelectionMapping.SelectionDatasets.RECOLOR_IMAGE _ _
      (fun _ => rfl) (fun _ => rfl) (by decide) (by decide) rfl rfl).1.1,
    (C21_marked_view_equals_global
      (SPHPlugin.example4 0 SPHPlugin.SelectionDatasets.INPUT)
      (RefinedSelectionMapping.example4 0 RefinedSelectionMapping.SelectionDatasets.INPUT)
      [SPHPlugin.SelectionDatasets.INPUT] [RefinedSelectionMapping.SelectionDatasets.INPUT]
      SPHPlugin.SelectionDatasets.RECOLOR_IMAGE
      RefinedSelectionMapping.SelectionDatasets.RECOLOR_IMAGE _ _
      (fun _ => rfl) (fun _ => rfl) (by decide) (by decide) rfl rfl).2.1⟩

namespace Hub

variable {D : Type} [DecidableEq D]

theorem bind_ok (x : Except Failure (Hub D)) (f : Hub D → Except Failure (Hub D)) (b : Hub D)
    (h : (x >>= f) = .ok b) : ∃ a, x = .ok a ∧ f a = .ok b := by
  cases x with
  | error e => cases h
  | ok a => exact ⟨a, rfl, h⟩

theorem ifNotYetHandled_inv (global W : D) (action : Hub D → Except Failure (Hub D))
    (hact : ∀ t t', CountersInv global t → action t = .ok t' → CountersInv global t')
    (s s' : Hub D) (hs : CountersInv global s)
    (h : ifNotYetHandled global W action s = .ok s') : CountersInv global s' := by
  unfold ifNotYetHandled at h
  split_ifs at h
  · exact hact s s' hs h
  · cases h; exact hs

theorem copySelection_inv (global : D) (notify : D → Hub D → Except Failure (Hub D))
    (hn : ∀ W t t', CountersInv global t → notify W t = .ok t' → CountersInv global t')
    (a b : D) (s s' : Hub D) (hs : CountersInv global s)
    (h : copySelection notify a b s = .ok s') : CountersInv global s' := by
  refine hn b _ s' ?_ h
  exact hs

theorem mapDataToLevel_inv (global : D) (notify : D → Hub D → Except Failure (Hub D))
    (hn : ∀ W t t', CountersInv global t → notify W t = .ok t' → CountersInv global t')
    (a b : D) (s s' : Hub D) (hs : CountersInv global s)
    (h : mapDataToLevel notify a b s = .ok s') : CountersInv global s' := by
  unfold mapDataToLevel at h
  split at h
  · cases h
  · cases h; exact hs
  · refine hn b _ s' ?_ h
    exact hs

theorem mapLevelToData_inv (global : D) (notify : D → Hub D → Except Failure (Hub D))
    (hn : ∀ W t t', CountersInv global t → notify W t = .ok t' → CountersInv global t')
    (a b : D) (s s' : Hub D) (hs : CountersInv global s)
    (h : mapLevelToData notify a b s = .ok s') : CountersInv global s' := by
  unfold mapLevelToData at h
  split at h
  · cases h
  · cases h; exact hs
  · refine hn b _ s' ?_ h
    exact hs

/-- Four guarded actions in a row keep the counters within one of `GLOBAL` when
each action does. -/
theorem chain4_inv (global : D) (W₁ W₂ W₃ W₄ : D)
    (A B C E : Hub D → Except Failure (Hub D))
    (hA : ∀ t t', CountersInv global t → A t = .ok t' → CountersInv global t')
    (hB : ∀ t t', CountersInv global t → B t = .ok t' → CountersInv global t')
    (hC : ∀ t t', CountersInv global t → C t = .ok t' → CountersInv global t')
    (hE : ∀ t t', CountersInv global t → E t = .ok t' → CountersInv global t')
    (s0 s' : Hub D) (hs : CountersInv global s0)
    (h : (do
      let s1 ← ifNotYetHandled global W₁ A s0
      let s2 ← ifNotYetHandled global W₂ B s1
      let s3 ← ifNotYetHandled global W₃ C s2
      ifNotYetHandled global W₄ E s3) = .ok s') : CountersInv global s' := by
  obtain ⟨s1, h1, h⟩ := bind_ok _ _ _ h
  obtain ⟨s2, h2, h⟩ := bind_ok _ _ _ h
  obtain ⟨s3, h3, h⟩ := bind_ok _ _ _ h
  exact ifNotYetHandled_inv global W₄ E hE s3 s'
    (ifNotYetHandled_inv global W₃ C hC s2 s3
      (ifNotYetHandled_inv global W₂ B hB s1 s2
        (ifNotYetHandled_inv global W₁ A hA s0 s1 hs h1) h2) h3) h

/-- Three guarded actions in a row keep the counters within one of `GLOBAL` when
each action does. -/
theorem chain3_inv (global : D) (W₁ W₂ W₃ : D)
    (A B C : Hub D → Except Failure (Hub D))
    (hA : ∀ t t', CountersInv global t → A t = .ok t' → CountersInv global t')
    (hB : ∀ t t', CountersInv global t → B t = .ok t' → CountersInv global t')
    (hC : ∀ t t', CountersInv global t → C t = .ok t' → CountersInv global t')
    (s0 s' : Hub D) (hs : CountersInv global s0)
    (h : (do
      let s1 ← ifNotYetHandled global W₁ A s0
      let s2 ← ifNotYetHandled global W₂ B s1
      ifNotYetHandled global W₃ C s2) = .ok s') : CountersInv global s' := by
  obtain ⟨s1, h1, h⟩ := bind_ok _ _ _ h
  obtain ⟨s2, h2, h⟩ := bind_ok _ _ _ h
  exact ifNotYetHandled_inv global W₃ C hC s2 s'
    (ifNotYetHandled_inv global W₂ B hB s1 s2
      (ifNotYetHandled_inv global W₁ A hA s0 s1 hs h1) h2) h

end Hub

namespace SPHPlugin

open SelectionDatasets Hub

theorem counters_complete (d : SelectionDatasets) : d ∈ counters := by
  cases d <;> decide

/-- The delivery of a selection-changed event, with every handler call nested in it,
keeps every counter of the plugin equal to that of GLOBAL or one below it. -/
theorem dataSelectionChanged_inv (isInit : Bool) :
    ∀ (depth : Nat) (V : SelectionDatasets) (s s' : Hub SelectionDatasets),
      CountersInv GLOBAL s → dataSelectionChanged isInit depth V s = .ok s' →
      CountersInv GLOBAL s' := by
  intro depth
  induction depth with
  | zero => intro V s s' _ h; cases h
  | succ depth ih =>
    intro V s s' hs h
    have hn := fun W t t' => ih W t t'
    cases V with
    | GLOBAL => cases h; exact hs
    | INPUT =>
      simp only [dataSelectionChanged, onSelectionInInputData] at h
      split_ifs at h
      · cases h; exact hs
      · cases he : enterHandler counters GLOBAL INPUT s with
        | none => rw [he] at h; cases h; exact hs
        | some s0 =>
          rw [he] at h
          exact chain4_inv GLOBAL _ _ _ _ _ _ _ _
            (mapDataToLevel_inv GLOBAL _ hn _ _) (copySelection_inv GLOBAL _ hn _ _)
            (copySelection_inv GLOBAL _ hn _ _) (copySelection_inv GLOBAL _ hn _ _) s0 s'
            (enterHandler_counters _ _ _ counters_complete (by decide) s s0 hs he).2 h
    | EMBEDDING =>
      simp only [dataSelectionChanged, onSelectionInEmbedding] at h
      split_ifs at h
      · cases h; exact hs
      · cases he : enterHandler counters GLOBAL EMBEDDING s with
        | none => rw [he] at h; cases h; exact hs
        | some s0 =>
          rw [he] at h
          exact chain4_inv GLOBAL _ _ _ _ _ _ _ _
            (mapLevelToData_inv GLOBAL _ hn _ _) (copySelection_inv GLOBAL _ hn _ _)
            (copySelection_inv GLOBAL _ hn _ _) (copySelection_inv GLOBAL _ hn _ _) s0 s'
            (enterHandler_counters _ _ _ counters_complete (by decide) s s0 hs he).2 h
    | RECOLOR_IMAGE =>
      simp only [dataSelectionChanged, onSelectionInImgColoredByEmb] at h
      split_ifs at h
      · cases h; exact hs
      · cases he : enterHandler counters GLOBAL RECOLOR_IMAGE s with
        | none => rw [he] at h; cases h; exact hs
        | some s0 =>
          rw [he] at h
          exact chain4_inv GLOBAL _ _ _ _ _ _ _ _
            (mapDataToLevel_inv GLOBAL _ hn _ _) (mapLevelToData_inv GLOBAL _ hn _ _)
            (copySelection_inv GLOBAL _ hn _ _) (copySelection_inv GLOBAL _ hn _ _) s0 s'
            (enterHandler_counters _ _ _ counters_complete (by decide) s s0 hs he).2 h
    | SUPERPIXELS =>
      simp only [dataSelectionChanged, onSelectionInSuperPixelComponents] at h
      split_ifs at h
      · cases h; exact hs
      · cases he : enterHandler counters GLOBAL SUPERPIXELS s with
        | none => rw [he] at h; cases h; exact hs
        | some s0 =>
          rw [he] at h
          exact chain4_inv GLOBAL _ _ _ _ _ _ _ _
            (mapDataToLevel_inv GLOBAL _ hn _ _) (mapLevelToData_inv GLOBAL _ hn _ _)
            (copySelection_inv GLOBAL _ hn _ _) (copySelection_inv GLOBAL _ hn _ _) s0 s'
            (enterHandler_counters _ _ _ counters_complete (by decide) s s0 hs he).2 h
    | AVERAGES =>
      simp only [dataSelectionChanged, onSelectionInPixelAverages] at h
      split_ifs at h
      · cases h; exact hs
      · cases he : enterHandler counters GLOBAL AVERAGES s with
        | none => rw [he] at h; cases h; exact hs
        | some s0 =>
          rw [he] at h
          exact chain4_inv GLOBAL _ _ _ _ _ _ _ _
            (mapDataToLevel_inv GLOBAL _ hn _ _) (mapLevelToData_inv GLOBAL _ hn _ _)
            (copySelection_inv GLOBAL _ hn _ _) (copySelection_inv GLOBAL _ hn _ _) s0 s'
            (enterHandler_counters _ _ _ counters_complete (by decide) s s0 hs he).2 h

end SPHPlugin

namespace RefinedSelectionMapping

open SelectionDatasets Hub

theorem refined_counters_complete (d : SelectionDatasets) : d ∈ counters := by
  cases d <;> decide

/-- The delivery of a selection-changed event, with every handler call nested in it,
keeps every counter of the hub equal to that of GLOBAL or one below it. -/
theorem refined_dataSelectionChanged_inv :
    ∀ (depth : Nat) (V : SelectionDatasets) (s s' : Hub SelectionDatasets),
      CountersInv GLOBAL s → dataSelectionChanged depth V s = .ok s' →
      CountersInv GLOBAL s' := by
  intro depth
  induction depth with
  | zero => intro V s s' _ h; cases h
  | succ depth ih =>
    intro V s s' hs h
    have hn := fun W t t' => ih W t t'
    cases V with
    | GLOBAL => cases h; exact hs
    | INPUT =>
      simp only [dataSelectionChanged, onSelectionInInputData] at h
      cases he : enterHandler counters GLOBAL INPUT s with
      | none => rw [he] at h; cases h; exact hs
      | some s0 =>
        rw [he] at h
        exact chain3_inv GLOBAL _ _ _ _ _ _
          (mapDataToLevel_inv GLOBAL _ hn _ _) (copySelection_inv GLOBAL _ hn _ _)
          (copySelection_inv GLOBAL _ hn _ _) s0 s'
          (enterHandler_counters _ _ _ refined_counters_complete (by decide) s s0 hs he).2 h
    | EMBEDDING =>
      simp only [dataSelectionChanged, onSelectionInLevelEmbedding] at h
      cases he : enterHandler counters GLOBAL EMBEDDING s with
      | none => rw [he] at h; cases h; exact hs
      | some s0 =>
        rw [he] at h
        exact chain3_inv GLOBAL _ _ _ _ _ _
          (mapLevelToData_inv GLOBAL _ hn _ _) (copySelection_inv GLOBAL _ hn _ _)
          (copySelection_inv GLOBAL _ hn _ _) s0 s'
          (enterHandler_counters _ _ _ refined_counters_complete (by decide) s s0 hs he).2 h
    | RECOLOR_IMAGE =>
      simp only [dataSelectionChanged, onSelectionInColoredByEmb] at h
      cases he : enterHandler counters GLOBAL RECOLOR_IMAGE s with
      | none => rw [he] at h; cases h; exact hs
      | some s0 =>
        rw [he] at h
        exact chain3_inv GLOBAL _ _ _ _ _ _
          (mapDataToLevel_inv GLOBAL _ hn _ _) (mapLevelToData_inv GLOBAL _ hn _ _)
          (copySelection_inv GLOBAL _ hn _ _) s0 s'
          (enterHandler_counters _ _ _ refined_counters_complete (by decide) s s0 hs he).2 h
    | AVERAGES =>
      simp only [dataSelectionChanged, onSelectionInPixelAverages] at h
      cases he : enterHandler counters GLOBAL AVERAGES s with
      | none => rw [he] at h; cases h; exact hs
      | some s0 =>
        rw [he] at h
        exact chain3_inv GLOBAL _ _ _ _ _ _
          (mapDataToLevel_inv GLOBAL _ hn _ _) (mapLevelToData_inv GLOBAL _ hn _ _)
          (copySelection_inv GLOBAL _ hn _ _) s0 s'
          (enterHandler_counters _ _ _ refined_counters_complete (by decide) s s0 hs he).2 h

end RefinedSelectionMapping


/-! ## Echoes and the empty fine-to-coarse map -/

theorem Hub.not_in_sync {D : Type} [DecidableEq D] (counters : List D) (global : D)
    (hall : ∀ d, d ∈ counters) (s : Hub D)
    (h : ∃ d, s.selectionCounters d ≠ s.selectionCounters global) :
    Hub.areLocksInSync counters global s = false := by
  obtain ⟨d, hd⟩ := h
  cases hsync : Hub.areLocksInSync counters global s with
  | false => rfl
  | true =>
    have := List.all_eq_true.1 hsync d (hall d)
    exact absurd (by simpa using this) hd

/-- C22: reentrant echoes are ignored. In both hubs, for every state in which the
counters are not all equal and `counters[V]` is not below `counters[GLOBAL]`, the
handler of view `V` returns the state it was given: no counter, no selection and
no record of an assignment has changed. It has invoked no mapping and no copy:
the result is the same for maps of any shape and also at nesting depth 1, where
every notification raised by a mapping or a copy would fail. -/
theorem C22_echo_ignored (s : Hub SPHPlugin.SelectionDatasets)
    (r : Hub RefinedSelectionMapping.SelectionDatasets)
    (V : SPHPlugin.SelectionDatasets) (U : RefinedSelectionMapping.SelectionDatasets)
    (isInit : Bool) (depth : Nat)
    (hs1 : ∃ d, s.selectionCounters d ≠ s.selectionCounters SPHPlugin.SelectionDatasets.GLOBAL)
    (hs2 : ¬ (s.selectionCounters V < s.selectionCounters SPHPlugin.SelectionDatasets.GLOBAL))
    (hr1 : ∃ d, r.selectionCounters d
        ≠ r.selectionCounters RefinedSelectionMapping.SelectionDatasets.GLOBAL)
    (hr2 : ¬ (r.selectionCounters U
        < r.selectionCounters RefinedSelectionMapping.SelectionDatasets.GLOBAL)) :
    SPHPlugin.dataSelectionChanged isInit (depth + 1) V s = .ok s
    ∧ RefinedSelectionMapping.dataSelectionChanged (depth + 1) U r = .ok r := by
  have h1 := Hub.enterHandler_none SPHPlugin.counters SPHPlugin.SelectionDatasets.GLOBAL V s
    (Hub.not_in_sync _ _ SPHPlugin.counters_complete s hs1) hs2
  have h2 := Hub.enterHandler_none RefinedSelectionMapping.counters
    RefinedSelectionMapping.SelectionDatasets.GLOBAL U r
    (Hub.not_in_sync _ _ RefinedSelectionMapping.refined_counters_complete r hr1) hr2
  constructor
  · cases V <;>
      simp [SPHPlugin.dataSelectionChanged, SPHPlugin.onSelectionInInputData,
        SPHPlugin.onSelectionInEmbedding, SPHPlugin.onSelectionInImgColoredByEmb,
        SPHPlugin.onSelectionInSuperPixelComponents, SPHPlugin.onSelectionInPixelAverages, h1]
  · cases U <;>
      simp [RefinedSelectionMapping.dataSelectionChanged,
        RefinedSelectionMapping.onSelectionInInputData,
        RefinedSelectionMapping.onSelectionInLevelEmbedding,
        RefinedSelectionMapping.onSelectionInColoredByEmb,
        RefinedSelectionMapping.onSelectionInPixelAverages, h2]

/-- C22 inside a wave that started in INPUT (GLOBAL and INPUT already incremented):
the echo that reaches the handler of INPUT is ignored, in both hubs, at depth 1. -/
theorem C22_echo_ignored_witness :
    SPHPlugin.dataSelectionChanged true 1 SPHPlugin.SelectionDatasets.INPUT
        (Hub.markAsHandled (Hub.markAsHandled
          (SPHPlugin.example4 7 SPHPlugin.SelectionDatasets.INPUT)
          SPHPlugin.SelectionDatasets.GLOBAL) SPHPlugin.SelectionDatasets.INPUT)
      = .ok (Hub.markAsHandled (Hub.markAsHandled
          (SPHPlugin.example4 7 SPHPlugin.SelectionDatasets.INPUT)
          SPHPlugin.SelectionDatasets.GLOBAL) SPHPlugin.SelectionDatasets.INPUT)
    ∧ RefinedSelectionMapping.dataSelectionChanged 1
        RefinedSelectionMapping.SelectionDatasets.INPUT
        (Hub.markAsHandled (Hub.markAsHandled
          (RefinedSelectionMapping.example4 7 RefinedSelectionMapping.SelectionDatasets.INPUT)
          RefinedSelectionMapping.SelectionDatasets.GLOBAL)
          RefinedSelectionMapping.SelectionDatasets.INPUT)
      = .ok (Hub.markAsHandled (Hub.markAsHandled
          (RefinedSelectionMapping.example4 7 RefinedSelectionMapping.SelectionDatasets.INPUT)
          RefinedSelectionMapping.SelectionDatasets.GLOBAL)
          RefinedSelectionMapping.SelectionDatasets.INPUT) :=
  C22_echo_ignored _ _ SPHPlugin.SelectionDatasets.INPUT
    RefinedSelectionMapping.SelectionDatasets.INPUT true 0
    ⟨SPHPlugin.SelectionDatasets.EMBEDDING, by decide⟩ (by decide)
    ⟨RefinedSelectionMapping.SelectionDatasets.EMBEDDING, by decide⟩ (by decide)

namespace RefinedSelectionMapping

open SelectionDatasets Hub

/-- C27 as stated fails when the counters wrap: in a hub with empty maps whose
counters all hold 2^64 - 1, a selection event in INPUT takes GLOBAL and INPUT to 0,
after which no view counts as not yet handled; the counters of RECOLOR_IMAGE and
AVERAGES stay at 2^64 - 1 and differ from that of GLOBAL. -/
theorem C27_counterexample :
    (∀ d, ({ fresh ⟨4, [1]⟩ ⟨2, []⟩ ⟨4, []⟩ ⟨4, []⟩ with
        selectionCounters := fun _ => 18446744073709551615 } :
          Hub SelectionDatasets).selectionCounters d = 18446744073709551615)
    ∧ ({ fresh ⟨4, [1]⟩ ⟨2, []⟩ ⟨4, []⟩ ⟨4, []⟩ with
        selectionCounters := fun _ => 18446744073709551615 } :
          Hub SelectionDatasets).mappingDataToLevel = []
    ∧ ∃ s', dataSelectionChanged 5 INPUT
          { fresh ⟨4, [1]⟩ ⟨2, []⟩ ⟨4, []⟩ ⟨4, []⟩ with
            selectionCounters := fun _ => 18446744073709551615 } = .ok s'
        ∧ s'.selectionCounters GLOBAL = 0
        ∧ s'.selectionCounters RECOLOR_IMAGE = 18446744073709551615
        ∧ s'.selectionCounters AVERAGES = 18446744073709551615
        ∧ s'.selectionCounters RECOLOR_IMAGE ≠ s'.selectionCounters GLOBAL :=
  ⟨fun _ => rfl, rfl, _, rfl, rfl, rfl, rfl, by decide⟩

/-- C27 (amended): if the fine-to-coarse map of the hub is empty, a selection event
in INPUT that starts from a state with all counters equal and below 2^64 - 1
leaves `counters[EMBEDDING]` one below `counters[GLOBAL]` while every other counter
equals `counters[GLOBAL]`; in every state with these counters a selection event in
INPUT, RECOLOR_IMAGE or AVERAGES is ignored (the state is returned unchanged), and
a selection event in EMBEDDING brings the counters back in sync, without assigning
the selection of any view. -/
theorem C27_empty_map_stuck (s : Hub SelectionDatasets) (n depth : Nat) (hdepth : 3 ≤ depth)
    (hn : n + 1 < 18446744073709551616) (hsync : ∀ d, s.selectionCounters d = n)
    (hempty : s.mappingDataToLevel = []) :
    ∃ s1, dataSelectionChanged depth INPUT s = .ok s1
      ∧ s1.selectionCounters EMBEDDING + 1 = s1.selectionCounters GLOBAL
      ∧ (∀ d, d ≠ EMBEDDING → s1.selectionCounters d = s1.selectionCounters GLOBAL)
      ∧ s1.selectionCounters GLOBAL = n + 1
      ∧ ∀ (t : Hub SelectionDatasets) (k : Nat),
          (∀ d, t.selectionCounters d = s1.selectionCounters d) →
          dataSelectionChanged (k + 1) INPUT t = .ok t
          ∧ dataSelectionChanged (k + 1) RECOLOR_IMAGE t = .ok t
          ∧ dataSelectionChanged (k + 1) AVERAGES t = .ok t
          ∧ ∃ t', dataSelectionChanged (k + 1) EMBEDDING t = .ok t'
              ∧ (∀ d, t'.selectionCounters d = n + 1)
              ∧ t'.datasets = t.datasets ∧ t'.assigned = t.assigned := by
  obtain ⟨k, rfl⟩ : ∃ k, depth = k + 3 := ⟨depth - 3, by omega⟩
  have hmod : (n + 1) % 18446744073709551616 = n + 1 := Nat.mod_eq_of_lt hn
  have hmain : ∃ s1, dataSelectionChanged (k + 3) INPUT s = .ok s1
      ∧ ∀ d, s1.selectionCounters d = if d = EMBEDDING then n else n + 1 := by
    simp [dataSelectionChanged, onSelectionInInputData, onSelectionInLevelEmbedding,
      onSelectionInColoredByEmb, onSelectionInPixelAverages, enterHandler, areLocksInSync,
      counters, isNotYetHandled, markAsHandled, ifNotYetHandled, copySelection, mapDataToLevel,
      mapLevelToData, setSelection, selectionMapping, selectionMappingLevelToData, hsync, hmod,
      bind, Except.bind, pure, Except.pure, hempty]
    intro d
    cases d <;> simp
  obtain ⟨s1, h1, hc⟩ := hmain
  refine ⟨s1, h1, by simp [hc], fun d hd => by simp [hc, hd], by simp [hc], ?_⟩
  intro t j ht
  have hE : t.selectionCounters EMBEDDING = n := by rw [ht, hc]; simp
  have hG : t.selectionCounters GLOBAL = n + 1 := by rw [ht, hc]; simp
  have hI : t.selectionCounters INPUT = n + 1 := by rw [ht, hc]; simp
  have hR : t.selectionCounters RECOLOR_IMAGE = n + 1 := by rw [ht, hc]; simp
  have hA : t.selectionCounters AVERAGES = n + 1 := by rw [ht, hc]; simp
  have hns : areLocksInSync counters GLOBAL t = false :=
    not_in_sync _ _ refined_counters_complete t ⟨EMBEDDING, by rw [hE, hG]; omega⟩
  refine ⟨?_, ?_, ?_, ?_⟩
  · have := enterHandler_none counters GLOBAL INPUT t hns (by rw [hI, hG]; omega)
    simp [dataSelectionChanged, onSelectionInInputData, this]
  · have := enterHandler_none counters GLOBAL RECOLOR_IMAGE t hns (by rw [hR, hG]; omega)
    simp [dataSelectionChanged, onSelectionInColoredByEmb, this]
  · have := enterHandler_none counters GLOBAL AVERAGES t hns (by rw [hA, hG]; omega)
    simp [dataSelectionChanged, onSelectionInPixelAverages, this]
  · simp [dataSelectionChanged, onSelectionInLevelEmbedding, enterHandler, hns, isNotYetHandled,
      markAsHandled, ifNotYetHandled, hE, hG, hI, hR, hA, hmod, bind, Except.bind, pure,
      Except.pure]
    intro d
    cases d <;> simp [hG, hI, hR, hA]

/-- C27 on a freshly constructed `RefinedSelectionMapping` with pixel 1 selected in
INPUT. -/
theorem C27_empty_map_stuck_witness :
    ∃ s1, dataSelectionChanged 3 INPUT (fresh ⟨4, [1]⟩ ⟨2, []⟩ ⟨4, []⟩ ⟨4, []⟩) = .ok s1
      ∧ s1.selectionCounters EMBEDDING + 1 = s1.selectionCounters GLOBAL
      ∧ (∀ d, d ≠ EMBEDDING → s1.selectionCounters d = s1.selectionCounters GLOBAL)
      ∧ s1.selectionCounters GLOBAL = 0 + 1
      ∧ ∀ (t : Hub SelectionDatasets) (k : Nat),
          (∀ d, t.selectionCounters d = s1.selectionCounters d) →
          dataSelectionChanged (k + 1) INPUT t = .ok t
          ∧ dataSelectionChanged (k + 1) RECOLOR_IMAGE t = .ok t
          ∧ dataSelectionChanged (k + 1) AVERAGES t = .ok t
          ∧ ∃ t', dataSelectionChanged (k + 1) EMBEDDING t = .ok t'
              ∧ (∀ d, t'.selectionCounters d = 0 + 1)
              ∧ t'.datasets = t.datasets ∧ t'.assigned = t.assigned :=
  C27_empty_map_stuck (fresh ⟨4, [1]⟩ ⟨2, []⟩ ⟨4, []⟩ ⟨4, []⟩) 0 3 (by decide) (by decide)
    (fun _ => rfl) rfl

end RefinedSelectionMapping


/-! ## Waves that start in the embedding and in the recolored image -/

theorem mapSuperPixelToPixel_union (data : Points) (map : List (List Nat))
    (hT : SelectionInRange data.selectionIndices map.length)
    (h32 : ∀ fs ∈ map, ∀ f ∈ fs, f < 4294967296) :
    ∃ raw, superPixelLoop map data.selectionIndices = .ok raw
      ∧ mapSuperPixelToPixel data map = .ok (sortAndUnique raw)
      ∧ ∀ x, x ∈ sortAndUnique raw
          ↔ ∃ j ∈ data.selectionIndices, ∃ fs, map[j]? = some fs ∧ x ∈ fs := by
  obtain ⟨raw, hraw, hmem⟩ := superPixelLoop_ok map data.selectionIndices hT
  refine ⟨raw, hraw, ?_, ?_⟩
  · simp only [mapSuperPixelToPixel, hraw]
  · intro x
    rw [mem_sortAndUnique, hmem]
    constructor
    · rintro ⟨j, hj, fs, hfs, f, hf, rfl⟩
      have hf32 : f < 4294967296 := h32 fs (List.getElem?_mem hfs) f hf
      exact ⟨j, hj, fs, hfs, by rw [Nat.mod_eq_of_lt hf32]; exact hf⟩
    · rintro ⟨j, hj, fs, hfs, hx⟩
      have hx32 : x < 4294967296 := h32 fs (List.getElem?_mem hfs) x hx
      exact ⟨j, hj, fs, hfs, x, hx, (Nat.mod_eq_of_lt hx32).symm⟩

theorem expand_union (data : Points) (f2c : List Nat) (c2f : List (List Nat)) (E : List Nat)
    (hnum : data.numPoints < 4294967296) (hlen : f2c.length = data.numPoints)
    (hrange : InRange f2c c2f) (hback : ListedMapsBack f2c c2f)
    (hlisted : MappedIsListed f2c c2f) (h32 : ∀ v ∈ f2c, v < 4294967296)
    (hS : SelectionInRange data.selectionIndices f2c.length)
    (hEm : ∀ x, x ∈ E ↔ ∃ p ∈ data.selectionIndices, ∃ v, f2c[p]? = some v
          ∧ ∃ fs, c2f[v % 4294967296]? = some fs ∧ ∃ f ∈ fs, x = f % 4294967296) :
    (∀ x, x ∈ E ↔ ∃ p ∈ data.selectionIndices, ∃ c fs,
        f2c[p]? = some c ∧ c2f[c]? = some fs ∧ x ∈ fs)
      ∧ ∀ p ∈ data.selectionIndices, p ∈ E := by
  have hunion : ∀ x, x ∈ E ↔ ∃ p ∈ data.selectionIndices, ∃ c fs,
      f2c[p]? = some c ∧ c2f[c]? = some fs ∧ x ∈ fs := by
    intro x
    rw [hEm]
    constructor
    · rintro ⟨p, hp, v, hv, fs, hfs, f, hf, rfl⟩
      have hv32 : v % 4294967296 = v := Nat.mod_eq_of_lt (h32 v (List.getElem?_mem hv))
      rw [hv32] at hfs
      have := listed_facts data f2c c2f hnum hlen hrange hback v fs hfs f hf
      exact ⟨p, hp, v, fs, hv, hfs, by rw [this.2.1]; exact hf⟩
    · rintro ⟨p, hp, c, fs, hc, hfs, hx⟩
      have hc32 : c % 4294967296 = c := Nat.mod_eq_of_lt (h32 c (List.getElem?_mem hc))
      have := listed_facts data f2c c2f hnum hlen hrange hback c fs hfs x hx
      exact ⟨p, hp, c, hc, fs, by rw [hc32]; exact hfs, x, hx, this.2.1.symm⟩
  refine ⟨hunion, ?_⟩
  intro p hp
  rw [hunion]
  have hpl : p < f2c.length := hS p hp
  have hget : f2c[p]? = some f2c[p] := List.getElem?_eq_getElem hpl
  have hcl : f2c[p] < c2f.length := hrange.1 _ (List.getElem_mem _)
  have hget2 : c2f[f2c[p]]? = some c2f[f2c[p]] := List.getElem?_eq_getElem hcl
  refine ⟨p, hp, f2c[p], c2f[f2c[p]], hget, hget2, ?_⟩
  have := hlisted p hpl
  rw [List.getD_eq_getElem?_getD, List.getD_eq_getElem?_getD, hget] at this
  simpa [hget2] using this

namespace SPHPlugin

open SelectionDatasets Hub

/-- C25 as stated fails when the counters are about to wrap: in the initialised
plugin with valid non-empty maps, all counters equal to 2^64 - 1 and embedding
point 1 selected in EMBEDDING, the opening of the handler takes the counters of
GLOBAL and of EMBEDDING to 0 and no view counts as not yet handled any more; INPUT
keeps its empty selection although `mapSuperPixelToPixel` of the selection is
`[1, 3]`. -/
theorem C25_counterexample :
    ValidMaps (example4 18446744073709551615 EMBEDDING)
    ∧ (∀ d, (example4 18446744073709551615 EMBEDDING).selectionCounters d = 18446744073709551615)
    ∧ ((example4 18446744073709551615 EMBEDDING).datasets EMBEDDING).selectionIndices = [1]
    ∧ mapSuperPixelToPixel ((example4 18446744073709551615 EMBEDDING).datasets EMBEDDING)
        (example4 18446744073709551615 EMBEDDING).mappingLevelToData = .ok [1, 3]
    ∧ ∃ s', dataSelectionChanged true 6 EMBEDDING (example4 18446744073709551615 EMBEDDING) = .ok s'
        ∧ s'.selectionCounters GLOBAL = 0
        ∧ s'.selectionCounters EMBEDDING = 0
        ∧ s'.assigned = []
        ∧ (s'.datasets INPUT).selectionIndices = []
        ∧ (s'.datasets RECOLOR_IMAGE).selectionIndices = []
        ∧ (s'.datasets SUPERPIXELS).selectionIndices = []
        ∧ (s'.datasets AVERAGES).selectionIndices = [] :=
  ⟨by decide, fun _ => rfl, rfl, rfl, _, rfl, rfl, rfl, rfl, rfl, rfl, rfl, rfl⟩

/-- C25 (amended): in `SPHPlugin` with valid non-empty maps whose coarse-to-fine
entries are 32-bit pixel indices (the plugin is initialised: the maps are set by
the first level switch, after which `_isInit` is set and never cleared), starting
from a state with all counters equal and below 2^64 - 1, a selection event in
EMBEDDING with an in-range selection `T` returns with INPUT holding
`mapSuperPixelToPixel(T)`, which is the strictly increasing list of the pixels
represented by the selected embedding points, with RECOLOR_IMAGE, SUPERPIXELS and
AVERAGES each holding that same list, and with the dataset of EMBEDDING
unchanged. -/
theorem C25_embedding_wave (s : Hub SelectionDatasets) (n depth : Nat)
    (hdepth : 6 ≤ depth) (hn : n + 1 < 18446744073709551616)
    (hsync : ∀ d, s.selectionCounters d = n) (hvalid : ValidMaps s)
    (h32 : ∀ fs ∈ s.mappingLevelToData, ∀ f ∈ fs, f < 4294967296)
    (hsel : SelectionInRange (s.datasets EMBEDDING).selectionIndices
      (s.datasets EMBEDDING).numPoints) :
    ∃ T', mapSuperPixelToPixel (s.datasets EMBEDDING) s.mappingLevelToData = .ok T'
      ∧ T'.Sorted (fun a b => a < b)
      ∧ (∀ x, x ∈ T' ↔ ∃ j ∈ (s.datasets EMBEDDING).selectionIndices, ∃ fs,
            s.mappingLevelToData[j]? = some fs ∧ x ∈ fs)
      ∧ ∃ s', dataSelectionChanged true depth EMBEDDING s = .ok s'
          ∧ (s'.datasets INPUT).selectionIndices = T'
          ∧ (s'.datasets RECOLOR_IMAGE).selectionIndices = T'
          ∧ (s'.datasets SUPERPIXELS).selectionIndices = T'
          ∧ (s'.datasets AVERAGES).selectionIndices = T'
          ∧ s'.datasets EMBEDDING = s.datasets EMBEDDING := by
  obtain ⟨k, rfl⟩ : ∃ k, depth = k + 6 := ⟨depth - 6, by omega⟩
  obtain ⟨hne1, hne2, hI, hR, hSp, hA, hE, hr⟩ := hvalid
  have hmod : (n + 1) % 18446744073709551616 = n + 1 := Nat.mod_eq_of_lt hn
  have hl1 : ¬ (s.mappingDataToLevel.length = 0) := by rw [List.length_eq_zero]; exact hne1
  have hl2 : ¬ (s.mappingLevelToData.length = 0) := by rw [List.length_eq_zero]; exact hne2
  rw [hE] at hsel
  obtain ⟨raw, hraw, hmap, hmem⟩ := mapSuperPixelToPixel_union _ _ hsel h32
  refine ⟨sortAndUnique raw, hmap, sortAndUnique_sorted raw, hmem, ?_⟩
  simp [dataSelectionChanged, onSelectionInInputData, onSelectionInEmbedding,
    onSelectionInImgColoredByEmb, onSelectionInSuperPixelComponents,
    onSelectionInPixelAverages, enterHandler, areLocksInSync, counters, isNotYetHandled,
    markAsHandled, ifNotYetHandled, copySelection, mapDataToLevel, mapLevelToData,
    setSelection, selectionMapping, selectionMappingLevelToData, mapPixelToSuperPixel,
    mapSuperPixelToPixel, hsync, hmod, bind, Except.bind, pure, Except.pure, hl1, hl2, hI, hR,
    hSp, hA, hE, hraw]

/-- C25 on the four-pixel plugin state with embedding point 1 selected. -/
theorem C25_embedding_wave_witness :
    ∃ T', mapSuperPixelToPixel ((example4 7 EMBEDDING).datasets EMBEDDING)
        (example4 7 EMBEDDING).mappingLevelToData = .ok T'
      ∧ T'.Sorted (fun a b => a < b)
      ∧ (∀ x, x ∈ T' ↔ ∃ j ∈ ((example4 7 EMBEDDING).datasets EMBEDDING).selectionIndices,
            ∃ fs, (example4 7 EMBEDDING).mappingLevelToData[j]? = some fs ∧ x ∈ fs)
      ∧ ∃ s', dataSelectionChanged true 6 EMBEDDING (example4 7 EMBEDDING) = .ok s'
          ∧ (s'.datasets INPUT).selectionIndices = T'
          ∧ (s'.datasets RECOLOR_IMAGE).selectionIndices = T'
          ∧ (s'.datasets SUPERPIXELS).selectionIndices = T'
          ∧ (s'.datasets AVERAGES).selectionIndices = T'
          ∧ s'.datasets EMBEDDING = (example4 7 EMBEDDING).datasets EMBEDDING :=
  C25_embedding_wave (example4 7 EMBEDDING) 7 6 (by decide) (by decide) (fun _ => rfl)
    (by decide) (by decide) (by decide)

/-- C26 as stated fails when the counters are about to wrap: in the initialised
plugin with valid, mutually consistent, non-empty maps, all counters equal to
2^64 - 1 and pixel 3 selected in RECOLOR_IMAGE, the opening of the handler takes
the counters of GLOBAL and of RECOLOR_IMAGE to 0 and no view counts as not yet
handled any more; EMBEDDING and INPUT keep their empty selections although the
selection maps to `[1]` and expands to `[1, 3]`. -/
theorem C26_counterexample :
    ValidMaps (example4 18446744073709551615 RECOLOR_IMAGE)
    ∧ InRange (example4 18446744073709551615 RECOLOR_IMAGE).mappingDataToLevel
        (example4 18446744073709551615 RECOLOR_IMAGE).mappingLevelToData
    ∧ ListedMapsBack (example4 18446744073709551615 RECOLOR_IMAGE).mappingDataToLevel
        (example4 18446744073709551615 RECOLOR_IMAGE).mappingLevelToData
    ∧ MappedIsListed (example4 18446744073709551615 RECOLOR_IMAGE).mappingDataToLevel
        (example4 18446744073709551615 RECOLOR_IMAGE).mappingLevelToData
    ∧ (∀ d, (example4 18446744073709551615 RECOLOR_IMAGE).selectionCounters d = 18446744073709551615)
    ∧ ((example4 18446744073709551615 RECOLOR_IMAGE).datasets RECOLOR_IMAGE).selectionIndices = [3]
    ∧ mapPixelToSuperPixel ((example4 18446744073709551615 RECOLOR_IMAGE).datasets RECOLOR_IMAGE)
        (example4 18446744073709551615 RECOLOR_IMAGE).mappingDataToLevel = .ok [1]
    ∧ expandPixelToSuperpixelSelection
        ((example4 18446744073709551615 RECOLOR_IMAGE).datasets RECOLOR_IMAGE)
        (example4 18446744073709551615 RECOLOR_IMAGE).mappingDataToLevel
        (example4 18446744073709551615 RECOLOR_IMAGE).mappingLevelToData = .ok [1, 3]
    ∧ ∃ s', dataSelectionChanged true 6 RECOLOR_IMAGE (example4 18446744073709551615 RECOLOR_IMAGE) = .ok s'
        ∧ s'.selectionCounters GLOBAL = 0
        ∧ s'.selectionCounters RECOLOR_IMAGE = 0
        ∧ s'.assigned = []
        ∧ (s'.datasets EMBEDDING).selectionIndices = []
        ∧ (s'.datasets INPUT).selectionIndices = []
        ∧ (s'.datasets SUPERPIXELS).selectionIndices = []
        ∧ (s'.datasets AVERAGES).selectionIndices = [] :=
  ⟨by decide, by decide, by decide, by decide, fun _ => rfl, rfl, rfl, rfl, _, rfl, rfl, rfl,
    rfl, rfl, rfl, rfl, rfl⟩

/-- C26 (amended): in `SPHPlugin` with valid, mutually consistent, non-empty maps
(the plugin is initialised: the maps are set by the first level switch, after
which `_isInit` is set and never cleared; the point counts of the image and of the
embedding are 32-bit counts), starting from a state with all counters equal and
below 2^64 - 1, a selection event in RECOLOR_IMAGE with an in-range pixel selection
`S` selects all pixels that belong to the superpixels of the selected pixels: it
returns with EMBEDDING holding `mapPixelToSuperPixel(S)`, with INPUT holding
`expandPixelToSuperpixelSelection(S)`, whose elements are exactly the pixels
listed under the coarse nodes of the pixels of `S` and include `S`, with
SUPERPIXELS and AVERAGES holding the same selection as INPUT, and with the dataset
of RECOLOR_IMAGE unchanged. -/
theorem C26_recolor_wave (s : Hub SelectionDatasets) (n depth : Nat)
    (hdepth : 6 ≤ depth) (hn : n + 1 < 18446744073709551616)
    (hsync : ∀ d, s.selectionCounters d = n) (hvalid : ValidMaps s)
    (hnum : (s.datasets RECOLOR_IMAGE).numPoints < 4294967296)
    (hrange : InRange s.mappingDataToLevel s.mappingLevelToData)
    (hback : ListedMapsBack s.mappingDataToLevel s.mappingLevelToData)
    (hlisted : MappedIsListed s.mappingDataToLevel s.mappingLevelToData)
    (hemb : (s.datasets EMBEDDING).numPoints < 4294967296)
    (hsel : SelectionInRange (s.datasets RECOLOR_IMAGE).selectionIndices
      (s.datasets RECOLOR_IMAGE).numPoints) :
    ∃ M E, mapPixelToSuperPixel (s.datasets RECOLOR_IMAGE) s.mappingDataToLevel = .ok M
      ∧ expandPixelToSuperpixelSelection (s.datasets RECOLOR_IMAGE) s.mappingDataToLevel
          s.mappingLevelToData = .ok E
      ∧ (∀ x, x ∈ E ↔ ∃ p ∈ (s.datasets RECOLOR_IMAGE).selectionIndices, ∃ c fs,
            s.mappingDataToLevel[p]? = some c ∧ s.mappingLevelToData[c]? = some fs ∧ x ∈ fs)
      ∧ (∀ p ∈ (s.datasets RECOLOR_IMAGE).selectionIndices, p ∈ E)
      ∧ ∃ s', dataSelectionChanged true depth RECOLOR_IMAGE s = .ok s'
          ∧ (s'.datasets EMBEDDING).selectionIndices = M
          ∧ (s'.datasets INPUT).selectionIndices = E
          ∧ (s'.datasets SUPERPIXELS).selectionIndices = E
          ∧ (s'.datasets AVERAGES).selectionIndices = E
          ∧ s'.datasets RECOLOR_IMAGE = s.datasets RECOLOR_IMAGE := by
  obtain ⟨k, rfl⟩ : ∃ k, depth = k + 6 := ⟨depth - 6, by omega⟩
  obtain ⟨hne1, hne2, hI, hR, hSp, hA, hE, hr⟩ := hvalid
  have hmod : (n + 1) % 18446744073709551616 = n + 1 := Nat.mod_eq_of_lt hn
  have hl1 : ¬ (s.mappingDataToLevel.length = 0) := by rw [List.length_eq_zero]; exact hne1
  have hl2 : ¬ (s.mappingLevelToData.length = 0) := by rw [List.length_eq_zero]; exact hne2
  have hne : ¬ (s.mappingDataToLevel.length = 0 ∨ s.mappingLevelToData.length = 0) := by
    simp only [not_or]; exact ⟨hl1, hl2⟩
  have h32 : ∀ v ∈ s.mappingDataToLevel, v < 4294967296 := fun v hv =>
    lt_trans (hr v hv) (by rw [← hE]; exact hemb)
  rw [hR] at hsel
  obtain ⟨raw, hraw, hmem⟩ := pixelLoop_ok _ _ hsel
  obtain ⟨raw2, hraw2, -⟩ := superPixelLoop_ok s.mappingLevelToData _
    (sortAndUnique_pixel_inRange _ _ _ raw hmem hr)
  obtain ⟨E, hEeq, -, hEm⟩ := expand_ok (s.datasets RECOLOR_IMAGE) _ _ hne hR.symm hr hsel
  have hEval : expandPixelToSuperpixelSelection (s.datasets RECOLOR_IMAGE) s.mappingDataToLevel
      s.mappingLevelToData = .ok (sortAndUnique raw2) := by
    simp [expandPixelToSuperpixelSelection, hl1, hl2, hR, mapPixelToSuperPixel, hraw, hraw2]
  have hEE : E = sortAndUnique raw2 := by
    rw [hEval] at hEeq
    cases hEeq; rfl
  subst hEE
  have hU := expand_union (s.datasets RECOLOR_IMAGE) _ _ _ hnum hR.symm hrange hback hlisted h32
    hsel hEm
  refine ⟨sortAndUnique raw, sortAndUnique raw2, by simp only [mapPixelToSuperPixel, hraw],
    hEval, hU.1, hU.2, ?_⟩
  simp [dataSelectionChanged, onSelectionInInputData, onSelectionInEmbedding,
    onSelectionInImgColoredByEmb, onSelectionInSuperPixelComponents,
    onSelectionInPixelAverages, enterHandler, areLocksInSync, counters, isNotYetHandled,
    markAsHandled, ifNotYetHandled, copySelection, mapDataToLevel, mapLevelToData,
    setSelection, selectionMapping, selectionMappingLevelToData, mapPixelToSuperPixel,
    mapSuperPixelToPixel, hsync, hmod, bind, Except.bind, pure, Except.pure, hl1, hl2, hI, hR,
    hSp, hA, hE, hraw, hraw2]

/-- C26 on the four-pixel plugin state with pixel 3 selected in RECOLOR_IMAGE. -/
theorem C26_recolor_wave_witness :
    ∃ M E, mapPixelToSuperPixel ((example4 7 RECOLOR_IMAGE).datasets RECOLOR_IMAGE)
        (example4 7 RECOLOR_IMAGE).mappingDataToLevel = .ok M
      ∧ expandPixelToSuperpixelSelection ((example4 7 RECOLOR_IMAGE).datasets RECOLOR_IMAGE)
          (example4 7 RECOLOR_IMAGE).mappingDataToLevel
          (example4 7 RECOLOR_IMAGE).mappingLevelToData = .ok E
      ∧ (∀ x, x ∈ E ↔ ∃ p ∈ ((example4 7 RECOLOR_IMAGE).datasets RECOLOR_IMAGE).selectionIndices,
            ∃ c fs, (example4 7 RECOLOR_IMAGE).mappingDataToLevel[p]? = some c
              ∧ (example4 7 RECOLOR_IMAGE).mappingLevelToData[c]? = some fs ∧ x ∈ fs)
      ∧ (∀ p ∈ ((example4 7 RECOLOR_IMAGE).datasets RECOLOR_IMAGE).selectionIndices, p ∈ E)
      ∧ ∃ s', dataSelectionChanged true 6 RECOLOR_IMAGE (example4 7 RECOLOR_IMAGE) = .ok s'
          ∧ (s'.datasets EMBEDDING).selectionIndices = M
          ∧ (s'.datasets INPUT).selectionIndices = E
          ∧ (s'.datasets SUPERPIXELS).selectionIndices = E
          ∧ (s'.datasets AVERAGES).selectionIndices = E
          ∧ s'.datasets RECOLOR_IMAGE = (example4 7 RECOLOR_IMAGE).datasets RECOLOR_IMAGE :=
  C26_recolor_wave (example4 7 RECOLOR_IMAGE) 7 6 (by decide) (by decide) (fun _ => rfl)
    (by decide) (by decide) (by decide) (by decide) (by decide) (by decide) (by decide)

end SPHPlugin


/-! ## The busy flag and the `started` notification -/

namespace EmbedWorker

end EmbedWorker

namespace SPHPlugin

end SPHPlugin


/-! ## The selection maps of a refined embedding -/

namespace RefineAction

theorem fillCurrentToRefinedIDs_eq :
    ∀ (ids : List Nat) (start : Nat) (hash : Nat → Option Nat) (key : Nat), ids.Nodup →
      fillCurrentToRefinedIDs ids start hash key
        = if key ∈ ids then some (start + ids.indexOf key) else hash key := by
  intro ids
  induction ids with
  | nil => intro start hash key _; simp [fillCurrentToRefinedIDs]
  | cons id rest ih =>
    intro start hash key hnd
    rw [List.nodup_cons] at hnd
    rw [fillCurrentToRefinedIDs, ih _ _ _ hnd.2]
    by_cases hk : key = id
    · subst hk
      simp [hnd.1]
    · have hne : id ≠ key := fun e => hk e.symm
      by_cases hm : key ∈ rest
      · simp only [hm, if_true, List.mem_cons, or_true, List.indexOf_cons_ne _ hne]
        congr 1
        omega
      · simp [hm, hk]

theorem currentToRefinedIDs_getElem (ids : List Nat) (hnd : ids.Nodup) (i : Nat)
    (hi : i < ids.length) : currentToRefinedIDs ids ids[i] = i := by
  unfold currentToRefinedIDs
  rw [fillCurrentToRefinedIDs_eq ids 0 _ _ hnd, if_pos (List.getElem_mem _),
    List.indexOf_getElem hnd i hi]
  simp

theorem fillMapLevelToData_ok (c2f : List (List Nat)) :
    ∀ ids : List Nat, (∀ id ∈ ids, id < c2f.length) →
      fillMapLevelToData c2f ids = .ok (ids.map (fun id => c2f.getD id [])) := by
  intro ids
  induction ids with
  | nil => intro _; rfl
  | cons id rest ih =>
    intro h
    have hid : id < c2f.length := h id (List.mem_cons_self _ _)
    have hget : c2f[id]? = some c2f[id] := List.getElem?_eq_getElem hid
    simp only [fillMapLevelToData, hget, ih (fun j hj => h j (List.mem_cons_of_mem _ hj)),
      List.map_cons, List.getD_eq_getElem?_getD, Option.getD_some]

theorem writePixels_ok (f2c ids : List Nat) :
    ∀ (pixels m : List Nat), (∀ p ∈ pixels, p < f2c.length ∧ p < m.length) →
      ∃ m', writePixels f2c ids pixels m = .ok m' ∧ m'.length = m.length
        ∧ ∀ q, m'[q]? = if q ∈ pixels ∧ q < m.length then
            some (currentToRefinedIDs ids (f2c.getD q 0)) else m[q]? := by
  intro pixels
  induction pixels with
  | nil => intro m _; exact ⟨m, rfl, rfl, by simp⟩
  | cons p rest ih =>
    intro m h
    obtain ⟨hp1, hp2⟩ := h p (List.mem_cons_self _ _)
    have hget : f2c[p]? = some f2c[p] := List.getElem?_eq_getElem hp1
    obtain ⟨m', hm', hlen, hval⟩ := ih (m.set p (currentToRefinedIDs ids f2c[p]))
      (fun q hq => by
        rw [List.length_set]
        exact h q (List.mem_cons_of_mem _ hq))
    rw [List.length_set] at hlen
    refine ⟨m', ?_, hlen, ?_⟩
    · simp only [writePixels, hget, hp2, if_true, hm']
    · intro q
      rw [hval q, List.length_set, List.getElem?_set]
      by_cases hqr : q ∈ rest
      · by_cases hql : q < m.length
        · simp [hqr, hql]
        · have : m[q]? = none := List.getElem?_eq_none (by omega)
          have hpq : ¬ (p = q) := by omega
          simp [hql, hpq]
      · by_cases hpq : p = q
        · subst hpq
          simp [hqr, hp2, List.getD_eq_getElem?_getD, hget]
        · have hqp : ¬ (q = p) := fun e => hpq e.symm
          simp [hqr, hpq, hqp]

theorem writeNodes_ok (f2c : List Nat) (c2f : List (List Nat)) (ids : List Nat) :
    ∀ (nodes m : List Nat), (∀ c ∈ nodes, c < c2f.length) →
      (∀ c ∈ nodes, ∀ p ∈ c2f.getD c [], p < f2c.length ∧ p < m.length) →
      ∃ m', writeNodes f2c c2f ids nodes m = .ok m' ∧ m'.length = m.length
        ∧ ∀ q, m'[q]? = if (∃ c ∈ nodes, q ∈ c2f.getD c []) ∧ q < m.length then
            some (currentToRefinedIDs ids (f2c.getD q 0)) else m[q]? := by
  intro nodes
  induction nodes with
  | nil => intro m _ _; exact ⟨m, rfl, rfl, by simp⟩
  | cons c rest ih =>
    intro m hc hp
    have hcl : c < c2f.length := hc c (List.mem_cons_self _ _)
    have hget : c2f[c]? = some c2f[c] := List.getElem?_eq_getElem hcl
    have hgd : c2f.getD c [] = c2f[c] := by
      rw [List.getD_eq_getElem?_getD, hget]; rfl
    obtain ⟨m1, hm1, hlen1, hval1⟩ := writePixels_ok f2c ids c2f[c] m
      (fun p hpm => hp c (List.mem_cons_self _ _) p (by rw [hgd]; exact hpm))
    obtain ⟨m', hm', hlen, hval⟩ := ih m1 (fun d hd => hc d (List.mem_cons_of_mem _ hd))
      (fun d hd p hpm => by
        rw [hlen1]
        exact hp d (List.mem_cons_of_mem _ hd) p hpm)
    refine ⟨m', ?_, by rw [hlen, hlen1], ?_⟩
    · simp only [writeNodes, hget, hm1, hm']
    · intro q
      rw [hval q, hval1 q, hlen1]
      by_cases hql : q < m.length
      · by_cases h1 : ∃ d ∈ rest, q ∈ c2f.getD d []
        · have h2 : ∃ d ∈ c :: rest, q ∈ c2f.getD d [] := by
            obtain ⟨d, hd, hq⟩ := h1
            exact ⟨d, List.mem_cons_of_mem _ hd, hq⟩
          rw [if_pos ⟨h1, hql⟩, if_pos ⟨h2, hql⟩]
        · by_cases h3 : q ∈ c2f[c]
          · have h2 : ∃ d ∈ c :: rest, q ∈ c2f.getD d [] :=
              ⟨c, List.mem_cons_self _ _, by rw [hgd]; exact h3⟩
            rw [if_neg (fun h => h1 h.1), if_pos ⟨h3, hql⟩, if_pos ⟨h2, hql⟩]
          · have h2 : ¬ ∃ d ∈ c :: rest, q ∈ c2f.getD d [] := by
              rintro ⟨d, hd, hq⟩
              rcases List.mem_cons.1 hd with rfl | hd
              · rw [hgd] at hq; exact h3 hq
              · exact h1 ⟨d, hd, hq⟩
            rw [if_neg (fun h => h1 h.1), if_neg (fun h => h3 h.1), if_neg (fun h => h2 h.1)]
      · rw [if_neg (fun h => hql h.2), if_neg (fun h => hql h.2), if_neg (fun h => hql h.2)]

end RefineAction


namespace RefineAction

theorem getElem?_map_getD (c2f : List (List Nat)) (ids : List Nat) (i : Nat)
    (pixels : List Nat) :
    (ids.map (fun id => c2f.getD id []))[i]? = some pixels
      ↔ ∃ hi : i < ids.length, pixels = c2f.getD ids[i] [] := by
  rw [List.getElem?_map]
  constructor
  · intro h
    cases hget : ids[i]? with
    | none => rw [hget] at h; cases h
    | some c =>
      rw [hget] at h
      obtain ⟨hi, hc⟩ := List.getElem?_eq_some.1 hget
      refine ⟨hi, ?_⟩
      rw [hc]
      simpa using h.symm
  · rintro ⟨hi, rfl⟩
    rw [List.getElem?_eq_getElem hi]
    rfl

/-- The consistency of the two maps, from what the writes have left in
`mapDataToLevel` and how the written pixels relate to the extracted nodes. -/
theorem maps_consistent (f2c : List Nat) (c2f : List (List Nat)) (ids md : List Nat)
    (numImagePoints : Nat) (W : Nat → Prop) (hnd : ids.Nodup) (hsize : ids.length < UINT64_MAX)
    (hlen : md.length = numImagePoints)
    (hval1 : ∀ q, W q → q < numImagePoints →
      md[q]? = some (currentToRefinedIDs ids (f2c.getD q 0)))
    (hval2 : ∀ q, ¬ W q → q < numImagePoints → md[q]? = some UINT64_MAX)
    (hB : ∀ q, W q → ∃ i, ∃ hi : i < ids.length,
      ids[i] = f2c.getD q 0 ∧ q ∈ c2f.getD ids[i] [])
    (hC : ∀ i (hi : i < ids.length), ∀ p ∈ c2f.getD ids[i] [],
      W p ∧ f2c.getD p 0 = ids[i] ∧ p < numImagePoints) :
    (∀ (i : Nat) (pixels : List Nat),
        (ids.map (fun id => c2f.getD id []))[i]? = some pixels →
        ∀ p ∈ pixels, md[p]? = some i)
    ∧ (∀ (p v : Nat), md[p]? = some v → v ≠ UINT64_MAX →
        ∃ pixels, (ids.map (fun id => c2f.getD id []))[v]? = some pixels ∧ p ∈ pixels)
    ∧ (∀ p, p < numImagePoints →
        (md[p]? = some UINT64_MAX
          ↔ ∀ (i : Nat) (pixels : List Nat),
              (ids.map (fun id => c2f.getD id []))[i]? = some pixels → p ∉ pixels))
    ∧ (∀ p, p < numImagePoints →
        ((md.map (fun v => if v = UINT64_MAX then 0 else 255))[p]? = some 0
          ↔ md[p]? = some UINT64_MAX)) := by
  have hvalW : ∀ q, W q → ∃ i, ∃ hi : i < ids.length,
      currentToRefinedIDs ids (f2c.getD q 0) = i ∧ q ∈ c2f.getD ids[i] [] := by
    intro q hq
    obtain ⟨i, hi, he, hm⟩ := hB q hq
    exact ⟨i, hi, by rw [← he]; exact currentToRefinedIDs_getElem ids hnd i hi, hm⟩
  refine ⟨?_, ?_, ?_, ?_⟩
  · intro i pixels hpx p hp
    obtain ⟨hi, rfl⟩ := (getElem?_map_getD c2f ids i pixels).1 hpx
    obtain ⟨hW, hf, hpP⟩ := hC i hi p hp
    rw [hval1 p hW hpP, hf, currentToRefinedIDs_getElem ids hnd i hi]
  · intro p v hv hne
    have hpP : p < numImagePoints := by
      rw [← hlen]
      exact (List.getElem?_eq_some.1 hv).1
    by_cases hW : W p
    · obtain ⟨i, hi, hcur, hm⟩ := hvalW p hW
      rw [hval1 p hW hpP, hcur] at hv
      have hiv : i = v := by injection hv
      subst hiv
      exact ⟨_, (getElem?_map_getD c2f ids i _).2 ⟨hi, rfl⟩, hm⟩
    · rw [hval2 p hW hpP] at hv
      cases hv
      exact absurd rfl hne
  · intro p hpP
    constructor
    · intro hmax i pixels hpx hp
      obtain ⟨hi, rfl⟩ := (getElem?_map_getD c2f ids i pixels).1 hpx
      obtain ⟨hW, -, -⟩ := hC i hi p hp
      obtain ⟨j, hj, hcur, -⟩ := hvalW p hW
      rw [hval1 p hW hpP, hcur] at hmax
      cases hmax
      omega
    · intro hnone
      by_cases hW : W p
      · obtain ⟨i, hi, -, hm⟩ := hvalW p hW
        exact absurd hm (hnone i _ ((getElem?_map_getD c2f ids i _).2 ⟨hi, rfl⟩))
      · exact hval2 p hW hpP
  · intro p hpP
    rw [List.getElem?_map]
    have hpl : p < md.length := by rw [hlen]; exact hpP
    rw [List.getElem?_eq_getElem hpl]
    simp only [Option.map_some', Option.some.injEq]
    constructor
    · intro h
      split_ifs at h with hv
      exact hv
    · intro h
      rw [h]
      rfl

end RefineAction


namespace RefineAction

/-- The expanded selection is made of in-range pixels and holds, with a pixel, every
pixel listed under the same coarse node. -/
theorem expand_closed (data : Points) (f2c : List Nat) (c2f : List (List Nat)) (E : List Nat)
    (hnum : data.numPoints < 4294967296) (hlen : f2c.length = data.numPoints)
    (hrange : InRange f2c c2f) (hback : ListedMapsBack f2c c2f)
    (hS : SelectionInRange data.selectionIndices f2c.length)
    (hE : expandPixelToSuperpixelSelection data f2c c2f = .ok E) :
    (∀ x ∈ E, x < f2c.length)
    ∧ (∀ x ∈ E, ∀ c fs, f2c[x]? = some c → c2f[c]? = some fs → ∀ p ∈ fs, p ∈ E) := by
  by_cases hne : f2c.length = 0 ∨ c2f.length = 0
  · unfold expandPixelToSuperpixelSelection at hE
    rw [if_pos hne] at hE
    cases hE
    exact ⟨fun x hx => (by cases hx), fun x hx => (by cases hx)⟩
  · obtain ⟨E', hE', -, hEm⟩ := expand_ok data f2c c2f hne hlen hrange.1 hS
    rw [hE] at hE'
    cases hE'
    constructor
    · intro x hx
      obtain ⟨p, hp, v, hv, fs, hfs, f, hf, rfl⟩ := (hEm x).1 hx
      have := listed_facts data f2c c2f hnum hlen hrange hback _ fs hfs f hf
      omega
    · intro x hx c fs hc hfs q hq
      obtain ⟨p, hp, v, hv, fs0, hfs0, f, hf, rfl⟩ := (hEm x).1 hx
      have hfacts := listed_facts data f2c c2f hnum hlen hrange hback _ fs0 hfs0 f hf
      rw [hfacts.2.1, hfacts.2.2] at hc
      have hcc : v % 4294967296 = c := Option.some.inj hc
      rw [hcc] at hfs0
      have hff : fs0 = fs := by
        rw [hfs0] at hfs
        exact Option.some.inj hfs
      rw [← hcc] at hfs0
      rw [← hff] at hq
      have hq2 := listed_facts data f2c c2f hnum hlen hrange hback _ fs0 hfs0 q hq
      exact (hEm q).2 ⟨p, hp, v, hv, fs0, hfs0, q, hq, hq2.2.1.symm⟩

/-- C29: the two mapping arrays that `RefineAction::refine` builds for a refined
embedding are mutually consistent. For in-range, mutually consistent maps of the
refined level, an in-range pixel selection, and an extracted id list without
duplicates whose ids are nodes of the refined level (and which, for an exact
refinement, is the list of the selected refined-level ids), the block returns maps
such that: for every new embedding index `i` and every pixel `p` of
`mapLevelToData[i]`, `mapDataToLevel[p] = i`; every pixel whose entry is not the
sentinel lies in `mapLevelToData` at that entry; the pixels that keep the sentinel
are exactly those listed under no new embedding index, and exactly those with mask
value 0. -/
theorem C29_refined_maps_consistent (exactRefinement : Bool) (data : Points)
    (f2c : List Nat) (c2f : List (List Nat)) (E ids : List Nat)
    (hnum : data.numPoints < 4294967296) (hlen : f2c.length = data.numPoints)
    (hrange : InRange f2c c2f) (hback : ListedMapsBack f2c c2f)
    (hlisted : MappedIsListed f2c c2f)
    (hS : SelectionInRange data.selectionIndices f2c.length)
    (hE : expandPixelToSuperpixelSelection data f2c c2f = .ok E)
    (hnd : ids.Nodup) (hids : ∀ id ∈ ids, id < c2f.length) (hsize : ids.length < UINT64_MAX)
    (hexact : exactRefinement = true →
      ∃ nodes, lookupLoop f2c E = .ok nodes ∧ ids = sortAndUnique nodes) :
    ∃ m, selectionMaps exactRefinement data.numPoints f2c c2f E ids = .ok m
      ∧ m.mapLevelToData.length = ids.length
      ∧ m.mapDataToLevel.length = data.numPoints
      ∧ m.imageMask.length = data.numPoints
      ∧ (∀ (i : Nat) (pixels : List Nat), m.mapLevelToData[i]? = some pixels →
          ∀ p ∈ pixels, m.mapDataToLevel[p]? = some i)
      ∧ (∀ (p v : Nat), m.mapDataToLevel[p]? = some v → v ≠ UINT64_MAX →
          ∃ pixels, m.mapLevelToData[v]? = some pixels ∧ p ∈ pixels)
      ∧ (∀ p, p < data.numPoints →
          (m.mapDataToLevel[p]? = some UINT64_MAX
            ↔ ∀ (i : Nat) (pixels : List Nat), m.mapLevelToData[i]? = some pixels →
                p ∉ pixels))
      ∧ (∀ p, p < data.numPoints →
          (m.imageMask[p]? = some 0 ↔ m.mapDataToLevel[p]? = some UINT64_MAX)) := by
  obtain ⟨hEr, hEc⟩ := expand_closed data f2c c2f E hnum hlen hrange hback hS hE
  have hml := fillMapLevelToData_ok c2f ids hids
  have hreplen : (List.replicate data.numPoints UINT64_MAX).length = data.numPoints :=
    List.length_replicate _ _
  have hrep : ∀ q, q < data.numPoints →
      (List.replicate data.numPoints UINT64_MAX)[q]? = some UINT64_MAX := by
    intro q hq
    rw [List.getElem?_replicate, if_pos hq]
  have hgetD : ∀ c, c < c2f.length → c2f[c]? = some (c2f.getD c []) := by
    intro c hc
    rw [List.getD_eq_getElem?_getD, List.getElem?_eq_getElem hc]
    rfl
  have hpix : ∀ c, c < c2f.length → ∀ p ∈ c2f.getD c [],
      p < f2c.length ∧ f2c.getD p 0 = c := by
    intro c hc p hp
    have h1 := hrange.2 _ (List.getElem?_mem (hgetD c hc)) p hp
    have h2 := hback c hc p hp
    refine ⟨h1, ?_⟩
    rw [List.getD_eq_getElem?_getD, h2]
    rfl
  cases hex : exactRefinement with
  | true =>
    obtain ⟨nodes, hnodes, hidsEq⟩ := hexact hex
    obtain ⟨out, hout, hmemOut⟩ := lookupLoop_ok f2c E hEr
    rw [hnodes] at hout
    cases hout
    have hmemIds : ∀ c, c ∈ ids ↔ ∃ x ∈ E, f2c[x]? = some c := by
      intro c
      rw [hidsEq, mem_sortAndUnique, hmemOut]
    obtain ⟨md, hmd, hmdlen, hmdval⟩ := writePixels_ok f2c ids E
      (List.replicate data.numPoints UINT64_MAX)
      (fun p hp => ⟨hEr p hp, by rw [hreplen, ← hlen]; exact hEr p hp⟩)
    rw [hreplen] at hmdlen hmdval
    have hcons := maps_consistent f2c c2f ids md data.numPoints (fun q => q ∈ E) hnd hsize
      hmdlen
      (fun q hq hqP => by rw [hmdval q, if_pos ⟨hq, hqP⟩])
      (fun q hq hqP => by rw [hmdval q, if_neg (fun h => hq h.1)]; exact hrep q hqP)
      (fun q hq => by
        have hql := hEr q hq
        have hget : f2c[q]? = some f2c[q] := List.getElem?_eq_getElem hql
        have hin : f2c[q] ∈ ids := (hmemIds _).2 ⟨q, hq, hget⟩
        obtain ⟨i, hi, hie⟩ := List.mem_iff_getElem.1 hin
        refine ⟨i, hi, ?_, ?_⟩
        · rw [hie, List.getD_eq_getElem?_getD, hget]; rfl
        · rw [hie]
          have := hlisted q hql
          rw [List.getD_eq_getElem?_getD f2c, hget] at this
          exact this)
      (fun i hi p hp => by
        have hc : ids[i] < c2f.length := hids _ (List.getElem_mem _)
        obtain ⟨x, hx, hxc⟩ := (hmemIds ids[i]).1 (List.getElem_mem _)
        have hpE : p ∈ E := hEc x hx ids[i] _ hxc (hgetD _ hc) p hp
        have := hpix ids[i] hc p hp
        exact ⟨hpE, this.2, by rw [← hlen]; exact this.1⟩)
    refine ⟨{ mapLevelToData := ids.map (fun id => c2f.getD id [])
              mapDataToLevel := md
              imageMask := md.map (fun v => if v = UINT64_MAX then 0 else 255) }, ?_, ?_, hmdlen,
      ?_, hcons⟩
    · simp only [selectionMaps, hml, if_true, hmd]
    · simp
    · simp [hmdlen]
  | false =>
    obtain ⟨md, hmd, hmdlen, hmdval⟩ := writeNodes_ok f2c c2f ids ids
      (List.replicate data.numPoints UINT64_MAX) hids
      (fun c hc p hp => by
        have := hpix c (hids c hc) p hp
        exact ⟨this.1, by rw [hreplen, ← hlen]; exact this.1⟩)
    rw [hreplen] at hmdlen hmdval
    have hcons := maps_consistent f2c c2f ids md data.numPoints
      (fun q => ∃ c ∈ ids, q ∈ c2f.getD c []) hnd hsize hmdlen
      (fun q hq hqP => by rw [hmdval q, if_pos ⟨hq, hqP⟩])
      (fun q hq hqP => by rw [hmdval q, if_neg (fun h => hq h.1)]; exact hrep q hqP)
      (fun q hq => by
        obtain ⟨c, hc, hqc⟩ := hq
        obtain ⟨i, hi, hie⟩ := List.mem_iff_getElem.1 hc
        have := hpix c (hids c hc) q hqc
        refine ⟨i, hi, ?_, ?_⟩
        · rw [hie, this.2]
        · rw [hie]; exact hqc)
      (fun i hi p hp => by
        have hc : ids[i] < c2f.length := hids _ (List.getElem_mem _)
        have := hpix ids[i] hc p hp
        exact ⟨⟨ids[i], List.getElem_mem _, hp⟩, this.2, by rw [← hlen]; exact this.1⟩)
    refine ⟨{ mapLevelToData := ids.map (fun id => c2f.getD id [])
              mapDataToLevel := md
              imageMask := md.map (fun v => if v = UINT64_MAX then 0 else 255) }, ?_, ?_, hmdlen,
      ?_, hcons⟩
    · simp only [selectionMaps, hml, Bool.false_eq_true, if_false, hmd]
    · simp
    · simp [hmdlen]

end RefineAction


namespace RefineAction

/-- C29 on level 1 of the three-level hierarchy with pixel 0 selected and an exact
refinement: the expanded selection is `[0, 1]` and the extracted ids are `[0]`. -/
theorem C29_refined_maps_consistent_witness :
    ∃ m, selectionMaps true (⟨4, [0]⟩ : Points).numPoints [0, 0, 1, 1] [[0, 1], [2, 3]] [0, 1] [0]
        = .ok m
      ∧ m.mapLevelToData.length = [0].length
      ∧ m.mapDataToLevel.length = (⟨4, [0]⟩ : Points).numPoints
      ∧ m.imageMask.length = (⟨4, [0]⟩ : Points).numPoints
      ∧ (∀ (i : Nat) (pixels : List Nat), m.mapLevelToData[i]? = some pixels →
          ∀ p ∈ pixels, m.mapDataToLevel[p]? = some i)
      ∧ (∀ (p v : Nat), m.mapDataToLevel[p]? = some v → v ≠ UINT64_MAX →
          ∃ pixels, m.mapLevelToData[v]? = some pixels ∧ p ∈ pixels)
      ∧ (∀ p, p < (⟨4, [0]⟩ : Points).numPoints →
          (m.mapDataToLevel[p]? = some UINT64_MAX
            ↔ ∀ (i : Nat) (pixels : List Nat), m.mapLevelToData[i]? = some pixels →
                p ∉ pixels))
      ∧ (∀ p, p < (⟨4, [0]⟩ : Points).numPoints →
          (m.imageMask[p]? = some 0 ↔ m.mapDataToLevel[p]? = some UINT64_MAX)) :=
  C29_refined_maps_consistent true ⟨4, [0]⟩ [0, 0, 1, 1] [[0, 1], [2, 3]] [0, 1] [0]
    (by decide) rfl (by decide) (by decide) (by decide) (by decide) rfl (by decide) (by decide)
    (by decide) (fun _ => ⟨[0, 0], rfl, rfl⟩)

end RefineAction

/-! ## A restart while a job is running -/

namespace EmbedWorker

theorem chunkDuring_id (s : Nat → Bool) (r : Run) : chunkDuring (fun v => v) s r = chunk s r :=
  rfl

theorem descentLoopDuring_id (s : Nat → Bool) :
    ∀ (k : Nat) (rem : Int) (r : Run), rem.toNat = k →
      descentLoopDuring (fun _ v => v) s rem r = descentLoop s rem r := by
  intro k
  induction k using Nat.strong_induction_on with
  | _ k ih =>
    intro rem r hk
    rw [descentLoopDuring, descentLoop]
    split_ifs with h hrd
    · rfl
    · rw [chunkDuring_id]
      refine ih _ ?_ _ _ rfl
      simp only [castU32, castI32, updateSteps] at *
      omega
    · rfl

/-- When the other thread does nothing, the run is the run of `compute`. -/
theorem computeDuring_id (w : Worker) (N : Nat) (init : Bool) (s : Nat → Bool) :
    computeDuring (fun _ v => v) w N init s = compute w N init s := by
  unfold computeDuring compute
  simp only [descentLoopDuring_id s _ _ _ rfl]

end EmbedWorker

namespace SPHPlugin

open EmbedWorker in
theorem descentLoopDuring_restart (N : Nat) (r : Run) (hc : r.checks = 0)
    (hf : r.w.shouldStop = false) :
    descentLoopDuring (fun j v => if j = 0 then (restartTriggered v N).1 else v) neverStopped
        990 r
      = (980, (readStop neverStopped
          (chunkDuring (fun v => (restartTriggered v N).1) neverStopped r)).2, true) := by
  have c0 : (990 : Int) > 0 ∧ castU32 990 ≥ updateSteps := by decide
  have c1 : (980 : Int) > 0 ∧ castU32 980 ≥ updateSteps := by decide
  have h1 : castI32 ((castU32 (990 : Int) : Int) - ((updateSteps : Nat) : Int)) = 980 := by
    decide
  have rd0 : (readStop neverStopped r).1 = false := by
    simp [readStop, hf, neverStopped]
  have rd1 : (readStop neverStopped
      (chunkDuring (fun v => (restartTriggered v N).1) neverStopped r)).1 = true := by
    simp [readStop, chunkDuring, checkPublishExtends_flag, advance, restartTriggered,
      ComputeEmbeddingWrapper.restartComputation, ComputeEmbeddingWrapper.compute,
      ComputeEmbeddingWrapper.setNumIterations, stop, Run.emit]
  rw [descentLoopDuring, dif_pos c0, if_neg (by rw [rd0]; decide), h1, descentLoopDuring,
    dif_pos c1]
  simp only [hc, if_true]
  rw [if_pos rd1]

open EmbedWorker in
theorem interruptedJob_eq (N : Nat) :
    interruptedJob ⟨0, 250, false⟩ 1000 N
      = { w := ⟨10, 250, true⟩
          trace := [Event.started, Event.engineResetStop, Event.initGradientDescent 10,
            Event.embeddingUpdate, Event.continueGradientDescent 10, Event.embeddingUpdate]
          checks := 2, assertFailed := false } := by
  have h0 : castI32 ((castU32 ((1000 : Nat) : Int) : Int) - ((updateSteps : Nat) : Int)) = 990 := by
    decide
  unfold interruptedJob computeDuring
  simp only [h0, show ¬ ((1000 : Nat) = 0) by decide, if_false, if_true,
    show ¬ (1000 ≤ updateSteps) by decide]
  rw [descentLoopDuring_restart N _ rfl rfl]
  rfl

/-- Whatever the number of iterations `N` of the restarted job, it starts from the
ten iterations that the interrupted job has added after the reset, runs to its
end and leaves the counter at `N + 10`. -/
theorem restartedJob_current (N : Nat) (h1 : 1 ≤ N) (h2 : N < 2147483648) :
    (restartedJob ⟨0, 250, false⟩ 1000 N).trace.count EmbedWorker.Event.finished = 1
    ∧ (restartedJob ⟨0, 250, false⟩ 1000 N).w.currentIteration = N + 10 := by
  unfold restartedJob
  rw [interruptedJob_eq]
  simp only [ComputeEmbeddingWrapper.runJob, restartTriggered,
    ComputeEmbeddingWrapper.restartComputation, ComputeEmbeddingWrapper.compute]
  refine ⟨((EmbedWorker.compute_finished_iff_no_stop_seen _ N true EmbedWorker.neverStopped
    h1 h2).2.2.1 (fun _ _ => rfl)).1, ?_⟩
  rw [EmbedWorker.compute_uninterrupted_current _ N true h1 h2
    (show (10 : Nat) < 4294967296 by decide)]
  show (10 + N) % 4294967296 = N + 10
  omega

/-- C14 fails on the code when the restart is triggered while a job is running. The
worker thread runs `compute(1000, init = true)` from `current = 0` and is in the
engine step of the first pass of its loop, at `current = 10`, when the GUI thread
handles the restart action with 1000 iterations configured: the handler sets the stop
flag, writes `current = 0` and queues the job. The running job then executes its
`_currentIteration += _updateSteps`, sees the flag at its next check and returns
with `current = 10` and without `finished`. The restarted job starts from there,
runs to completion without a stop, emits `finished`, and ends with
`current = 1010`, not 1000. -/
theorem C14_restart_while_running :
    restartTriggered ⟨10, 250, false⟩ 1000 = (⟨0, 250, true⟩, { iterations := 1000, init := true })
    ∧ interruptedJob ⟨0, 250, false⟩ 1000 1000
      = { w := ⟨10, 250, true⟩
          trace := [EmbedWorker.Event.started, EmbedWorker.Event.engineResetStop,
            EmbedWorker.Event.initGradientDescent 10, EmbedWorker.Event.embeddingUpdate,
            EmbedWorker.Event.continueGradientDescent 10, EmbedWorker.Event.embeddingUpdate]
          checks := 2, assertFailed := false }
    ∧ (restartedJob ⟨0, 250, false⟩ 1000 1000).trace.count EmbedWorker.Event.finished = 1
    ∧ (restartedJob ⟨0, 250, false⟩ 1000 1000).w.currentIteration = 1010 :=
  ⟨rfl, interruptedJob_eq 1000, (restartedJob_current 1000 (by decide) (by decide)).1,
    (restartedJob_current 1000 (by decide) (by decide)).2⟩

end SPHPlugin
